import Mathlib

/-!
Verification of the Clipforge timeline editor and export compiler.

This file gives a shallow embedding of the core of `src-tauri/src/timeline.rs`
and `src-tauri/src/export.rs` and proves properties of the embedded operations.

Conventions of the embedding:
* Rust `f64`/`f32` values (positions, durations, trim points, speed, volume)
  are modelled as exact rationals `ℚ`.
* Rust `String` ids are Lean `String`.
* `Uuid::new_v4()` is a nondeterministic fresh-id generator; the generated ids
  are passed to the embedded operations as explicit parameters.
* The Rust services mutate `self.current_timeline` in place; every embedded
  mutation returns the pair `(result, post-state timeline)` so that the state
  after an error path is captured faithfully (several error paths in the
  source leave a partially mutated timeline behind).
* `std::collections::HashMap` iteration order (which is randomized per map
  instance in Rust) is modelled by an explicit order parameter ranging over
  the permutations of the key set; all other map usage (insert/lookup) is
  deterministic and modelled by association lists.
-/

namespace Clipforge

/-- Decimal rendering of a `Nat`, digit characters most significant first,
matching Rust `format!("{}", n)` for unsigned integers.  Structural recursion
on a fuel argument so that the kernel can evaluate it. -/
def natStrAux : Nat → Nat → List Char
  | 0, _ => []
  | _ + 1, 0 => []
  | fuel + 1, n + 1 => natStrAux fuel ((n + 1) / 10) ++ [Nat.digitChar ((n + 1) % 10)]

/-- Decimal string of a natural number, as Rust prints a `usize`/`u32`. -/
def natStr (n : Nat) : String := if n = 0 then "0" else ⟨natStrAux n n⟩

/-- Decimal string of an integer, as Rust prints an `i64`. -/
def intStr (i : Int) : String := if i < 0 then "-" ++ natStr i.natAbs else natStr i.natAbs

/-- Rendering of a rational used where the Rust source formats an `f64`/`f32`
with `format!("{}")`.  On integral values this coincides with Rust output
("5", "0", "-3"); non-integral values are rendered as `num/den`, which is a
deviation from the decimal rendering of `f64` but none of the verified claims
depends on the rendering of non-integral values. -/
def showQ (q : ℚ) : String := if q.den = 1 then intStr q.num else intStr q.num ++ "/" ++ natStr q.den

/-- Resolution, from `models.rs` (`width`/`height : u32`). -/
structure Resolution where
  width : Nat
  height : Nat
deriving DecidableEq

/-- Track type, from `models.rs`. -/
inductive TrackType where
  | Video
  | Audio
  | Overlay
deriving DecidableEq

/-- Effect kind, from `models.rs` (`EffectType`). -/
inductive EffectType where
  | Brightness (value : ℚ)
  | Contrast (value : ℚ)
  | Saturation (value : ℚ)
  | Blur (radius : ℚ)
  | Sharpen (amount : ℚ)
  | Normalize
  | FadeIn (duration : ℚ)
  | FadeOut (duration : ℚ)
deriving DecidableEq

/-- Effect, from `models.rs`. -/
structure Effect where
  id : String
  effect_type : EffectType
  enabled : Bool
deriving DecidableEq

/-- Clip, from `models.rs`. -/
structure Clip where
  id : String
  media_file_id : String
  name : Option String
  track_position : ℚ
  duration : ℚ
  trim_start : ℚ
  trim_end : ℚ
  effects : List Effect
  volume : ℚ
  speed : ℚ
deriving DecidableEq

/-- Track, from `models.rs`. -/
structure Track where
  id : String
  track_type : TrackType
  clips : List Clip
  muted : Bool
  locked : Bool
deriving DecidableEq

/-- Subtitle segment, from `models.rs`. -/
structure SubtitleSegment where
  id : Nat
  start_time : ℚ
  end_time : ℚ
  text : String
deriving DecidableEq

/-- Subtitle track, from `models.rs` (the `source` field is irrelevant to the
verified claims and is omitted). -/
structure SubtitleTrack where
  segments : List SubtitleSegment
  language : String
deriving DecidableEq

/-- Timeline, from `models.rs`. -/
structure Timeline where
  id : String
  name : String
  framerate : ℚ
  resolution : Resolution
  tracks : List Track
  duration : ℚ
  subtitle_track : Option SubtitleTrack
  subtitle_enabled : Bool
deriving DecidableEq

/-- Timeline operation errors, from `timeline.rs` (`TimelineError`).  The
serde/io variants cannot arise in the embedded operations and are omitted. -/
inductive TimelineError where
  | TimelineNotFound
  | TrackNotFound (id : String)
  | ClipNotFound (id : String)
  | InvalidOperation (msg : String)
  | OverlapError (msg : String)
deriving DecidableEq

/-- Start of a clip's half-open interval on the timeline. -/
def clipStart (c : Clip) : ℚ := c.track_position

/-- End of a clip's half-open interval on the timeline. -/
def clipEnd (c : Clip) : ℚ := c.track_position + c.duration

/-- Membership of a time point in a clip's half-open interval
`[track_position, track_position + duration)`. -/
def inClip (c : Clip) (x : ℚ) : Prop := clipStart c ≤ x ∧ x < clipEnd c

/-- The overlap scan of `TimelineService::check_overlap` (timeline.rs 424-447):
walk the existing clips, skip a clip with the same id, and report the first
clip whose half-open interval intersects the candidate's. -/
def checkOverlapClips (new_clip : Clip) : List Clip → Option String
  | [] => none
  | existing :: rest =>
    if existing.id = new_clip.id then checkOverlapClips new_clip rest
    else if clipStart new_clip < clipEnd existing ∧ clipEnd new_clip > clipStart existing then
      some ("Clip overlaps with existing clip " ++ existing.id ++ " at position "
        ++ showQ existing.track_position)
    else checkOverlapClips new_clip rest

/-- `TimelineService::check_overlap` on a track. -/
def check_overlap (track : Track) (new_clip : Clip) : Option String :=
  checkOverlapClips new_clip track.clips

/-- `TimelineService::calculate_duration` (timeline.rs 450-463): running
maximum of clip end times over all tracks, started at `0.0`. -/
def calcDurClips (acc : ℚ) : List Clip → ℚ
  | [] => acc
  | c :: rest => calcDurClips (if clipEnd c > acc then clipEnd c else acc) rest

/-- Fold of `calculate_duration` over the track list. -/
def calculate_duration_aux (acc : ℚ) : List Track → ℚ
  | [] => acc
  | t :: rest => calculate_duration_aux (calcDurClips acc t.clips) rest

/-- `TimelineService::calculate_duration`. -/
def calculate_duration (tracks : List Track) : ℚ := calculate_duration_aux 0 tracks

/-- `TimelineService::create_timeline` (timeline.rs 58-96).  The three
freshly generated UUIDs (timeline id, default video track id, default audio
track id) are passed as parameters. -/
def create_timeline (tlid name : String) (framerate : ℚ) (resolution : Resolution)
    (vid aid : String) : Timeline :=
  { id := tlid
    name := name
    framerate := framerate
    resolution := resolution
    tracks :=
      [ { id := vid, track_type := .Video, clips := [], muted := false, locked := false },
        { id := aid, track_type := .Audio, clips := [], muted := false, locked := false } ]
    duration := 0
    subtitle_track := none
    subtitle_enabled := false }

/-- Locate the first element satisfying `p`, returning the elements before it,
the element itself, and the elements after it.  This is the shape of every
`iter().position` / `iter_mut().find` scan in `timeline.rs`. -/
def findSplitP {α : Type} (p : α → Bool) : List α → Option (List α × α × List α)
  | [] => none
  | x :: xs =>
    if p x then some ([], x, xs)
    else (findSplitP p xs).map (fun y => (x :: y.1, y.2.1, y.2.2))

/-- Locate the first track with the given id (`iter_mut().find` on tracks). -/
def findTrackSplit (tid : String) : List Track → Option (List Track × Track × List Track) :=
  findSplitP (fun t => t.id == tid)

/-- Locate the first clip with the given id in a clip list. -/
def findClipSplit (cid : String) : List Clip → Option (List Clip × Clip × List Clip) :=
  findSplitP (fun c => c.id == cid)

/-- Scan the track list for the first track on which `hit` fires, replace that
track by the rewritten one and return the associated result.  This is the
shape of the `for track in &mut timeline.tracks { if let Some(..) = ... }`
loops of `remove_clip`, `move_clip`, `trim_clip` and `split_clip`. -/
def scanTracks {α : Type} (hit : Track → Option (α × Track)) :
    List Track → Option (α × List Track)
  | [] => none
  | t :: ts =>
    match hit t with
    | some (r, t') => some (r, t' :: ts)
    | none => (scanTracks hit ts).map (fun x => (x.1, t :: x.2))

/-- `TimelineService::add_track` (timeline.rs 111-130); the fresh UUID is the
`tid` parameter.  Always succeeds; the timeline duration is not touched. -/
def add_track (tl : Timeline) (tid : String) (track_type : TrackType) :
    Except TimelineError Unit × Timeline :=
  (Except.ok (),
    { tl with tracks := tl.tracks ++
        [{ id := tid, track_type := track_type, clips := [], muted := false, locked := false }] })

/-- `TimelineService::remove_track` (timeline.rs 133-144).  Note that the
source does not recompute the timeline duration on this path. -/
def remove_track (tl : Timeline) (tid : String) : Except TimelineError Unit × Timeline :=
  match findTrackSplit tid tl.tracks with
  | none => (Except.error (.TrackNotFound tid), tl)
  | some (pre, _, suf) => (Except.ok (), { tl with tracks := pre ++ suf })

/-- `TimelineService::add_clip` (timeline.rs 147-180): find the track, reject
if locked, reject on overlap, otherwise append the clip and grow the timeline
duration to the clip end if that is larger. -/
def add_clip (tl : Timeline) (tid : String) (clip : Clip) :
    Except TimelineError Unit × Timeline :=
  match findTrackSplit tid tl.tracks with
  | none => (Except.error (.TrackNotFound tid), tl)
  | some (pre, t, suf) =>
    if t.locked then
      (Except.error (.InvalidOperation ("Track " ++ tid ++ " is locked")), tl)
    else
      match check_overlap t clip with
      | some msg => (Except.error (.OverlapError msg), tl)
      | none =>
        let clip_end := clip.track_position + clip.duration
        (Except.ok (),
          { tl with
              tracks := pre ++ { t with clips := t.clips ++ [clip] } :: suf
              duration := if clip_end > tl.duration then clip_end else tl.duration })

/-- Per-track action of `remove_clip`: drop the first clip with the id. -/
def removeHit (cid : String) (t : Track) : Option (Unit × Track) :=
  (findClipSplit cid t.clips).map (fun x => ((), { t with clips := x.1 ++ x.2.2 }))

/-- Scan of `remove_clip` over the track list: remove the first clip with the
given id from the first track that contains one. -/
def removeClipTracks (cid : String) (ts : List Track) : Option (Unit × List Track) :=
  scanTracks (removeHit cid) ts

/-- `TimelineService::remove_clip` (timeline.rs 183-202): remove the clip and
fully recompute the timeline duration. -/
def remove_clip (tl : Timeline) (cid : String) : Except TimelineError Unit × Timeline :=
  match removeClipTracks cid tl.tracks with
  | none => (Except.error (.ClipNotFound cid), tl)
  | some (_, tracks') =>
    (Except.ok (), { tl with tracks := tracks', duration := calculate_duration tracks' })

/-- Per-track action of the removal phase of `move_clip`. -/
def extractHit (cid : String) (t : Track) : Option (Clip × Track) :=
  (findClipSplit cid t.clips).map (fun x => (x.2.1, { t with clips := x.1 ++ x.2.2 }))

/-- Scan of `move_clip` that removes the first clip with the given id from the
track list, returning the clip and the mutated track list. -/
def extractClipTracks (cid : String) (ts : List Track) : Option (Clip × List Track) :=
  scanTracks (extractHit cid) ts

/-- `TimelineService::move_clip` (timeline.rs 205-252): the clip is removed
from its source track first; if the destination validation (track exists, not
locked, no overlap) then fails, the error is returned with the clip already
removed — the source does not restore it. -/
def move_clip (tl : Timeline) (cid ntid : String) (new_position : ℚ) :
    Except TimelineError Unit × Timeline :=
  match extractClipTracks cid tl.tracks with
  | none => (Except.error (.ClipNotFound cid), tl)
  | some (c0, tracks') =>
    let c := { c0 with track_position := new_position }
    let tlMid := { tl with tracks := tracks' }
    match findTrackSplit ntid tracks' with
    | none => (Except.error (.TrackNotFound ntid), tlMid)
    | some (pre, t, suf) =>
      if t.locked then
        (Except.error (.InvalidOperation ("Target track " ++ ntid ++ " is locked")), tlMid)
      else
        match check_overlap t c with
        | some msg => (Except.error (.OverlapError msg), tlMid)
        | none =>
          let tracks'' := pre ++ { t with clips := t.clips ++ [c] } :: suf
          (Except.ok (),
            { tl with tracks := tracks'', duration := calculate_duration tracks'' })

/-- Core of `trim_clip` on the located clip (timeline.rs 265-284).  Faithful
to the source order of operations: a supplied `trim_start` is validated
against the current `trim_end` and then written; a supplied `trim_end` is
validated against the (possibly just updated) `trim_start`.  An error carries
the partially updated clip, because the source mutates in place and returns
early. -/
def trimResult (c : Clip) (ts? te? : Option ℚ) : Except (TimelineError × Clip) Clip :=
  match
    (match ts? with
     | some s =>
       if s < 0 ∨ s ≥ c.trim_end then
         Except.error ((TimelineError.InvalidOperation ("Invalid trim_start: " ++ showQ s)), c)
       else Except.ok { c with trim_start := s }
     | none => Except.ok c) with
  | Except.error e => Except.error e
  | Except.ok c1 =>
    match
      (match te? with
       | some e =>
         if e ≤ c1.trim_start then
           Except.error ((TimelineError.InvalidOperation ("Invalid trim_end: " ++ showQ e)), c1)
         else Except.ok { c1 with trim_end := e }
       | none => Except.ok c1) with
    | Except.error e => Except.error e
    | Except.ok c2 => Except.ok { c2 with duration := (c2.trim_end - c2.trim_start) / c2.speed }

/-- Per-track action of `trim_clip`: the located clip is replaced by the
(fully or partially) updated clip in both outcomes of `trimResult`. -/
def trimHit (cid : String) (ts? te? : Option ℚ) (t : Track) :
    Option (Except TimelineError Unit × Track) :=
  (findClipSplit cid t.clips).map (fun x =>
    match trimResult x.2.1 ts? te? with
    | Except.ok c' => (Except.ok (), { t with clips := x.1 ++ c' :: x.2.2 })
    | Except.error (e, c') => (Except.error e, { t with clips := x.1 ++ c' :: x.2.2 }))

/-- Scan of `trim_clip` over the track list. -/
def trimTracks (cid : String) (ts? te? : Option ℚ) (ts : List Track) :
    Option (Except TimelineError Unit × List Track) :=
  scanTracks (trimHit cid ts? te?) ts

/-- `TimelineService::trim_clip` (timeline.rs 255-295): on success the clip
duration and the timeline duration are recomputed; on an error after a
successful `trim_start` update the partially updated clip stays in place and
the timeline duration is left as it was. -/
def trim_clip (tl : Timeline) (cid : String) (ts? te? : Option ℚ) :
    Except TimelineError Unit × Timeline :=
  match trimTracks cid ts? te? tl.tracks with
  | none => (Except.error (.ClipNotFound cid), tl)
  | some (Except.ok (), tracks') =>
    (Except.ok (), { tl with tracks := tracks', duration := calculate_duration tracks' })
  | some (Except.error e, tracks') => (Except.error e, { tl with tracks := tracks' })

/-- First half produced by `split_clip` (timeline.rs 324-335); `fid` stands
for the freshly generated UUID. -/
def splitFirstClip (c : Clip) (split_time : ℚ) (fid : String) : Clip :=
  { c with
      id := fid
      duration := split_time - c.track_position
      trim_end := c.trim_start + (split_time - c.track_position) * c.speed }

/-- Second half produced by `split_clip` (timeline.rs 338-349); `sid` stands
for the freshly generated UUID. -/
def splitSecondClip (c : Clip) (split_time : ℚ) (sid : String) : Clip :=
  { c with
      id := sid
      track_position := split_time
      duration := c.duration - (split_time - c.track_position)
      trim_start := c.trim_start + (split_time - c.track_position) * c.speed }

/-- Per-track action of `split_clip`: on a bounds violation the source
returns before mutating, so the track is handed back unchanged. -/
def splitHit (cid : String) (split_time : ℚ) (fid sid : String) (t : Track) :
    Option (Except TimelineError (String × String) × Track) :=
  (findClipSplit cid t.clips).map (fun x =>
    if split_time ≤ clipStart x.2.1 ∨ split_time ≥ clipEnd x.2.1 then
      (Except.error (.InvalidOperation
        ("Split time " ++ showQ split_time ++ " is outside clip bounds ["
          ++ showQ (clipStart x.2.1) ++ ", " ++ showQ (clipEnd x.2.1) ++ "]")), t)
    else
      (Except.ok (fid, sid),
        { t with clips := x.1 ++ splitFirstClip x.2.1 split_time fid ::
            splitSecondClip x.2.1 split_time sid :: x.2.2 }))

/-- Scan of `split_clip` over the track list. -/
def splitTracks (cid : String) (split_time : ℚ) (fid sid : String) (ts : List Track) :
    Option (Except TimelineError (String × String) × List Track) :=
  scanTracks (splitHit cid split_time fid sid) ts

/-- `TimelineService::split_clip` (timeline.rs 298-365): replace the located
clip with its two halves.  The timeline duration field is not recomputed on
this path. -/
def split_clip (tl : Timeline) (cid : String) (split_time : ℚ) (fid sid : String) :
    Except TimelineError (String × String) × Timeline :=
  match splitTracks cid split_time fid sid tl.tracks with
  | none => (Except.error (.ClipNotFound cid), tl)
  | some (r, tracks') => (r, { tl with tracks := tracks' })

/-- Export errors, from `models.rs` (`ExportError`); the io variant is
irrelevant here. -/
inductive ExportError where
  | FFmpegError (msg : String)
  | ValidationError (msg : String)
  | OutputError (msg : String)
  | Cancelled
deriving DecidableEq

/-- Export settings, from `models.rs`. -/
structure ExportSettings where
  video_codec : String
  audio_codec : String
  video_bitrate : Nat
  audio_bitrate : Nat
  framerate : ℚ
  resolution : Resolution
  format : String
deriving DecidableEq

/-- Association-list lookup with string keys, modelling `HashMap::get` (the
source only ever inserts and looks up these maps, so an association list in
insertion order is a faithful model). -/
def lookupA {α : Type} (m : List (String × α)) (k : String) : Option α :=
  (m.find? (fun p => p.1 == k)).map (·.2)

/-- Association-list lookup with `Nat` keys. -/
def lookupN {α : Type} (m : List (Nat × α)) (k : Nat) : Option α :=
  (m.find? (fun p => p.1 == k)).map (·.2)

/-- Input registration over the clips of one track (export.rs 136-148): each
clip's media file must be present in the registry; the first clip of a media
file appends `-i path` and assigns the next input index. -/
def registerClips (media : List (String × String)) :
    List Clip → List String → List (String × Nat) → Nat →
    Except ExportError (List String × List (String × Nat) × Nat)
  | [], args, imap, idx => Except.ok (args, imap, idx)
  | c :: cs, args, imap, idx =>
    match lookupA media c.media_file_id with
    | none => Except.error (.ValidationError ("Media file not found: " ++ c.media_file_id))
    | some path =>
      if (lookupA imap c.media_file_id).isSome then registerClips media cs args imap idx
      else registerClips media cs (args ++ ["-i", path]) (imap ++ [(c.media_file_id, idx)]) (idx + 1)

/-- Input registration over all unmuted tracks (export.rs 131-149). -/
def registerTracks (media : List (String × String)) :
    List Track → List String → List (String × Nat) → Nat →
    Except ExportError (List String × List (String × Nat) × Nat)
  | [], args, imap, idx => Except.ok (args, imap, idx)
  | t :: ts, args, imap, idx =>
    if t.muted then registerTracks media ts args imap idx
    else
      match registerClips media t.clips args imap idx with
      | Except.error e => Except.error e
      | Except.ok (args', imap', idx') => registerTracks media ts args' imap' idx'

/-- Track selector for the video side of the filter graph
(`TrackType::Video | TrackType::Overlay` in export.rs). -/
def isVideoTrack (t : Track) : Bool :=
  match t.track_type with
  | .Video => true
  | .Overlay => true
  | .Audio => false

/-- Track selector for the audio side of the filter graph. -/
def isAudioTrack (t : Track) : Bool :=
  match t.track_type with
  | .Audio => true
  | _ => false

/-- The sequence of input indices referenced, in traversal order, by the clips
of the unmuted tracks selected by `sel` (export.rs 226-247: the usage-count
pass; a clip whose media id is missing from the input map is skipped there). -/
def refsOf (sel : Track → Bool) (tl : Timeline) (im : List (String × Nat)) : List Nat :=
  (tl.tracks.filter (fun t => !t.muted && sel t)).flatMap
    (fun t => t.clips.filterMap (fun c => lookupA im c.media_file_id))

/-- Names of the `n` outputs of a split filter for input `idx`
(`"{pre}{idx}_tmp{i}"`, export.rs 255-257 and 274-276). -/
def splitOutputs (pre : String) (idx n : Nat) : List String :=
  (List.range n).map (fun i => pre ++ natStr idx ++ "_tmp" ++ natStr i)

/-- The split filter emitted for input `idx`
(`"[{idx}{tag}]{splitName}={count}[o0][o1]..."`, export.rs 259-264). -/
def splitFilterStr (tag splitName pre : String) (refs : List Nat) (idx : Nat) : String :=
  "[" ++ natStr idx ++ tag ++ "]" ++ splitName ++ "=" ++ natStr (refs.count idx)
    ++ String.join ((splitOutputs pre idx (refs.count idx)).map (fun s => "[" ++ s ++ "]"))

/-- Contents of the `video_split_map`/`audio_split_map` association: one entry
per input index used more than once (export.rs 250-289).  The source stores
this in a `HashMap`; only lookups are performed on it, so the list order is
irrelevant and fixed here by first occurrence. -/
def splitMap (pre : String) (refs : List Nat) : List (Nat × List String) :=
  (refs.dedup.filter (fun i => decide (1 < refs.count i))).map
    (fun i => (i, splitOutputs pre i (refs.count i)))

/-- Bump a per-input counter, modelling
`*video_split_counters.entry(idx).or_insert(0) += 1`. -/
def bump (f : Nat → Nat) (i : Nat) : Nat → Nat := fun j => if j = i then f j + 1 else f j

/-- The source stream consumed by a video clip chain (export.rs 313-320):
the next unconsumed split output when a split map entry exists, the raw input
stream otherwise. -/
def vSource (vsmap : List (Nat × List String)) (vctr : Nat → Nat) (idx : Nat) : String :=
  match lookupN vsmap idx with
  | some outs => "[" ++ outs.getD (vctr idx) "" ++ "]"
  | none => "[" ++ natStr idx ++ ":v]"

/-- The source stream consumed by an audio clip chain (export.rs 355-362). -/
def aSource (asmap : List (Nat × List String)) (actr : Nat → Nat) (idx : Nat) : String :=
  match lookupN asmap idx with
  | some outs => "[" ++ outs.getD (actr idx) "" ++ "]"
  | none => "[" ++ natStr idx ++ ":a]"

/-- Truncation of a rational toward zero, modelling Rust `as i32` on the
(small, in-range) effect parameters. -/
def truncQ (q : ℚ) : Int :=
  if q < 0 then -(Int.ofNat (Int.toNat ⌊-q⌋)) else Int.ofNat (Int.toNat ⌊q⌋)

/-- The filter text of one effect (export.rs 449-474). -/
def effectFilterStr : EffectType → String
  | .Brightness v => "eq=brightness=" ++ showQ v
  | .Contrast v => "eq=contrast=" ++ showQ v
  | .Saturation v => "eq=saturation=" ++ showQ v
  | .Blur r => "boxblur=" ++ intStr (truncQ (r * 10)) ++ ":1"
  | .Sharpen a => "unsharp=5:5:" ++ showQ (a * 2)
  | .Normalize => "loudnorm"
  | .FadeIn d => "fade=t=in:st=0:d=" ++ showQ d
  | .FadeOut d => "fade=t=out:st=0:d=" ++ showQ d

/-- `ExportService::build_effects_filter` (export.rs 441-479): the enabled
effects' filter texts joined with commas. -/
def build_effects_filter (effects : List Effect) : String :=
  String.intercalate "," ((effects.filter (·.enabled)).map (fun e => effectFilterStr e.effect_type))

/-- The per-clip video chain filter (export.rs 322-340). -/
def videoChainStr (source : String) (c : Clip) (label : String) : String :=
  source ++ "trim=start=" ++ showQ c.trim_start ++ ":duration=" ++ showQ c.duration
    ++ ",setpts=PTS-STARTPTS"
    ++ (if c.effects.isEmpty then "" else "," ++ build_effects_filter c.effects)
    ++ (if 1 / 100 < |c.speed - 1| then ",setpts=" ++ showQ (1 / c.speed) ++ "*PTS" else "")
    ++ "[" ++ label ++ "]"

/-- The per-clip audio chain filter (export.rs 364-375). -/
def audioChainStr (source : String) (c : Clip) (label : String) : String :=
  source ++ "atrim=start=" ++ showQ c.trim_start ++ ":duration=" ++ showQ c.duration
    ++ ",asetpts=PTS-STARTPTS"
    ++ (if 1 / 100 < |c.volume - 1| then ",volume=" ++ showQ c.volume else "")
    ++ "[" ++ label ++ "]"

/-- Chain construction over the clips of one video/overlay track
(export.rs 304-342), threading the split-output counters. -/
def processVClips (im : List (String × Nat)) (vsmap : List (Nat × List String)) (tIdx : Nat) :
    List (Nat × Clip) → (Nat → Nat) →
    Except ExportError ((Nat → Nat) × List String × List String)
  | [], vctr => Except.ok (vctr, [], [])
  | (cIdx, c) :: rest, vctr =>
    match lookupA im c.media_file_id with
    | none => Except.error (.ValidationError ("Input mapping not found for: " ++ c.media_file_id))
    | some idx =>
      let label := "v" ++ natStr tIdx ++ "_" ++ natStr cIdx
      let src := vSource vsmap vctr idx
      let vctr' := if (lookupN vsmap idx).isSome then bump vctr idx else vctr
      match processVClips im vsmap tIdx rest vctr' with
      | Except.error e => Except.error e
      | Except.ok (vc, fs, ls) => Except.ok (vc, videoChainStr src c label :: fs, label :: ls)

/-- Chain construction over the clips of one audio track (export.rs 344-378). -/
def processAClips (im : List (String × Nat)) (asmap : List (Nat × List String)) (tIdx : Nat) :
    List (Nat × Clip) → (Nat → Nat) →
    Except ExportError ((Nat → Nat) × List String × List String)
  | [], actr => Except.ok (actr, [], [])
  | (cIdx, c) :: rest, actr =>
    match lookupA im c.media_file_id with
    | none => Except.error (.ValidationError ("Input mapping not found for: " ++ c.media_file_id))
    | some idx =>
      let label := "a" ++ natStr tIdx ++ "_" ++ natStr cIdx
      let src := aSource asmap actr idx
      let actr' := if (lookupN asmap idx).isSome then bump actr idx else actr
      match processAClips im asmap tIdx rest actr' with
      | Except.error e => Except.error e
      | Except.ok (ac, fs, ls) => Except.ok (ac, audioChainStr src c label :: fs, label :: ls)

/-- Chain construction over all tracks (export.rs 296-380): tracks are
enumerated with their absolute index (muted tracks keep their index but are
skipped), video/overlay tracks feed the video side, audio tracks the audio
side; both counter maps persist across tracks. -/
def processTracks (im : List (String × Nat)) (vsmap asmap : List (Nat × List String)) :
    List (Nat × Track) → (Nat → Nat) → (Nat → Nat) →
    Except ExportError ((Nat → Nat) × (Nat → Nat) × List String × List String × List String)
  | [], vctr, actr => Except.ok (vctr, actr, [], [], [])
  | (tIdx, t) :: rest, vctr, actr =>
    if t.muted then processTracks im vsmap asmap rest vctr actr
    else if isVideoTrack t then
      match processVClips im vsmap tIdx t.clips.enum vctr with
      | Except.error e => Except.error e
      | Except.ok (vctr', fs, ls) =>
        match processTracks im vsmap asmap rest vctr' actr with
        | Except.error e => Except.error e
        | Except.ok (vc, ac, fs', vls, als) => Except.ok (vc, ac, fs ++ fs', ls ++ vls, als)
    else
      match processAClips im asmap tIdx t.clips.enum actr with
      | Except.error e => Except.error e
      | Except.ok (actr', fs, ls) =>
        match processTracks im vsmap asmap rest vctr actr' with
        | Except.error e => Except.error e
        | Except.ok (vc, ac, fs', vls, als) => Except.ok (vc, ac, fs ++ fs', vls, ls ++ als)

/-- Escaping of the subtitle path (export.rs 418):
`replace("\\", "\\\\").replace(":", "\\:")`. -/
def escapePath (s : String) : String :=
  ⟨s.data.flatMap (fun ch =>
    if ch = '\\' then ['\\', '\\'] else if ch = ':' then ['\\', ':'] else [ch])⟩

/-- Single-quote character, built by code point to keep it out of literals. -/
def sq : String := ⟨[Char.ofNat 39]⟩

/-- The fixed `force_style` suffix of the subtitles filter (export.rs 417). -/
def subtitleStyle : String :=
  ":force_style=" ++ sq
    ++ "FontName=Arial,FontSize=24,PrimaryColour=&H00FFFFFF,OutlineColour=&H00000000,BorderStyle=3,Outline=2,Shadow=1,MarginV=20"
    ++ sq

/-- `ExportService::build_filter_complex` (export.rs 212-438) as the list of
filter nodes, before joining with `";"`.  `vorder`/`aorder` model the
iteration order of the `video_usage_count`/`audio_usage_count` `HashMap`s
(randomized in Rust, hence parameters here); `tempDir`/`epochSecs` model
`std::env::temp_dir()` and the `SystemTime` stamp used for the temporary
subtitle file name (the write of the SRT payload itself is a filesystem
effect with no bearing on the produced filter graph). -/
def buildFilters (tl : Timeline) (im : List (String × Nat)) (vorder aorder : List Nat)
    (tempDir : String) (epochSecs : Nat) : Except ExportError (List String) :=
  let vrefs := refsOf isVideoTrack tl im
  let arefs := refsOf isAudioTrack tl im
  let vsplits := (vorder.filter (fun i => decide (1 < vrefs.count i))).map
    (splitFilterStr ":v" "split" "vsplit" vrefs)
  let asplits := (aorder.filter (fun i => decide (1 < arefs.count i))).map
    (splitFilterStr ":a" "asplit" "asplit" arefs)
  match processTracks im (splitMap "vsplit" vrefs) (splitMap "asplit" arefs)
      tl.tracks.enum (fun _ => 0) (fun _ => 0) with
  | Except.error e => Except.error e
  | Except.ok (_, _, chains, vlabels, alabels) =>
    let vconcat : List String :=
      if vlabels.isEmpty then []
      else
        let videoLabel :=
          if tl.subtitle_enabled && tl.subtitle_track.isSome then "[vconcat]" else "[outv]"
        (String.join (vlabels.map (fun l => "[" ++ l ++ "]")) ++ "concat=n="
            ++ natStr vlabels.length ++ ":v=1:a=0" ++ videoLabel)
          :: (if tl.subtitle_enabled then
                match tl.subtitle_track with
                | some _ =>
                  let tempSrt := tempDir ++ "/clipforge_subtitles_" ++ natStr epochSecs ++ ".srt"
                  ["[vconcat]subtitles=" ++ escapePath tempSrt ++ subtitleStyle ++ "[outv]"]
                | none => []
              else [])
    let aconcat : List String :=
      if alabels.isEmpty then []
      else [String.join (alabels.map (fun l => "[" ++ l ++ "]")) ++ "concat=n="
        ++ natStr alabels.length ++ ":v=0:a=1[outa]"]
    Except.ok (vsplits ++ asplits ++ chains ++ vconcat ++ aconcat)

/-- `build_filter_complex` joined with `";"` (export.rs 437). -/
def build_filter_complex (tl : Timeline) (im : List (String × Nat)) (vorder aorder : List Nat)
    (tempDir : String) (epochSecs : Nat) : Except ExportError String :=
  match buildFilters tl im vorder aorder tempDir epochSecs with
  | Except.error e => Except.error e
  | Except.ok fs => Except.ok (String.intercalate ";" fs)

/-- `ExportService::build_ffmpeg_command` (export.rs 115-209): input
registration, filter graph, stream maps, performance flags, encoder settings,
progress sink, output path. -/
def build_ffmpeg_command (tl : Timeline) (settings : ExportSettings) (output_path : String)
    (media : List (String × String)) (vorder aorder : List Nat)
    (tempDir : String) (epochSecs : Nat) : Except ExportError (List String) :=
  match registerTracks media tl.tracks [] [] 0 with
  | Except.error e => Except.error e
  | Except.ok (inputArgs, im, _) =>
    match build_filter_complex tl im vorder aorder tempDir epochSecs with
    | Except.error e => Except.error e
    | Except.ok fc =>
      Except.ok (["-y"] ++ inputArgs
        ++ (if fc.isEmpty then [] else ["-filter_complex", fc, "-map", "[outv]", "-map", "[outa]"])
        ++ ["-threads", "0", "-max_muxing_queue_size", "1024", "-max_interleave_delta", "500M",
            "-c:v", settings.video_codec, "-b:v", natStr settings.video_bitrate ++ "k",
            "-c:a", settings.audio_codec, "-b:a", natStr settings.audio_bitrate ++ "k",
            "-r", showQ settings.framerate,
            "-s", natStr settings.resolution.width ++ "x" ++ natStr settings.resolution.height,
            "-progress", "pipe:1", output_path])

/-- The output verification step of `ExportService::export_timeline`
(export.rs 68-74), as a function of the observed state of the output path
after the encoding process exited with status zero: the source tests only
`output_path.exists()`; the file size is part of the observation but is never
consulted. -/
def verifyOutput (outputExists : Bool) (_outputSizeBytes : Nat) (output_path : String) :
    Except ExportError String :=
  if !outputExists then Except.error (.OutputError "Output file was not created")
  else Except.ok output_path

/-- All clips of a track list, in order. -/
def allClips (tracks : List Track) : List Clip := tracks.flatMap (·.clips)

/-- The duration value the specification describes, with the `0.0` floor that
`calculate_duration` builds in by starting its running maximum at `0.0`. -/
def specDuration (tracks : List Track) : ℚ :=
  ((allClips tracks).map clipEnd).foldr max 0

/-- Duration consistency: the stored timeline duration agrees with a full
recomputation. -/
def DurConsistent (tl : Timeline) : Prop :=
  tl.duration = calculate_duration tl.tracks

/-- Two clips occupy disjoint half-open intervals. -/
def ClipsDisjoint (a b : Clip) : Prop := clipEnd a ≤ clipStart b ∨ clipEnd b ≤ clipStart a

/-- No two distinct clips of the track overlap. -/
def TrackNoOverlap (t : Track) : Prop := t.clips.Pairwise ClipsDisjoint

/-- The no-overlap invariant over a whole timeline. -/
def NoOverlapTL (tl : Timeline) : Prop := ∀ t ∈ tl.tracks, TrackNoOverlap t

/-- Number of clips of the timeline carrying the given id. -/
def idCount (tracks : List Track) (i : String) : Nat :=
  (tracks.map (fun t => t.clips.countP (fun c => c.id == i))).sum

/-- Every clip id occurs at most once in the timeline. -/
def IdsUnique (tl : Timeline) : Prop := ∀ i, idCount tl.tracks i ≤ 1

/-- A clip id is fresh for the timeline. -/
def FreshId (tl : Timeline) (i : String) : Prop := idCount tl.tracks i = 0

/-- The combined editor invariant used for the no-overlap theorem. -/
def InvC1 (tl : Timeline) : Prop := NoOverlapTL tl ∧ IdsUnique tl

/-- No clip with the given id is present on any track. -/
def NoClipWithId (tl : Timeline) (i : String) : Prop :=
  ∀ t ∈ tl.tracks, ∀ c ∈ t.clips, c.id ≠ i

/-- One editor operation of `TimelineService`, with the freshly generated
UUIDs of `add_track` and `split_clip` as explicit payload. -/
inductive EditorOp where
  | addTrack (tid : String) (track_type : TrackType)
  | removeTrack (tid : String)
  | addClip (tid : String) (clip : Clip)
  | removeClip (cid : String)
  | moveClip (cid ntid : String) (new_position : ℚ)
  | trimClip (cid : String) (ts? te? : Option ℚ)
  | splitClip (cid : String) (split_time : ℚ) (fid sid : String)

/-- Apply one editor operation; `some` is the post-state of a call that
returned `Ok`, `none` stands for any call that returned an error. -/
def applyOp (tl : Timeline) : EditorOp → Option Timeline
  | .addTrack tid ty => match add_track tl tid ty with
    | (Except.ok _, tl') => some tl'
    | (Except.error _, _) => none
  | .removeTrack tid => match remove_track tl tid with
    | (Except.ok _, tl') => some tl'
    | (Except.error _, _) => none
  | .addClip tid c => match add_clip tl tid c with
    | (Except.ok _, tl') => some tl'
    | (Except.error _, _) => none
  | .removeClip cid => match remove_clip tl cid with
    | (Except.ok _, tl') => some tl'
    | (Except.error _, _) => none
  | .moveClip cid ntid p => match move_clip tl cid ntid p with
    | (Except.ok _, tl') => some tl'
    | (Except.error _, _) => none
  | .trimClip cid a b => match trim_clip tl cid a b with
    | (Except.ok _, tl') => some tl'
    | (Except.error _, _) => none
  | .splitClip cid st fid sid => match split_clip tl cid st fid sid with
    | (Except.ok _, tl') => some tl'
    | (Except.error _, _) => none

/-- Apply a sequence of editor operations, succeeding only if every single
operation succeeds. -/
def applyOps (tl : Timeline) : List EditorOp → Option Timeline
  | [] => some tl
  | op :: ops => match applyOp tl op with
    | none => none
    | some tl' => applyOps tl' ops

/-- The clip-placing operations: those the amended no-overlap claim is about. -/
def PlacingOp : EditorOp → Prop
  | .addClip _ _ => True
  | .moveClip _ _ _ => True
  | .splitClip _ _ _ _ => True
  | _ => False

/-- Freshness of the ids an operation introduces: an added clip's id, and the
two UUIDs generated by a split, must not already occur in the timeline (in the
service they are `Uuid::new_v4()` values). -/
def OpFresh (tl : Timeline) : EditorOp → Prop
  | .addClip _ c => FreshId tl c.id
  | .splitClip _ _ fid sid => FreshId tl fid ∧ FreshId tl sid ∧ fid ≠ sid
  | _ => True

/-- One successful clip-placing editor step with fresh ids. -/
def StepC1 (tl tl' : Timeline) : Prop :=
  ∃ op, PlacingOp op ∧ OpFresh tl op ∧ applyOp tl op = some tl'

/-- Operations other than `remove_track` (the amended duration-consistency
claim is about these). -/
def NotRemoveTrack : EditorOp → Prop
  | .removeTrack _ => False
  | _ => True

/-- Set every track's `locked` flag to `false`, leaving everything else
unchanged. -/
def unlockTracks (tl : Timeline) : Timeline :=
  { tl with tracks := tl.tracks.map (fun t => { t with locked := false }) }

/-- Boolean list-prefix test used to state facts about the filter graph. -/
def pfxB : List Char → List Char → Bool
  | [], _ => true
  | _ :: _, [] => false
  | a :: as, b :: bs => a == b && pfxB as bs

/-- String `p` is a prefix of string `s`. -/
def strStarts (p s : String) : Bool := pfxB p.data s.data

/-- A valid iteration order of a Rust `HashMap` whose key set is the set of
elements of `refs`: each key exactly once, in any order. -/
def ValidOrder (order refs : List Nat) : Prop :=
  order.Nodup ∧ ∀ i, i ∈ order ↔ i ∈ refs

/-- The raw input video stream label for input `idx`. -/
def rawV (idx : Nat) : String := "[" ++ natStr idx ++ ":v]"

/-- The raw input audio stream label for input `idx`. -/
def rawA (idx : Nat) : String := "[" ++ natStr idx ++ ":a]"

/-- The bracketed `j`-th video split output for input `idx`. -/
def vOut (idx j : Nat) : String := "[vsplit" ++ natStr idx ++ "_tmp" ++ natStr j ++ "]"

/-- The bracketed `j`-th audio split output for input `idx`. -/
def aOut (idx j : Nat) : String := "[asplit" ++ natStr idx ++ "_tmp" ++ natStr j ++ "]"

/-- The split-output counter map after consuming a sequence of input
references (the fold of the per-clip counter updates of export.rs 313-320). -/
def ctrAfter (smap : List (Nat × List String)) : List Nat → (Nat → Nat) → (Nat → Nat)
  | [], ctr => ctr
  | i :: r, ctr => ctrAfter smap r (if (lookupN smap i).isSome then bump ctr i else ctr)

/-- The sequence of source streams consumed by a sequence of input references,
given the split map and a source selector (`vSource`/`aSource`); this is the
sequence of `input_source` values of export.rs 313-320 / 355-362 in
consumption order. -/
def consumeTrace (smap : List (Nat × List String)) (srcOf : (Nat → Nat) → Nat → String) :
    List Nat → (Nat → Nat) → List String
  | [], _ => []
  | i :: r, ctr =>
    srcOf ctr i :: consumeTrace smap srcOf r (if (lookupN smap i).isSome then bump ctr i else ctr)

/-- Fixture: a plain clip occupying `[0, 5)` with a full trim window. -/
def clipW : Clip :=
  { id := "c1", media_file_id := "m1", name := none, track_position := 0, duration := 5,
    trim_start := 0, trim_end := 5, effects := [], volume := 1, speed := 1 }

/-- Fixture: a plain clip occupying `[5, 10)`. -/
def clipW2 : Clip :=
  { id := "c2", media_file_id := "m1", name := none, track_position := 5, duration := 5,
    trim_start := 0, trim_end := 5, effects := [], volume := 1, speed := 1 }

/-- Fixture: a clip with a nontrivial trim window `[2, 10)` at position 0. -/
def clipTrimW : Clip :=
  { id := "c7", media_file_id := "m1", name := none, track_position := 0, duration := 8,
    trim_start := 2, trim_end := 10, effects := [], volume := 1, speed := 1 }

/-- Fixture: a ten-second clip at position 0 with a full trim window. -/
def clipSplitW : Clip :=
  { id := "c3", media_file_id := "m1", name := some "clip.mp4", track_position := 0,
    duration := 10, trim_start := 0, trim_end := 10, effects := [], volume := 1, speed := 1 }

/-- Fixture: a freshly created timeline with default track ids "v" and "a". -/
def tlW : Timeline := create_timeline "tl" "w" 30 ⟨1920, 1080⟩ "v" "a"

/-- Fixture: the default empty video track exactly as `create_timeline` builds
it. -/
def trackV0 : Track :=
  { id := "v", track_type := .Video, clips := [], muted := false, locked := false }

/-- Fixture: the default empty audio track exactly as `create_timeline` builds
it. -/
def trackA0 : Track :=
  { id := "a", track_type := .Audio, clips := [], muted := false, locked := false }

/-- Fixture: the default video track holding one clip. -/
def trackVW : Track :=
  { id := "v", track_type := .Video, clips := [clipW], muted := false, locked := false }

/-- Fixture: the default empty audio track. -/
def trackAW : Track :=
  { id := "a", track_type := .Audio, clips := [], muted := false, locked := false }

/-- Fixture: a timeline holding `clipW` on the video track, with a consistent
stored duration. -/
def tlW1 : Timeline := { tlW with tracks := [trackVW, trackAW], duration := 5 }

/-- Fixture: a timeline holding `clipTrimW` on the video track. -/
def tlTrimW : Timeline :=
  { tlW with tracks := [{ trackVW with clips := [clipTrimW] }, trackAW], duration := 8 }

/-- Fixture: a timeline holding `clipSplitW` on the video track. -/
def tlSplitW : Timeline :=
  { tlW with tracks := [{ trackVW with clips := [clipSplitW] }, trackAW], duration := 10 }

/-- Fixture: a locked, empty video track. -/
def trackLockedW : Track :=
  { id := "L", track_type := .Video, clips := [], muted := false, locked := true }

/-- Fixture: a timeline whose only track is locked. -/
def tlLockedW : Timeline := { tlW with tracks := [trackLockedW] }

/-- Fixture: first of four export clips; references media "m1". -/
def clipX1 : Clip :=
  { id := "x1", media_file_id := "m1", name := none, track_position := 0, duration := 5,
    trim_start := 0, trim_end := 5, effects := [], volume := 1, speed := 1 }

/-- Fixture: second export clip, also on media "m1". -/
def clipX2 : Clip :=
  { id := "x2", media_file_id := "m1", name := none, track_position := 5, duration := 5,
    trim_start := 0, trim_end := 5, effects := [], volume := 1, speed := 1 }

/-- Fixture: third export clip, on media "m2". -/
def clipX3 : Clip :=
  { id := "x3", media_file_id := "m2", name := none, track_position := 10, duration := 5,
    trim_start := 0, trim_end := 5, effects := [], volume := 1, speed := 1 }

/-- Fixture: fourth export clip, also on media "m2". -/
def clipX4 : Clip :=
  { id := "x4", media_file_id := "m2", name := none, track_position := 15, duration := 5,
    trim_start := 0, trim_end := 5, effects := [], volume := 1, speed := 1 }

/-- Fixture: an unmuted video track holding the four export clips, so each of
the two registered inputs is referenced twice. -/
def trackX : Track :=
  { id := "vx", track_type := .Video, clips := [clipX1, clipX2, clipX3, clipX4],
    muted := false, locked := false }

/-- Fixture: an export timeline with the single video track and no
subtitles. -/
def tlX : Timeline := { tlW with tracks := [trackX], duration := 20 }

/-- Fixture: the media registry for the export fixtures. -/
def mediaX : List (String × String) := [("m1", "/a.mp4"), ("m2", "/b.mp4")]

/-- Fixture: export settings matching the defaults in `models.rs`. -/
def settingsX : ExportSettings :=
  { video_codec := "libx264", audio_codec := "aac", video_bitrate := 8000,
    audio_bitrate := 192, framerate := 30, resolution := ⟨1920, 1080⟩, format := "mp4" }

/-- Characterization of a failed scan. -/
theorem findSplitP_none_iff {α : Type} (p : α → Bool) (xs : List α) :
    findSplitP p xs = none ↔ ∀ x ∈ xs, p x = false := by
  induction xs with
  | nil => simp [findSplitP]
  | cons x xs ih =>
    cases hp : p x with
    | true => simp [findSplitP, hp]
    | false => simp [findSplitP, hp, ih]

/-- Decomposition delivered by a successful scan. -/
theorem findSplitP_some {α : Type} {p : α → Bool} {xs a b : List α} {x : α}
    (h : findSplitP p xs = some (a, x, b)) :
    xs = a ++ x :: b ∧ p x = true ∧ ∀ u ∈ a, p u = false := by
  induction xs generalizing a with
  | nil => simp [findSplitP] at h
  | cons y ys ih =>
    cases hp : p y with
    | true =>
      simp only [findSplitP, hp, if_true, Option.some.injEq, Prod.mk.injEq] at h
      obtain ⟨h1, h2, h3⟩ := h
      subst h1; subst h2; subst h3
      exact ⟨rfl, hp, by simp⟩
    | false =>
      simp only [findSplitP, hp, Bool.false_eq_true, if_false, Option.map_eq_some',
        Prod.mk.injEq] at h
      obtain ⟨⟨a', x', b'⟩, hfind, ha, hx, hb⟩ := h
      subst ha; subst hx; subst hb
      obtain ⟨hys, hpx, hall⟩ := ih hfind
      refine ⟨by simp [hys], hpx, ?_⟩
      intro u hu
      rcases List.mem_cons.mp hu with h1 | h1
      · subst h1; exact hp
      · exact hall u h1

/-- A scan over an explicit decomposition finds exactly the marked element. -/
theorem findSplitP_append {α : Type} (p : α → Bool) (a : List α) (x : α) (b : List α)
    (ha : ∀ u ∈ a, p u = false) (hx : p x = true) :
    findSplitP p (a ++ x :: b) = some (a, x, b) := by
  induction a with
  | nil => simp [findSplitP, hx]
  | cons u us ih =>
    have hu : p u = false := ha u (by simp)
    simp [findSplitP, hu, ih (fun v hv => ha v (by simp [hv]))]

/-- Characterization of a failed track scan. -/
theorem scanTracks_none_iff {α : Type} (hit : Track → Option (α × Track)) (ts : List Track) :
    scanTracks hit ts = none ↔ ∀ t ∈ ts, hit t = none := by
  induction ts with
  | nil => simp [scanTracks]
  | cons t ts ih =>
    cases hh : hit t with
    | some v => simp [scanTracks, hh]
    | none => simp [scanTracks, hh, ih]

/-- Decomposition delivered by a successful track scan. -/
theorem scanTracks_some {α : Type} {hit : Track → Option (α × Track)} {ts ts' : List Track}
    {r : α} (h : scanTracks hit ts = some (r, ts')) :
    ∃ A t t' B, ts = A ++ t :: B ∧ ts' = A ++ t' :: B ∧ hit t = some (r, t')
      ∧ ∀ u ∈ A, hit u = none := by
  induction ts generalizing ts' with
  | nil => simp [scanTracks] at h
  | cons t ts ih =>
    cases hh : hit t with
    | some v =>
      obtain ⟨rv, tv⟩ := v
      simp only [scanTracks, hh, Option.some.injEq, Prod.mk.injEq] at h
      obtain ⟨h1, h2⟩ := h
      subst h1; subst h2
      exact ⟨[], t, tv, ts, rfl, rfl, hh, by simp⟩
    | none =>
      simp only [scanTracks, hh, Option.map_eq_some', Prod.mk.injEq] at h
      obtain ⟨⟨r', ts₀⟩, hscan, hr, hts⟩ := h
      subst hr; subst hts
      obtain ⟨A, u, u', B, h1, h2, h3, h4⟩ := ih hscan
      refine ⟨t :: A, u, u', B, by simp [h1], by simp [h2], h3, ?_⟩
      intro v hv
      rcases List.mem_cons.mp hv with h5 | h5
      · subst h5; exact hh
      · exact h4 v h5

/-- A track scan over an explicit decomposition fires exactly on the marked
track. -/
theorem scanTracks_append {α : Type} (hit : Track → Option (α × Track)) (A : List Track)
    (t : Track) (B : List Track) (r : α) (t' : Track)
    (hA : ∀ u ∈ A, hit u = none) (ht : hit t = some (r, t')) :
    scanTracks hit (A ++ t :: B) = some (r, A ++ t' :: B) := by
  induction A with
  | nil => simp [scanTracks, ht]
  | cons u us ih =>
    have hu : hit u = none := hA u (by simp)
    simp [scanTracks, hu, ih (fun v hv => hA v (by simp [hv]))]

/-- A clean overlap scan means: every other clip either shares the candidate's
id or is interval-disjoint from it. -/
theorem checkOverlapClips_none_iff (nc : Clip) (cs : List Clip) :
    checkOverlapClips nc cs = none ↔ ∀ e ∈ cs, e.id = nc.id ∨ ClipsDisjoint e nc := by
  induction cs with
  | nil => simp [checkOverlapClips]
  | cons e rest ih =>
    by_cases hid : e.id = nc.id
    · simp [checkOverlapClips, hid, ih]
    · by_cases hov : clipStart nc < clipEnd e ∧ clipEnd nc > clipStart e
      · simp only [checkOverlapClips, if_neg hid, if_pos hov]
        constructor
        · intro h; cases h
        · intro h
          rcases h e (by simp) with h1 | h1
          · exact absurd h1 hid
          · rcases h1 with h2 | h2
            · exact absurd hov.1 (not_lt.mpr h2)
            · exact absurd hov.2 (not_lt.mpr h2)
      · have hd : ClipsDisjoint e nc := by
          rcases not_and_or.mp hov with h1 | h1
          · exact Or.inl (not_lt.mp h1)
          · exact Or.inr (not_lt.mp h1)
        simp only [checkOverlapClips, if_neg hid, if_neg hov, ih]
        constructor
        · intro h u hu
          rcases List.mem_cons.mp hu with h1 | h1
          · subst h1; exact Or.inr hd
          · exact h u h1
        · intro h u hu; exact h u (by simp [hu])

/-- The overlap scan fires exactly when a clip with a different id intersects
the candidate's half-open interval (the spec's overlap criterion). -/
theorem checkOverlapClips_isSome_iff (nc : Clip) (cs : List Clip) :
    (checkOverlapClips nc cs).isSome = true ↔
      ∃ e ∈ cs, e.id ≠ nc.id ∧ clipStart nc < clipEnd e ∧ clipStart e < clipEnd nc := by
  rw [Option.isSome_iff_ne_none, Ne, checkOverlapClips_none_iff]
  push_neg
  simp only [ClipsDisjoint, not_or, not_le]

/-- Pull a max out of the seed of a max-fold. -/
theorem foldr_max_pull (l : List ℚ) (a b : ℚ) :
    l.foldr max (max a b) = max a (l.foldr max b) := by
  induction l with
  | nil => rfl
  | cons c l ih => simp only [List.foldr_cons, ih, max_left_comm]

/-- Two max-folds over concatenated lists commute. -/
theorem foldr_max_swap (l1 l2 : List ℚ) (acc : ℚ) :
    l1.foldr max (l2.foldr max acc) = l2.foldr max (l1.foldr max acc) := by
  induction l1 with
  | nil => rfl
  | cons a l ih => simp only [List.foldr_cons, ih, foldr_max_pull]

/-- A max-fold with a distinguished middle element. -/
theorem foldr_max_middle (l1 l2 : List ℚ) (a b : ℚ) :
    (l1 ++ a :: l2).foldr max b = max a ((l1 ++ l2).foldr max b) := by
  induction l1 with
  | nil => rfl
  | cons c l ih => simp only [List.cons_append, List.foldr_cons, ih, max_left_comm]

/-- The seed is a lower bound of a max-fold. -/
theorem le_foldr_max (l : List ℚ) (b : ℚ) : b ≤ l.foldr max b := by
  induction l with
  | nil => exact le_rfl
  | cons a l ih => exact ih.trans (le_max_right a _)

/-- Every element is a lower bound of a max-fold. -/
theorem mem_le_foldr_max {l : List ℚ} {a : ℚ} (b : ℚ) (h : a ∈ l) : a ≤ l.foldr max b := by
  induction l with
  | nil => cases h
  | cons c l ih =>
    rcases List.mem_cons.mp h with h1 | h1
    · subst h1; exact le_max_left a _
    · exact (ih h1).trans (le_max_right c _)

/-- A max-fold is the seed or one of the elements. -/
theorem foldr_max_cases (l : List ℚ) (b : ℚ) :
    l.foldr max b = b ∨ ∃ a ∈ l, l.foldr max b = a := by
  induction l with
  | nil => exact Or.inl rfl
  | cons c l ih =>
    rcases max_choice c (l.foldr max b) with h | h
    · exact Or.inr ⟨c, by simp, by simpa using h⟩
    · rcases ih with h1 | ⟨a, ha, h1⟩
      · exact Or.inl (by simpa [h1] using h)
      · exact Or.inr ⟨a, by simp [ha], by simpa [h1] using h⟩

/-- The running-maximum clip fold is a max-fold over the clip ends. -/
theorem calcDurClips_eq_foldr (acc : ℚ) (cs : List Clip) :
    calcDurClips acc cs = (cs.map clipEnd).foldr max acc := by
  induction cs generalizing acc with
  | nil => rfl
  | cons c cs ih =>
    rw [calcDurClips]
    have hmax : (if clipEnd c > acc then clipEnd c else acc) = max acc (clipEnd c) := by
      rcases le_or_lt (clipEnd c) acc with h | h
      · rw [if_neg (not_lt.mpr h), max_eq_left h]
      · rw [if_pos h, max_eq_right h.le]
    rw [hmax, ih, max_comm, foldr_max_pull]
    simp

/-- The track fold of `calculate_duration` is a max-fold over all clip ends. -/
theorem calculate_duration_aux_eq (acc : ℚ) (tracks : List Track) :
    calculate_duration_aux acc tracks = ((allClips tracks).map clipEnd).foldr max acc := by
  induction tracks generalizing acc with
  | nil => simp [calculate_duration_aux, allClips]
  | cons t ts ih =>
    rw [calculate_duration_aux, ih, calcDurClips_eq_foldr]
    simp only [allClips, List.flatMap_cons, List.map_append, List.foldr_append]
    rw [foldr_max_swap]

/-- `calculate_duration` computes exactly the specification's duration (the
maximum clip end, floored at `0.0`). -/
theorem calculate_duration_eq_spec (tracks : List Track) :
    calculate_duration tracks = specDuration tracks := by
  rw [calculate_duration, calculate_duration_aux_eq]
  rfl

/-- The spec duration is nonnegative. -/
theorem specDuration_nonneg (tracks : List Track) : 0 ≤ specDuration tracks :=
  le_foldr_max _ 0

/-- The spec duration bounds every clip end. -/
theorem clipEnd_le_specDuration {tracks : List Track} {c : Clip} (h : c ∈ allClips tracks) :
    clipEnd c ≤ specDuration tracks :=
  mem_le_foldr_max 0 (List.mem_map_of_mem clipEnd h)

/-- The spec duration of a clip-free track list is `0.0`. -/
theorem specDuration_eq_zero {tracks : List Track} (h : allClips tracks = []) :
    specDuration tracks = 0 := by
  simp [specDuration, h]

/-- The spec duration is `0.0` or realized by some clip. -/
theorem specDuration_cases (tracks : List Track) :
    specDuration tracks = 0 ∨ ∃ c ∈ allClips tracks, specDuration tracks = clipEnd c := by
  rcases foldr_max_cases ((allClips tracks).map clipEnd) 0 with h | ⟨a, ha, h⟩
  · exact Or.inl h
  · obtain ⟨c, hc, rfl⟩ := List.mem_map.mp ha
    exact Or.inr ⟨c, hc, h⟩

/-- The track search succeeds on an explicit first-occurrence decomposition. -/
theorem findTrackSplit_intro (tid : String) {ts A B : List Track} {t : Track}
    (hT : ts = A ++ t :: B) (hid : t.id = tid) (hA : ∀ u ∈ A, u.id ≠ tid) :
    findTrackSplit tid ts = some (A, t, B) := by
  rw [hT]
  exact findSplitP_append _ A t B (fun u hu => beq_eq_false_iff_ne.mpr (hA u hu))
    (beq_iff_eq.mpr hid)

/-- The track search fails when no track carries the id. -/
theorem findTrackSplit_eq_none {tid : String} {ts : List Track}
    (h : ∀ t ∈ ts, t.id ≠ tid) : findTrackSplit tid ts = none := by
  rw [findTrackSplit, findSplitP_none_iff]
  exact fun t ht => beq_eq_false_iff_ne.mpr (h t ht)

/-- Decomposition delivered by a successful track search. -/
theorem findTrackSplit_eq_some {tid : String} {ts A B : List Track} {t : Track}
    (h : findTrackSplit tid ts = some (A, t, B)) :
    ts = A ++ t :: B ∧ t.id = tid ∧ ∀ u ∈ A, u.id ≠ tid := by
  obtain ⟨h1, h2, h3⟩ := findSplitP_some h
  exact ⟨h1, beq_iff_eq.mp h2, fun u hu => beq_eq_false_iff_ne.mp (h3 u hu)⟩

/-- The clip search succeeds on an explicit first-occurrence decomposition. -/
theorem findClipSplit_intro (cid : String) {cs x y : List Clip} {c : Clip}
    (hc : cs = x ++ c :: y) (hcid : c.id = cid) (hx : ∀ u ∈ x, u.id ≠ cid) :
    findClipSplit cid cs = some (x, c, y) := by
  rw [hc]
  exact findSplitP_append _ x c y (fun u hu => beq_eq_false_iff_ne.mpr (hx u hu))
    (beq_iff_eq.mpr hcid)

/-- The clip search fails when no clip carries the id. -/
theorem findClipSplit_eq_none {cid : String} {cs : List Clip}
    (h : ∀ c ∈ cs, c.id ≠ cid) : findClipSplit cid cs = none := by
  rw [findClipSplit, findSplitP_none_iff]
  exact fun c hc => beq_eq_false_iff_ne.mpr (h c hc)

/-- Decomposition delivered by a successful clip search. -/
theorem findClipSplit_eq_some {cid : String} {cs x y : List Clip} {c : Clip}
    (h : findClipSplit cid cs = some (x, c, y)) :
    cs = x ++ c :: y ∧ c.id = cid ∧ ∀ u ∈ x, u.id ≠ cid := by
  obtain ⟨h1, h2, h3⟩ := findSplitP_some h
  exact ⟨h1, beq_iff_eq.mp h2, fun u hu => beq_eq_false_iff_ne.mp (h3 u hu)⟩

/-- `add_clip` with an unknown track id: `TrackNotFound`, state untouched. -/
theorem add_clip_not_found {tl : Timeline} {tid : String} (clip : Clip)
    (h : ∀ t ∈ tl.tracks, t.id ≠ tid) :
    add_clip tl tid clip = (Except.error (.TrackNotFound tid), tl) := by
  rw [add_clip, findTrackSplit_eq_none h]

/-- `add_clip` on a locked track: `InvalidOperation`, state untouched. -/
theorem add_clip_locked {tl : Timeline} {tid : String} (clip : Clip) {A B : List Track}
    {t : Track} (hT : tl.tracks = A ++ t :: B) (hid : t.id = tid)
    (hA : ∀ u ∈ A, u.id ≠ tid) (hlock : t.locked = true) :
    add_clip tl tid clip =
      (Except.error (.InvalidOperation ("Track " ++ tid ++ " is locked")), tl) := by
  rw [add_clip, findTrackSplit_intro tid hT hid hA]
  simp [hlock]

/-- `add_clip` with an overlap on an unlocked track: `OverlapError`, state
untouched. -/
theorem add_clip_overlap {tl : Timeline} {tid : String} {clip : Clip} {A B : List Track}
    {t : Track} {m : String} (hT : tl.tracks = A ++ t :: B) (hid : t.id = tid)
    (hA : ∀ u ∈ A, u.id ≠ tid) (hlock : t.locked = false)
    (hov : check_overlap t clip = some m) :
    add_clip tl tid clip = (Except.error (.OverlapError m), tl) := by
  rw [add_clip, findTrackSplit_intro tid hT hid hA]
  simp [hlock, hov]

/-- `add_clip` success: the clip is appended to the found track and the stored
duration grows to the clip end if that is larger. -/
theorem add_clip_ok {tl : Timeline} {tid : String} {clip : Clip} {A B : List Track}
    {t : Track} (hT : tl.tracks = A ++ t :: B) (hid : t.id = tid)
    (hA : ∀ u ∈ A, u.id ≠ tid) (hlock : t.locked = false)
    (hov : check_overlap t clip = none) :
    add_clip tl tid clip = (Except.ok (),
      { tl with
          tracks := A ++ { t with clips := t.clips ++ [clip] } :: B
          duration := if clipEnd clip > tl.duration then clipEnd clip else tl.duration }) := by
  rw [add_clip, findTrackSplit_intro tid hT hid hA]
  simp [hlock, hov, clipEnd]

/-- The clip-removal scan on an explicit decomposition. -/
theorem removeClipTracks_intro {cid : String} {tracks A B : List Track} {t : Track}
    {x y : List Clip} {c : Clip}
    (hT : tracks = A ++ t :: B) (hA : ∀ u ∈ A, ∀ cl ∈ u.clips, cl.id ≠ cid)
    (hc : t.clips = x ++ c :: y) (hcid : c.id = cid) (hx : ∀ u ∈ x, u.id ≠ cid) :
    removeClipTracks cid tracks = some ((), A ++ { t with clips := x ++ y } :: B) := by
  rw [removeClipTracks, hT]
  apply scanTracks_append
  · intro u hu; rw [removeHit, findClipSplit_eq_none (hA u hu)]; rfl
  · rw [removeHit, findClipSplit_intro cid hc hcid hx]; rfl

/-- The clip-removal scan fails when the id is nowhere. -/
theorem removeClipTracks_eq_none {cid : String} {tracks : List Track}
    (h : ∀ t ∈ tracks, ∀ c ∈ t.clips, c.id ≠ cid) :
    removeClipTracks cid tracks = none := by
  rw [removeClipTracks, scanTracks_none_iff]
  intro t ht; rw [removeHit, findClipSplit_eq_none (h t ht)]; rfl

/-- The clip-extraction scan on an explicit decomposition. -/
theorem extractClipTracks_intro {cid : String} {tracks A B : List Track} {t : Track}
    {x y : List Clip} {c : Clip}
    (hT : tracks = A ++ t :: B) (hA : ∀ u ∈ A, ∀ cl ∈ u.clips, cl.id ≠ cid)
    (hc : t.clips = x ++ c :: y) (hcid : c.id = cid) (hx : ∀ u ∈ x, u.id ≠ cid) :
    extractClipTracks cid tracks = some (c, A ++ { t with clips := x ++ y } :: B) := by
  rw [extractClipTracks, hT]
  apply scanTracks_append
  · intro u hu; rw [extractHit, findClipSplit_eq_none (hA u hu)]; rfl
  · rw [extractHit, findClipSplit_intro cid hc hcid hx]; rfl

/-- The trim scan on an explicit decomposition, success branch. -/
theorem trimTracks_intro_ok {cid : String} {ts? te? : Option ℚ} {tracks A B : List Track}
    {t : Track} {x y : List Clip} {c c' : Clip}
    (hT : tracks = A ++ t :: B) (hA : ∀ u ∈ A, ∀ cl ∈ u.clips, cl.id ≠ cid)
    (hc : t.clips = x ++ c :: y) (hcid : c.id = cid) (hx : ∀ u ∈ x, u.id ≠ cid)
    (hres : trimResult c ts? te? = Except.ok c') :
    trimTracks cid ts? te? tracks =
      some (Except.ok (), A ++ { t with clips := x ++ c' :: y } :: B) := by
  rw [trimTracks, hT]
  apply scanTracks_append
  · intro u hu; rw [trimHit, findClipSplit_eq_none (hA u hu)]; rfl
  · rw [trimHit, findClipSplit_intro cid hc hcid hx]; simp [hres]

/-- The trim scan on an explicit decomposition, error branch: the partially
updated clip is written back. -/
theorem trimTracks_intro_err {cid : String} {ts? te? : Option ℚ} {tracks A B : List Track}
    {t : Track} {x y : List Clip} {c c' : Clip} {e : TimelineError}
    (hT : tracks = A ++ t :: B) (hA : ∀ u ∈ A, ∀ cl ∈ u.clips, cl.id ≠ cid)
    (hc : t.clips = x ++ c :: y) (hcid : c.id = cid) (hx : ∀ u ∈ x, u.id ≠ cid)
    (hres : trimResult c ts? te? = Except.error (e, c')) :
    trimTracks cid ts? te? tracks =
      some (Except.error e, A ++ { t with clips := x ++ c' :: y } :: B) := by
  rw [trimTracks, hT]
  apply scanTracks_append
  · intro u hu; rw [trimHit, findClipSplit_eq_none (hA u hu)]; rfl
  · rw [trimHit, findClipSplit_intro cid hc hcid hx]; simp [hres]

/-- The trim scan fails when the id is nowhere. -/
theorem trimTracks_eq_none {cid : String} {ts? te? : Option ℚ} {tracks : List Track}
    (h : ∀ t ∈ tracks, ∀ c ∈ t.clips, c.id ≠ cid) :
    trimTracks cid ts? te? tracks = none := by
  rw [trimTracks, scanTracks_none_iff]
  intro t ht; rw [trimHit, findClipSplit_eq_none (h t ht)]; rfl

/-- The split scan on an explicit decomposition, in-bounds branch. -/
theorem splitTracks_intro_ok {cid : String} {st : ℚ} (fid sid : String)
    {tracks A B : List Track} {t : Track} {x y : List Clip} {c : Clip}
    (hT : tracks = A ++ t :: B) (hA : ∀ u ∈ A, ∀ cl ∈ u.clips, cl.id ≠ cid)
    (hc : t.clips = x ++ c :: y) (hcid : c.id = cid) (hx : ∀ u ∈ x, u.id ≠ cid)
    (hin : clipStart c < st ∧ st < clipEnd c) :
    splitTracks cid st fid sid tracks =
      some (Except.ok (fid, sid),
        A ++ { t with clips := x ++ splitFirstClip c st fid ::
          splitSecondClip c st sid :: y } :: B) := by
  have hcond : ¬(st ≤ clipStart c ∨ st ≥ clipEnd c) := by
    push_neg
    exact ⟨hin.1, hin.2⟩
  rw [splitTracks, hT]
  apply scanTracks_append
  · intro u hu; rw [splitHit, findClipSplit_eq_none (hA u hu)]; rfl
  · rw [splitHit, findClipSplit_intro cid hc hcid hx]; simp only [Option.map_some']
    rw [if_neg hcond]

/-- The split scan on an explicit decomposition, out-of-bounds branch: the
track is handed back unchanged. -/
theorem splitTracks_intro_err {cid : String} {st : ℚ} (fid sid : String)
    {tracks A B : List Track} {t : Track} {x y : List Clip} {c : Clip}
    (hT : tracks = A ++ t :: B) (hA : ∀ u ∈ A, ∀ cl ∈ u.clips, cl.id ≠ cid)
    (hc : t.clips = x ++ c :: y) (hcid : c.id = cid) (hx : ∀ u ∈ x, u.id ≠ cid)
    (hout : st ≤ clipStart c ∨ st ≥ clipEnd c) :
    splitTracks cid st fid sid tracks =
      some (Except.error (.InvalidOperation
        ("Split time " ++ showQ st ++ " is outside clip bounds ["
          ++ showQ (clipStart c) ++ ", " ++ showQ (clipEnd c) ++ "]")), A ++ t :: B) := by
  rw [splitTracks, hT]
  apply scanTracks_append
  · intro u hu; rw [splitHit, findClipSplit_eq_none (hA u hu)]; rfl
  · rw [splitHit, findClipSplit_intro cid hc hcid hx]; simp only [Option.map_some']
    rw [if_pos hout]

/-- The split scan fails when the id is nowhere. -/
theorem splitTracks_eq_none {cid : String} {st : ℚ} {fid sid : String} {tracks : List Track}
    (h : ∀ t ∈ tracks, ∀ c ∈ t.clips, c.id ≠ cid) :
    splitTracks cid st fid sid tracks = none := by
  rw [splitTracks, scanTracks_none_iff]
  intro t ht; rw [splitHit, findClipSplit_eq_none (h t ht)]; rfl

/-- Successful `remove_clip`: the scan result is installed and the duration
fully recomputed. -/
theorem remove_clip_dispatch_ok {tl : Timeline} {cid : String} {T' : List Track}
    (h : removeClipTracks cid tl.tracks = some ((), T')) :
    remove_clip tl cid =
      (Except.ok (), { tl with tracks := T', duration := calculate_duration T' }) := by
  rw [remove_clip, h]

/-- `remove_clip` with an unknown id: `ClipNotFound`, state untouched. -/
theorem remove_clip_dispatch_none {tl : Timeline} {cid : String}
    (h : removeClipTracks cid tl.tracks = none) :
    remove_clip tl cid = (Except.error (.ClipNotFound cid), tl) := by
  rw [remove_clip, h]

/-- Successful `trim_clip`: scan result installed, duration recomputed. -/
theorem trim_clip_dispatch_ok {tl : Timeline} {cid : String} {ts? te? : Option ℚ}
    {T' : List Track} (h : trimTracks cid ts? te? tl.tracks = some (Except.ok (), T')) :
    trim_clip tl cid ts? te? =
      (Except.ok (), { tl with tracks := T', duration := calculate_duration T' }) := by
  rw [trim_clip, h]

/-- Failed `trim_clip` on a located clip: scan result installed (it may carry a
partially updated clip), duration not recomputed. -/
theorem trim_clip_dispatch_err {tl : Timeline} {cid : String} {ts? te? : Option ℚ}
    {T' : List Track} {e : TimelineError}
    (h : trimTracks cid ts? te? tl.tracks = some (Except.error e, T')) :
    trim_clip tl cid ts? te? = (Except.error e, { tl with tracks := T' }) := by
  rw [trim_clip, h]

/-- `trim_clip` with an unknown id: `ClipNotFound`, state untouched. -/
theorem trim_clip_dispatch_none {tl : Timeline} {cid : String} {ts? te? : Option ℚ}
    (h : trimTracks cid ts? te? tl.tracks = none) :
    trim_clip tl cid ts? te? = (Except.error (.ClipNotFound cid), tl) := by
  rw [trim_clip, h]

/-- `split_clip` installs whatever the scan produced; the duration field is
never recomputed on this path. -/
theorem split_clip_dispatch {tl : Timeline} {cid : String} {st : ℚ} {fid sid : String}
    {r : Except TimelineError (String × String)} {T' : List Track}
    (h : splitTracks cid st fid sid tl.tracks = some (r, T')) :
    split_clip tl cid st fid sid = (r, { tl with tracks := T' }) := by
  rw [split_clip, h]

/-- `split_clip` with an unknown id: `ClipNotFound`, state untouched. -/
theorem split_clip_dispatch_none {tl : Timeline} {cid : String} {st : ℚ} {fid sid : String}
    (h : splitTracks cid st fid sid tl.tracks = none) :
    split_clip tl cid st fid sid = (Except.error (.ClipNotFound cid), tl) := by
  rw [split_clip, h]

/-- `move_clip` with an unknown clip id: `ClipNotFound`, state untouched. -/
theorem move_clip_not_found {tl : Timeline} {cid ntid : String} {pos : ℚ}
    (h : extractClipTracks cid tl.tracks = none) :
    move_clip tl cid ntid pos = (Except.error (.ClipNotFound cid), tl) := by
  rw [move_clip, h]

/-- `move_clip` when the destination track does not exist: the clip has been
removed and is not restored. -/
theorem move_clip_dst_not_found {tl : Timeline} {cid ntid : String} (pos : ℚ) {c0 : Clip}
    {T' : List Track} (hext : extractClipTracks cid tl.tracks = some (c0, T'))
    (hdst : ∀ u ∈ T', u.id ≠ ntid) :
    move_clip tl cid ntid pos = (Except.error (.TrackNotFound ntid), { tl with tracks := T' }) := by
  rw [move_clip, hext]
  simp only [findTrackSplit_eq_none hdst]

/-- `move_clip` when the destination track is locked: the clip has been
removed and is not restored. -/
theorem move_clip_dst_locked {tl : Timeline} {cid ntid : String} (pos : ℚ) {c0 : Clip}
    {T' P Q : List Track} {d : Track}
    (hext : extractClipTracks cid tl.tracks = some (c0, T'))
    (hP : T' = P ++ d :: Q) (hdid : d.id = ntid) (hPf : ∀ u ∈ P, u.id ≠ ntid)
    (hlock : d.locked = true) :
    move_clip tl cid ntid pos =
      (Except.error (.InvalidOperation ("Target track " ++ ntid ++ " is locked")),
        { tl with tracks := T' }) := by
  rw [move_clip, hext]
  simp only [findTrackSplit_intro ntid hP hdid hPf]
  simp [hlock]

/-- `move_clip` when the repositioned clip overlaps in the destination track:
the clip has been removed and is not restored. -/
theorem move_clip_dst_overlap {tl : Timeline} {cid ntid : String} (pos : ℚ) {c0 : Clip}
    {T' P Q : List Track} {d : Track} {m : String}
    (hext : extractClipTracks cid tl.tracks = some (c0, T'))
    (hP : T' = P ++ d :: Q) (hdid : d.id = ntid) (hPf : ∀ u ∈ P, u.id ≠ ntid)
    (hlock : d.locked = false)
    (hov : check_overlap d { c0 with track_position := pos } = some m) :
    move_clip tl cid ntid pos = (Except.error (.OverlapError m), { tl with tracks := T' }) := by
  rw [move_clip, hext]
  simp only [findTrackSplit_intro ntid hP hdid hPf]
  simp [hlock, hov]

/-- Successful `move_clip`: the repositioned clip is appended to the
destination track and the duration recomputed. -/
theorem move_clip_ok {tl : Timeline} {cid ntid : String} (pos : ℚ) {c0 : Clip}
    {T' P Q : List Track} {d : Track}
    (hext : extractClipTracks cid tl.tracks = some (c0, T'))
    (hP : T' = P ++ d :: Q) (hdid : d.id = ntid) (hPf : ∀ u ∈ P, u.id ≠ ntid)
    (hlock : d.locked = false)
    (hov : check_overlap d { c0 with track_position := pos } = none) :
    move_clip tl cid ntid pos = (Except.ok (),
      { tl with
          tracks := P ++ { d with clips := d.clips ++ [{ c0 with track_position := pos }] } :: Q
          duration := calculate_duration
            (P ++ { d with clips := d.clips ++ [{ c0 with track_position := pos }] } :: Q) }) := by
  rw [move_clip, hext]
  simp only [findTrackSplit_intro ntid hP hdid hPf]
  simp [hlock, hov]

/-- `trimResult` rejects an out-of-range `trim_start` with the clip untouched. -/
theorem trimResult_start_invalid {c : Clip} {s : ℚ} (te? : Option ℚ)
    (h : s < 0 ∨ s ≥ c.trim_end) :
    trimResult c (some s) te? =
      Except.error (.InvalidOperation ("Invalid trim_start: " ++ showQ s), c) := by
  simp only [trimResult]
  rw [if_pos h]

/-- `trimResult` with no `trim_start` rejects a `trim_end` at or below the
current `trim_start`, clip untouched. -/
theorem trimResult_end_invalid_none {c : Clip} {e : ℚ} (he : e ≤ c.trim_start) :
    trimResult c none (some e) =
      Except.error (.InvalidOperation ("Invalid trim_end: " ++ showQ e), c) := by
  simp only [trimResult]
  rw [if_pos he]

/-- `trimResult` with a valid `trim_start` and an invalid `trim_end`: the
error carries the clip with `trim_start` already updated (the in-place
mutation of the source). -/
theorem trimResult_end_invalid_some {c : Clip} {s e : ℚ}
    (hs : ¬(s < 0 ∨ s ≥ c.trim_end)) (he : e ≤ s) :
    trimResult c (some s) (some e) =
      Except.error (.InvalidOperation ("Invalid trim_end: " ++ showQ e),
        { c with trim_start := s }) := by
  simp only [trimResult]
  rw [if_neg hs]
  simp only []
  rw [if_pos (show e ≤ ({ c with trim_start := s } : Clip).trim_start from he)]

/-- `trimResult` success with both bounds supplied. -/
theorem trimResult_ok_both {c : Clip} {s e : ℚ}
    (hs : ¬(s < 0 ∨ s ≥ c.trim_end)) (he : ¬(e ≤ s)) :
    trimResult c (some s) (some e) =
      Except.ok { c with trim_start := s, trim_end := e, duration := (e - s) / c.speed } := by
  simp only [trimResult]
  rw [if_neg hs]
  simp only []
  rw [if_neg (show ¬(e ≤ ({ c with trim_start := s } : Clip).trim_start) from he)]

/-- `trimResult` success with only `trim_start` supplied. -/
theorem trimResult_ok_start {c : Clip} {s : ℚ} (hs : ¬(s < 0 ∨ s ≥ c.trim_end)) :
    trimResult c (some s) none =
      Except.ok { c with trim_start := s, duration := (c.trim_end - s) / c.speed } := by
  simp only [trimResult]
  rw [if_neg hs]

/-- `trimResult` success with only `trim_end` supplied. -/
theorem trimResult_ok_end {c : Clip} {e : ℚ} (he : ¬(e ≤ c.trim_start)) :
    trimResult c none (some e) =
      Except.ok { c with trim_end := e, duration := (e - c.trim_start) / c.speed } := by
  simp only [trimResult]
  rw [if_neg he]

/-- `trimResult` success with neither bound supplied. -/
theorem trimResult_ok_none {c : Clip} :
    trimResult c none none =
      Except.ok { c with duration := (c.trim_end - c.trim_start) / c.speed } := by
  simp only [trimResult]

/-- The source's running-maximum update is a `max`. -/
theorem ite_gt_eq_max (a b : ℚ) : (if b > a then b else a) = max a b := by
  rcases le_or_lt b a with h | h
  · rw [if_neg (not_lt.mpr h), max_eq_left h]
  · rw [if_pos h, max_eq_right h.le]

/-- C4: `add_clip` error taxonomy and atomicity.  With no matching track the
call returns `TrackNotFound`; on the first matching track, a locked track
yields `InvalidOperation`, an unlocked track with an overlapping clip of a
different id yields `OverlapError` (the overlap test being exactly the
half-open-interval criterion), and each error leaves the timeline — its clip
lists and its duration — untouched.  On success the clip is appended and the
stored duration becomes `max` of the old duration and the clip end, so this
path can only grow it. -/
theorem c4_add_clip_error_taxonomy (tl : Timeline) (tid : String) (clip : Clip) :
    ((∀ u ∈ tl.tracks, u.id ≠ tid) →
      add_clip tl tid clip = (Except.error (.TrackNotFound tid), tl))
    ∧ (∀ A t B, tl.tracks = A ++ t :: B → t.id = tid → (∀ u ∈ A, u.id ≠ tid) →
        ((check_overlap t clip).isSome = true ↔
          ∃ e ∈ t.clips, e.id ≠ clip.id ∧ clipStart clip < clipEnd e ∧ clipStart e < clipEnd clip)
        ∧ (t.locked = true →
            add_clip tl tid clip =
              (Except.error (.InvalidOperation ("Track " ++ tid ++ " is locked")), tl))
        ∧ (∀ m, t.locked = false → check_overlap t clip = some m →
            add_clip tl tid clip = (Except.error (.OverlapError m), tl))
        ∧ (t.locked = false → check_overlap t clip = none →
            add_clip tl tid clip = (Except.ok (),
              { tl with
                  tracks := A ++ { t with clips := t.clips ++ [clip] } :: B
                  duration := max tl.duration (clipEnd clip) })
            ∧ tl.duration ≤ max tl.duration (clipEnd clip))) := by
  refine ⟨fun h => add_clip_not_found clip h, ?_⟩
  intro A t B hT hid hA
  refine ⟨checkOverlapClips_isSome_iff clip t.clips, ?_, ?_, ?_⟩
  · intro hl; exact add_clip_locked clip hT hid hA hl
  · intro m hl hov; exact add_clip_overlap hT hid hA hl hov
  · intro hl hov
    have h := add_clip_ok hT hid hA hl hov
    rw [ite_gt_eq_max] at h
    exact ⟨h, le_max_left _ _⟩

/-- Witness for C4: appending a non-overlapping clip to the fixture timeline
through the success branch of the taxonomy theorem. -/
theorem c4_witness :
    add_clip tlW1 "v" clipW2 = (Except.ok (),
      { tlW1 with
          tracks := [] ++ { trackVW with clips := trackVW.clips ++ [clipW2] } :: [trackAW]
          duration := max tlW1.duration (clipEnd clipW2) })
    ∧ tlW1.duration ≤ max tlW1.duration (clipEnd clipW2) := by
  have hov : check_overlap trackVW clipW2 = none := by
    rw [check_overlap, checkOverlapClips_none_iff]
    intro e he
    simp only [trackVW, List.mem_singleton] at he
    subst he
    right
    left
    show clipEnd clipW ≤ clipStart clipW2
    norm_num [clipEnd, clipStart, clipW, clipW2]
  exact ((c4_add_clip_error_taxonomy tlW1 "v" clipW2).2 [] trackVW [trackAW]
    rfl rfl (by simp)).2.2.2 rfl hov

/-- C3: `split_clip` is lossless.  For a clip located in the timeline and a
split time strictly inside its half-open interval, the call replaces the clip
by exactly two new clips carrying the supplied fresh ids: the first keeps the
position with duration `split_time - p` and trim window
`[trim_start, trim_start + (split_time - p) * speed)`, the second starts at
`split_time` with the remaining duration and the remaining trim window; all
other fields (media reference, name, effects, volume, speed) are preserved on
both; the two durations sum to the original and the stored timeline duration
is unchanged.  For a split time outside the open interval the call fails with
`InvalidOperation` and the timeline is unchanged. -/
theorem c3_split_clip_lossless (tl : Timeline) (cid : String) (st : ℚ) (fid sid : String)
    (A B : List Track) (t : Track) (x y : List Clip) (c : Clip)
    (hT : tl.tracks = A ++ t :: B) (hA : ∀ u ∈ A, ∀ cl ∈ u.clips, cl.id ≠ cid)
    (hc : t.clips = x ++ c :: y) (hcid : c.id = cid) (hx : ∀ u ∈ x, u.id ≠ cid) :
    (clipStart c < st ∧ st < clipEnd c →
      split_clip tl cid st fid sid = (Except.ok (fid, sid),
        { tl with tracks := A ++ { t with clips := x ++ splitFirstClip c st fid :: splitSecondClip c st sid :: y } :: B })
      ∧ splitFirstClip c st fid = { c with
          id := fid
          duration := st - c.track_position
          trim_end := c.trim_start + (st - c.track_position) * c.speed }
      ∧ splitSecondClip c st sid = { c with
          id := sid
          track_position := st
          duration := c.duration - (st - c.track_position)
          trim_start := c.trim_start + (st - c.track_position) * c.speed }
      ∧ (splitFirstClip c st fid).duration + (splitSecondClip c st sid).duration = c.duration
      ∧ (split_clip tl cid st fid sid).2.duration = tl.duration)
    ∧ (st ≤ clipStart c ∨ clipEnd c ≤ st →
      split_clip tl cid st fid sid = (Except.error (.InvalidOperation
        ("Split time " ++ showQ st ++ " is outside clip bounds ["
          ++ showQ (clipStart c) ++ ", " ++ showQ (clipEnd c) ++ "]")), tl)) := by
  constructor
  · intro hin
    have hd := split_clip_dispatch (splitTracks_intro_ok fid sid hT hA hc hcid hx hin)
    refine ⟨hd, rfl, rfl, ?_, ?_⟩
    · simp only [splitFirstClip, splitSecondClip]
      ring
    · rw [hd]
  · intro hout
    have hd := split_clip_dispatch (splitTracks_intro_err fid sid hT hA hc hcid hx hout)
    rw [hd, ← hT]

/-- Witness for C3: splitting the ten-second fixture clip at `t = 4`. -/
theorem c3_witness :
    split_clip tlSplitW "c3" 4 "f" "s" = (Except.ok ("f", "s"),
      { tlSplitW with tracks := [] ++ { { trackVW with clips := [clipSplitW] } with clips := [] ++ splitFirstClip clipSplitW 4 "f" :: splitSecondClip clipSplitW 4 "s" :: [] } :: [trackAW] })
    ∧ (splitFirstClip clipSplitW 4 "f").duration
        + (splitSecondClip clipSplitW 4 "s").duration = clipSplitW.duration := by
  have h := (c3_split_clip_lossless tlSplitW "c3" 4 "f" "s" [] [trackAW]
    { trackVW with clips := [clipSplitW] } [] [] clipSplitW rfl (by simp) rfl rfl (by simp)).1
    (by norm_num [clipStart, clipEnd, clipSplitW])
  exact ⟨h.1, h.2.2.2.1⟩

/-- C8: a `move_clip` whose destination validation fails loses the clip.
Under the hypothesis that the clip id occurs exactly once (the service
generates ids with `Uuid::new_v4`), once the clip has been found and removed,
each destination failure — unknown destination track, locked destination,
overlap in the destination — returns the corresponding error with the clip
restored to no track at all. -/
theorem c8_move_clip_failure_loses_clip (tl : Timeline) (cid ntid : String) (pos : ℚ)
    (A B : List Track) (t : Track) (x y : List Clip) (c : Clip)
    (hT : tl.tracks = A ++ t :: B) (hA : ∀ u ∈ A, ∀ cl ∈ u.clips, cl.id ≠ cid)
    (hc : t.clips = x ++ c :: y) (hcid : c.id = cid) (hx : ∀ u ∈ x, u.id ≠ cid)
    (hy : ∀ u ∈ y, u.id ≠ cid) (hB : ∀ u ∈ B, ∀ cl ∈ u.clips, cl.id ≠ cid) :
    ((∀ u ∈ tl.tracks, u.id ≠ ntid) →
      move_clip tl cid ntid pos = (Except.error (.TrackNotFound ntid),
        { tl with tracks := A ++ { t with clips := x ++ y } :: B })
      ∧ NoClipWithId (move_clip tl cid ntid pos).2 cid)
    ∧ (∀ P d Q, A ++ { t with clips := x ++ y } :: B = P ++ d :: Q → d.id = ntid →
        (∀ u ∈ P, u.id ≠ ntid) →
        ((d.locked = true →
          move_clip tl cid ntid pos =
            (Except.error (.InvalidOperation ("Target track " ++ ntid ++ " is locked")),
              { tl with tracks := A ++ { t with clips := x ++ y } :: B })
          ∧ NoClipWithId (move_clip tl cid ntid pos).2 cid)
        ∧ (∀ m, d.locked = false →
            check_overlap d { c with track_position := pos } = some m →
            move_clip tl cid ntid pos = (Except.error (.OverlapError m),
              { tl with tracks := A ++ { t with clips := x ++ y } :: B })
            ∧ NoClipWithId (move_clip tl cid ntid pos).2 cid))) := by
  have hext : extractClipTracks cid tl.tracks =
      some (c, A ++ { t with clips := x ++ y } :: B) :=
    extractClipTracks_intro hT hA hc hcid hx
  have hnone : NoClipWithId ({ tl with tracks := A ++ { t with clips := x ++ y } :: B }) cid := by
    intro u hu cl hcl
    simp only [List.mem_append, List.mem_cons] at hu
    rcases hu with h1 | h1 | h1
    · exact hA u h1 cl hcl
    · subst h1
      simp only [List.mem_append] at hcl
      rcases hcl with h2 | h2
      · exact hx cl h2
      · exact hy cl h2
    · exact hB u h1 cl hcl
  constructor
  · intro hdst
    have hdst' : ∀ u ∈ A ++ { t with clips := x ++ y } :: B, u.id ≠ ntid := by
      intro u hu
      simp only [List.mem_append, List.mem_cons] at hu
      rcases hu with h1 | h1 | h1
      · exact hdst u (by rw [hT]; simp [h1])
      · subst h1; exact hdst t (by rw [hT]; simp)
      · exact hdst u (by rw [hT]; simp [h1])
    have hm := move_clip_dst_not_found pos hext hdst'
    exact ⟨hm, by rw [hm]; exact hnone⟩
  · intro P d Q hP hdid hPf
    constructor
    · intro hlock
      have hm := move_clip_dst_locked pos hext hP hdid hPf hlock
      exact ⟨hm, by rw [hm]; exact hnone⟩
    · intro m hlock hov
      have hm := move_clip_dst_overlap pos hext hP hdid hPf hlock hov
      exact ⟨hm, by rw [hm]; exact hnone⟩

/-- C7 (amended): `trim_clip` rejects, with `InvalidOperation`, a requested
`trim_start` below `0.0` or at/above the current `trim_end` (timeline fully
unchanged), and a requested `trim_end` at or below the `trim_start` current at
the moment of that check — the just-updated value when both bounds are
supplied in one call.  In that combined case the error is NOT atomic: the
clip's `trim_start` keeps the new value while its `trim_end` and `duration`,
and the timeline duration, keep their previous values. -/
theorem c7_trim_clip_bounds (tl : Timeline) (cid : String)
    (A B : List Track) (t : Track) (x y : List Clip) (c : Clip)
    (hT : tl.tracks = A ++ t :: B) (hA : ∀ u ∈ A, ∀ cl ∈ u.clips, cl.id ≠ cid)
    (hc : t.clips = x ++ c :: y) (hcid : c.id = cid) (hx : ∀ u ∈ x, u.id ≠ cid) :
    (∀ s te?, s < 0 ∨ c.trim_end ≤ s →
      trim_clip tl cid (some s) te? =
        (Except.error (.InvalidOperation ("Invalid trim_start: " ++ showQ s)), tl))
    ∧ (∀ e, e ≤ c.trim_start →
      trim_clip tl cid none (some e) =
        (Except.error (.InvalidOperation ("Invalid trim_end: " ++ showQ e)), tl))
    ∧ (∀ s e, 0 ≤ s → s < c.trim_end → e ≤ s →
      trim_clip tl cid (some s) (some e) =
        (Except.error (.InvalidOperation ("Invalid trim_end: " ++ showQ e)),
          { tl with tracks := A ++ { t with clips := x ++ { c with trim_start := s } :: y } :: B })
      ∧ ({ c with trim_start := s } : Clip).trim_end = c.trim_end
      ∧ ({ c with trim_start := s } : Clip).duration = c.duration
      ∧ (trim_clip tl cid (some s) (some e)).2.duration = tl.duration) := by
  have heta : ({ t with clips := x ++ c :: y } : Track) = t := by rw [← hc]
  refine ⟨?_, ?_, ?_⟩
  · intro s te? hbad
    have hres := trimResult_start_invalid te? (hbad.imp id (fun h => h))
    have hd := trim_clip_dispatch_err (trimTracks_intro_err hT hA hc hcid hx hres)
    rw [heta, ← hT] at hd
    exact hd
  · intro e hbad
    have hres := trimResult_end_invalid_none hbad
    have hd := trim_clip_dispatch_err (trimTracks_intro_err hT hA hc hcid hx hres)
    rw [heta, ← hT] at hd
    exact hd
  · intro s e hs0 hse hbad
    have hvalid : ¬(s < 0 ∨ s ≥ c.trim_end) := by
      push_neg
      exact ⟨hs0, hse⟩
    have hres := trimResult_end_invalid_some hvalid hbad
    have hd := trim_clip_dispatch_err (trimTracks_intro_err hT hA hc hcid hx hres)
    exact ⟨hd, rfl, rfl, by rw [hd]⟩

/-- Counterexample for C7 as frozen: a call with a valid `trim_start` and an
invalid `trim_end` returns an error, yet the clip's `trim_start` (originally
`2`) has been changed to `4` in the post-state — the error path is not
atomic. -/
theorem c7_counterexample :
    (trim_clip tlTrimW "c7" (some 4) (some 1)).1 =
      Except.error (.InvalidOperation ("Invalid trim_end: " ++ showQ 1))
    ∧ clipTrimW.trim_start = 2
    ∧ ∃ t ∈ (trim_clip tlTrimW "c7" (some 4) (some 1)).2.tracks,
        ∃ cl ∈ t.clips, cl.id = "c7" ∧ cl.trim_start = 4 := by
  have hvalid : ¬((4 : ℚ) < 0 ∨ (4 : ℚ) ≥ clipTrimW.trim_end) := by
    norm_num [clipTrimW]
  have hres := trimResult_end_invalid_some hvalid (show (1 : ℚ) ≤ 4 by norm_num)
  have htr := trimTracks_intro_err
    (show tlTrimW.tracks = [] ++ ({ trackVW with clips := [clipTrimW] } : Track) :: [trackAW]
      from rfl)
    (by simp)
    (show ({ trackVW with clips := [clipTrimW] } : Track).clips = [] ++ clipTrimW :: [] from rfl)
    (show clipTrimW.id = "c7" from rfl) (by simp) hres
  have hd := trim_clip_dispatch_err htr
  refine ⟨by rw [hd], rfl, ?_⟩
  rw [hd]
  simp only [List.nil_append]
  exact ⟨_, List.mem_cons_self _ _, { clipTrimW with trim_start := 4 }, by simp, rfl, rfl⟩

/-- Witness for C7: a negative requested `trim_start` is rejected with the
fixture timeline fully unchanged. -/
theorem c7_witness :
    trim_clip tlTrimW "c7" (some (-1)) none =
      (Except.error (.InvalidOperation ("Invalid trim_start: " ++ showQ (-1))), tlTrimW) :=
  (c7_trim_clip_bounds tlTrimW "c7" [] [trackAW] { trackVW with clips := [clipTrimW] }
    [] [] clipTrimW rfl (by simp) rfl rfl (by simp)).1 (-1) none
    (Or.inl (by norm_num))

/-- C9 (amended): after the encoder exits with status zero, `export_timeline`
succeeds exactly when the declared output path exists; a missing output is
rejected as `OutputError "Output file was not created"`.  The size of the
file is never consulted, so an empty output file still counts as success. -/
theorem c9_output_verification (ex : Bool) (sz : Nat) (p : String) :
    (verifyOutput ex sz p = Except.ok p ↔ ex = true)
    ∧ (ex = false →
      verifyOutput ex sz p = Except.error (.OutputError "Output file was not created")) := by
  cases ex <;> simp [verifyOutput]

/-- Witness for C9: a missing output file is an `OutputError` even though the
process exited with status zero. -/
theorem c9_witness :
    verifyOutput false 5 "out.mp4" = Except.error (.OutputError "Output file was not created") :=
  (c9_output_verification false 5 "out.mp4").2 rfl

/-- Counterexample for C9 as frozen: the output path exists but the file is
empty (size `0`); the claim demands a `Failed` outcome, yet the source checks
only existence and returns success. -/
theorem c9_counterexample : verifyOutput true 0 "out.mp4" = Except.ok "out.mp4" := rfl

/-- A failed clip search means no clip carries the id. -/
theorem findClipSplit_none_inv {cid : String} {cs : List Clip}
    (h : findClipSplit cid cs = none) : ∀ c ∈ cs, c.id ≠ cid := by
  rw [findClipSplit, findSplitP_none_iff] at h
  exact fun c hc => beq_eq_false_iff_ne.mp (h c hc)

/-- A failed track search means no track carries the id. -/
theorem findTrackSplit_none_inv {tid : String} {ts : List Track}
    (h : findTrackSplit tid ts = none) : ∀ t ∈ ts, t.id ≠ tid := by
  rw [findTrackSplit, findSplitP_none_iff] at h
  exact fun t ht => beq_eq_false_iff_ne.mp (h t ht)

/-- Bridge between `applyOp` and `add_clip`. -/
theorem applyOp_addClip {tl tl' : Timeline} {tid : String} {clip : Clip} :
    applyOp tl (.addClip tid clip) = some tl' ↔ add_clip tl tid clip = (Except.ok (), tl') := by
  cases hadd : add_clip tl tid clip with
  | mk r x =>
    cases r with
    | ok u => cases u; simp [applyOp, hadd]
    | error e => simp [applyOp, hadd]

/-- Bridge between `applyOp` and `add_track`. -/
theorem applyOp_addTrack {tl tl' : Timeline} {tid : String} {ty : TrackType} :
    applyOp tl (.addTrack tid ty) = some tl' ↔ add_track tl tid ty = (Except.ok (), tl') := by
  cases hadd : add_track tl tid ty with
  | mk r x =>
    cases r with
    | ok u => cases u; simp [applyOp, hadd]
    | error e => simp [applyOp, hadd]

/-- Bridge between `applyOp` and `remove_track`. -/
theorem applyOp_removeTrack {tl tl' : Timeline} {tid : String} :
    applyOp tl (.removeTrack tid) = some tl' ↔ remove_track tl tid = (Except.ok (), tl') := by
  cases hop : remove_track tl tid with
  | mk r x =>
    cases r with
    | ok u => cases u; simp [applyOp, hop]
    | error e => simp [applyOp, hop]

/-- Bridge between `applyOp` and `remove_clip`. -/
theorem applyOp_removeClip {tl tl' : Timeline} {cid : String} :
    applyOp tl (.removeClip cid) = some tl' ↔ remove_clip tl cid = (Except.ok (), tl') := by
  cases hop : remove_clip tl cid with
  | mk r x =>
    cases r with
    | ok u => cases u; simp [applyOp, hop]
    | error e => simp [applyOp, hop]

/-- Bridge between `applyOp` and `move_clip`. -/
theorem applyOp_moveClip {tl tl' : Timeline} {cid ntid : String} {pos : ℚ} :
    applyOp tl (.moveClip cid ntid pos) = some tl' ↔
      move_clip tl cid ntid pos = (Except.ok (), tl') := by
  cases hop : move_clip tl cid ntid pos with
  | mk r x =>
    cases r with
    | ok u => cases u; simp [applyOp, hop]
    | error e => simp [applyOp, hop]

/-- Bridge between `applyOp` and `trim_clip`. -/
theorem applyOp_trimClip {tl tl' : Timeline} {cid : String} {ts? te? : Option ℚ} :
    applyOp tl (.trimClip cid ts? te?) = some tl' ↔
      trim_clip tl cid ts? te? = (Except.ok (), tl') := by
  cases hop : trim_clip tl cid ts? te? with
  | mk r x =>
    cases r with
    | ok u => cases u; simp [applyOp, hop]
    | error e => simp [applyOp, hop]

/-- Bridge between `applyOp` and `split_clip`. -/
theorem applyOp_splitClip {tl tl' : Timeline} {cid : String} {st : ℚ} {fid sid : String} :
    applyOp tl (.splitClip cid st fid sid) = some tl' ↔
      ∃ r, split_clip tl cid st fid sid = (Except.ok r, tl') := by
  cases hop : split_clip tl cid st fid sid with
  | mk r x =>
    cases r with
    | ok u => simp [applyOp, hop]
    | error e => simp [applyOp, hop]

/-- Inversion of a successful `add_clip`. -/
theorem add_clip_ok_inv {tl tl' : Timeline} {tid : String} {clip : Clip}
    (h : add_clip tl tid clip = (Except.ok (), tl')) :
    ∃ A t B, tl.tracks = A ++ t :: B ∧ t.id = tid ∧ (∀ u ∈ A, u.id ≠ tid)
      ∧ t.locked = false ∧ check_overlap t clip = none
      ∧ tl' = { tl with
          tracks := A ++ { t with clips := t.clips ++ [clip] } :: B
          duration := max tl.duration (clipEnd clip) } := by
  cases hf : findTrackSplit tid tl.tracks with
  | none =>
    rw [add_clip_not_found clip (findTrackSplit_none_inv hf)] at h
    simp at h
  | some v =>
    obtain ⟨A, t, B⟩ := v
    obtain ⟨hT, hid, hA⟩ := findTrackSplit_eq_some hf
    by_cases hl : t.locked
    · rw [add_clip_locked clip hT hid hA hl] at h; simp at h
    · have hl' : t.locked = false := Bool.eq_false_iff.mpr hl
      cases hov : check_overlap t clip with
      | some m => rw [add_clip_overlap hT hid hA hl' hov] at h; simp at h
      | none =>
        rw [add_clip_ok hT hid hA hl' hov] at h
        simp only [Prod.mk.injEq, true_and] at h
        refine ⟨A, t, B, hT, hid, hA, hl', hov, ?_⟩
        rw [← h, ite_gt_eq_max]

/-- Inversion of a successful `remove_track`. -/
theorem remove_track_ok_inv {tl tl' : Timeline} {tid : String}
    (h : remove_track tl tid = (Except.ok (), tl')) :
    ∃ A t B, tl.tracks = A ++ t :: B ∧ t.id = tid ∧ tl' = { tl with tracks := A ++ B } := by
  cases hf : findTrackSplit tid tl.tracks with
  | none => rw [remove_track, hf] at h; simp at h
  | some v =>
    obtain ⟨A, t, B⟩ := v
    obtain ⟨hT, hid, _⟩ := findTrackSplit_eq_some hf
    rw [remove_track, hf] at h
    simp only [Prod.mk.injEq, true_and] at h
    exact ⟨A, t, B, hT, hid, h.symm⟩

/-- Inversion of a firing removal scan. -/
theorem removeClipTracks_some_inv {cid : String} {ts ts' : List Track} {u : Unit}
    (h : removeClipTracks cid ts = some (u, ts')) :
    ∃ A t B x c y, ts = A ++ t :: B ∧ (∀ w ∈ A, ∀ cl ∈ w.clips, cl.id ≠ cid)
      ∧ t.clips = x ++ c :: y ∧ c.id = cid ∧ (∀ w ∈ x, w.id ≠ cid)
      ∧ ts' = A ++ { t with clips := x ++ y } :: B := by
  rw [removeClipTracks] at h
  obtain ⟨A, t, t', B, hts, hts', hhit, hA⟩ := scanTracks_some h
  rw [removeHit] at hhit
  rw [Option.map_eq_some'] at hhit
  obtain ⟨⟨x, c, y⟩, hfind, heq⟩ := hhit
  obtain ⟨hclips, hcid, hx⟩ := findClipSplit_eq_some hfind
  simp only [Prod.mk.injEq] at heq
  refine ⟨A, t, B, x, c, y, hts, ?_, hclips, hcid, hx, by rw [hts', ← heq.2]⟩
  intro w hw cl hcl
  have := hA w hw
  rw [removeHit, Option.map_eq_none'] at this
  exact findClipSplit_none_inv this cl hcl

/-- Inversion of a firing extraction scan. -/
theorem extractClipTracks_some_inv {cid : String} {ts ts' : List Track} {c0 : Clip}
    (h : extractClipTracks cid ts = some (c0, ts')) :
    ∃ A t B x y, ts = A ++ t :: B ∧ (∀ w ∈ A, ∀ cl ∈ w.clips, cl.id ≠ cid)
      ∧ t.clips = x ++ c0 :: y ∧ c0.id = cid ∧ (∀ w ∈ x, w.id ≠ cid)
      ∧ ts' = A ++ { t with clips := x ++ y } :: B := by
  rw [extractClipTracks] at h
  obtain ⟨A, t, t', B, hts, hts', hhit, hA⟩ := scanTracks_some h
  rw [extractHit] at hhit
  rw [Option.map_eq_some'] at hhit
  obtain ⟨⟨x, c, y⟩, hfind, heq⟩ := hhit
  obtain ⟨hclips, hcid, hx⟩ := findClipSplit_eq_some hfind
  simp only [Prod.mk.injEq] at heq
  obtain ⟨hc0, ht'⟩ := heq
  subst hc0
  refine ⟨A, t, B, x, y, hts, ?_, hclips, hcid, hx, by rw [hts', ← ht']⟩
  intro w hw cl hcl
  have := hA w hw
  rw [extractHit, Option.map_eq_none'] at this
  exact findClipSplit_none_inv this cl hcl

/-- Inversion of a successful trim scan. -/
theorem trimTracks_ok_inv {cid : String} {ts? te? : Option ℚ} {ts ts' : List Track} {u : Unit}
    (h : trimTracks cid ts? te? ts = some (Except.ok u, ts')) :
    ∃ A t B x c y c', ts = A ++ t :: B ∧ (∀ w ∈ A, ∀ cl ∈ w.clips, cl.id ≠ cid)
      ∧ t.clips = x ++ c :: y ∧ c.id = cid ∧ (∀ w ∈ x, w.id ≠ cid)
      ∧ trimResult c ts? te? = Except.ok c'
      ∧ ts' = A ++ { t with clips := x ++ c' :: y } :: B := by
  rw [trimTracks] at h
  obtain ⟨A, t, t', B, hts, hts', hhit, hA⟩ := scanTracks_some h
  rw [trimHit] at hhit
  rw [Option.map_eq_some'] at hhit
  obtain ⟨⟨x, c, y⟩, hfind, heq⟩ := hhit
  obtain ⟨hclips, hcid, hx⟩ := findClipSplit_eq_some hfind
  have hAcl : ∀ w ∈ A, ∀ cl ∈ w.clips, cl.id ≠ cid := by
    intro w hw cl hcl
    have := hA w hw
    rw [trimHit, Option.map_eq_none'] at this
    exact findClipSplit_none_inv this cl hcl
  cases htr : trimResult c ts? te? with
  | ok c' =>
    rw [htr] at heq
    simp only [Prod.mk.injEq] at heq
    exact ⟨A, t, B, x, c, y, c', hts, hAcl, hclips, hcid, hx, htr, by rw [hts', ← heq.2]⟩
  | error ec =>
    obtain ⟨e, cbad⟩ := ec
    rw [htr] at heq
    simp only [Prod.mk.injEq] at heq
    exact absurd heq.1.symm (by simp)

/-- Inversion of a successful split scan. -/
theorem splitTracks_ok_inv {cid : String} {st : ℚ} {fid sid : String} {ts ts' : List Track}
    {r : String × String} (h : splitTracks cid st fid sid ts = some (Except.ok r, ts')) :
    ∃ A t B x c y, ts = A ++ t :: B ∧ (∀ w ∈ A, ∀ cl ∈ w.clips, cl.id ≠ cid)
      ∧ t.clips = x ++ c :: y ∧ c.id = cid ∧ (∀ w ∈ x, w.id ≠ cid)
      ∧ clipStart c < st ∧ st < clipEnd c ∧ r = (fid, sid)
      ∧ ts' = A ++ { t with clips := x ++ splitFirstClip c st fid :: splitSecondClip c st sid :: y } :: B := by
  rw [splitTracks] at h
  obtain ⟨A, t, t', B, hts, hts', hhit, hA⟩ := scanTracks_some h
  rw [splitHit] at hhit
  rw [Option.map_eq_some'] at hhit
  obtain ⟨⟨x, c, y⟩, hfind, heq⟩ := hhit
  obtain ⟨hclips, hcid, hx⟩ := findClipSplit_eq_some hfind
  have hAcl : ∀ w ∈ A, ∀ cl ∈ w.clips, cl.id ≠ cid := by
    intro w hw cl hcl
    have := hA w hw
    rw [splitHit, Option.map_eq_none'] at this
    exact findClipSplit_none_inv this cl hcl
  by_cases hcond : st ≤ clipStart c ∨ st ≥ clipEnd c
  · rw [if_pos hcond] at heq
    simp only [Prod.mk.injEq] at heq
    exact absurd heq.1.symm (by simp)
  · rw [if_neg hcond] at heq
    simp only [Prod.mk.injEq, Except.ok.injEq] at heq
    push_neg at hcond
    exact ⟨A, t, B, x, c, y, hts, hAcl, hclips, hcid, hx, hcond.1, hcond.2, heq.1.symm,
      by rw [hts', ← heq.2]⟩

/-- Inversion of a successful `move_clip`. -/
theorem move_clip_ok_inv {tl tl' : Timeline} {cid ntid : String} {pos : ℚ}
    (h : move_clip tl cid ntid pos = (Except.ok (), tl')) :
    ∃ c0 T' P d Q, extractClipTracks cid tl.tracks = some (c0, T')
      ∧ T' = P ++ d :: Q ∧ d.id = ntid ∧ (∀ u ∈ P, u.id ≠ ntid)
      ∧ d.locked = false ∧ check_overlap d { c0 with track_position := pos } = none
      ∧ tl' = { tl with
          tracks := P ++ { d with clips := d.clips ++ [{ c0 with track_position := pos }] } :: Q
          duration := calculate_duration
            (P ++ { d with clips := d.clips ++ [{ c0 with track_position := pos }] } :: Q) } := by
  cases hext : extractClipTracks cid tl.tracks with
  | none => rw [move_clip, hext] at h; simp at h
  | some v =>
    obtain ⟨c0, T'⟩ := v
    cases hf : findTrackSplit ntid T' with
    | none =>
      rw [move_clip_dst_not_found pos hext (findTrackSplit_none_inv hf)] at h
      simp at h
    | some w =>
      obtain ⟨P, d, Q⟩ := w
      obtain ⟨hT', hdid, hPf⟩ := findTrackSplit_eq_some hf
      by_cases hl : d.locked
      · rw [move_clip_dst_locked pos hext hT' hdid hPf hl] at h; simp at h
      · have hl' : d.locked = false := Bool.eq_false_iff.mpr hl
        cases hov : check_overlap d { c0 with track_position := pos } with
        | some m => rw [move_clip_dst_overlap pos hext hT' hdid hPf hl' hov] at h; simp at h
        | none =>
          rw [move_clip_ok pos hext hT' hdid hPf hl' hov] at h
          simp only [Prod.mk.injEq, true_and] at h
          exact ⟨c0, T', P, d, Q, rfl, hT', hdid, hPf, hl', hov, h.symm⟩

/-- A track scan commutes with a per-track rewrite that the hit function does
not observe. -/
theorem scanTracks_map_g {α : Type} (hit : Track → Option (α × Track)) (g : Track → Track)
    (hg : ∀ t, hit (g t) = (hit t).map (fun x => (x.1, g x.2))) (ts : List Track) :
    scanTracks hit (ts.map g) = (scanTracks hit ts).map (fun x => (x.1, x.2.map g)) := by
  induction ts with
  | nil => simp [scanTracks]
  | cons t ts ih =>
    rw [List.map_cons, scanTracks, hg t, scanTracks]
    cases hht : hit t with
    | some v => simp
    | none =>
      simp only [Option.map_none', ih, Option.map_map]
      cases hsc : scanTracks hit ts with
      | none => simp
      | some w => simp [Function.comp]

/-- `calculate_duration` ignores any per-track rewrite that keeps the clips. -/
theorem calculate_duration_map_g (g : Track → Track) (hg : ∀ t, (g t).clips = t.clips)
    (ts : List Track) : calculate_duration (ts.map g) = calculate_duration ts := by
  rw [calculate_duration, calculate_duration, calculate_duration_aux_eq,
    calculate_duration_aux_eq]
  have : allClips (ts.map g) = allClips ts := by
    simp [allClips, List.flatMap_map, Function.comp, hg]
  rw [this]

/-- The per-track action of `remove_clip` never reads the lock flag. -/
theorem removeHit_unlock (cid : String) (t : Track) :
    removeHit cid { t with locked := false } =
      (removeHit cid t).map (fun x => (x.1, { x.2 with locked := false })) := by
  cases h : findClipSplit cid t.clips <;> simp [removeHit, h]

/-- The per-track action of `trim_clip` never reads the lock flag. -/
theorem trimHit_unlock (cid : String) (ts? te? : Option ℚ) (t : Track) :
    trimHit cid ts? te? { t with locked := false } =
      (trimHit cid ts? te? t).map (fun x => (x.1, { x.2 with locked := false })) := by
  cases h : findClipSplit cid t.clips with
  | none => simp [trimHit, h]
  | some v =>
    simp only [trimHit, h, Option.map_some']
    cases htr : trimResult v.2.1 ts? te? with
    | ok c' => simp
    | error ec => simp

/-- The per-track action of `split_clip` never reads the lock flag. -/
theorem splitHit_unlock (cid : String) (st : ℚ) (fid sid : String) (t : Track) :
    splitHit cid st fid sid { t with locked := false } =
      (splitHit cid st fid sid t).map (fun x => (x.1, { x.2 with locked := false })) := by
  cases h : findClipSplit cid t.clips with
  | none => simp [splitHit, h]
  | some v =>
    simp only [splitHit, h, Option.map_some']
    by_cases hc : st ≤ clipStart v.2.1 ∨ st ≥ clipEnd v.2.1
    · simp [if_pos hc]
    · simp [if_neg hc]

/-- `remove_clip` behaves on a fully unlocked timeline exactly as on the
original, and produces the unlocked image of the original post-state. -/
theorem remove_clip_unlock (tl : Timeline) (cid : String) :
    remove_clip (unlockTracks tl) cid =
      ((remove_clip tl cid).1, unlockTracks (remove_clip tl cid).2) := by
  have hsc := scanTracks_map_g (removeHit cid) (fun t => { t with locked := false })
    (removeHit_unlock cid) tl.tracks
  have key : removeClipTracks cid (unlockTracks tl).tracks =
      (removeClipTracks cid tl.tracks).map
        (fun x => (x.1, x.2.map (fun t => ({ t with locked := false } : Track)))) := by
    rw [show (unlockTracks tl).tracks = tl.tracks.map (fun t => { t with locked := false })
      from rfl]
    rw [removeClipTracks, removeClipTracks]
    exact hsc
  rw [remove_clip, remove_clip, key]
  cases h : removeClipTracks cid tl.tracks with
  | none => simp [unlockTracks]
  | some v =>
    obtain ⟨u, T'⟩ := v
    simp only [Option.map_some']
    rw [calculate_duration_map_g (fun t => ({ t with locked := false } : Track)) (fun t => rfl) T']
    simp [unlockTracks]

/-- `trim_clip` behaves on a fully unlocked timeline exactly as on the
original. -/
theorem trim_clip_unlock (tl : Timeline) (cid : String) (ts? te? : Option ℚ) :
    trim_clip (unlockTracks tl) cid ts? te? =
      ((trim_clip tl cid ts? te?).1, unlockTracks (trim_clip tl cid ts? te?).2) := by
  have hsc := scanTracks_map_g (trimHit cid ts? te?) (fun t => { t with locked := false })
    (trimHit_unlock cid ts? te?) tl.tracks
  have key : trimTracks cid ts? te? (unlockTracks tl).tracks =
      (trimTracks cid ts? te? tl.tracks).map
        (fun x => (x.1, x.2.map (fun t => ({ t with locked := false } : Track)))) := by
    rw [show (unlockTracks tl).tracks = tl.tracks.map (fun t => { t with locked := false })
      from rfl]
    rw [trimTracks, trimTracks]
    exact hsc
  rw [trim_clip, trim_clip, key]
  cases h : trimTracks cid ts? te? tl.tracks with
  | none => simp [unlockTracks]
  | some v =>
    obtain ⟨r, T'⟩ := v
    cases r with
    | ok u =>
      simp only [Option.map_some']
      rw [calculate_duration_map_g (fun t => ({ t with locked := false } : Track)) (fun t => rfl) T']
      simp [unlockTracks]
    | error e =>
      simp only [Option.map_some']
      simp [unlockTracks]

/-- `split_clip` behaves on a fully unlocked timeline exactly as on the
original. -/
theorem split_clip_unlock (tl : Timeline) (cid : String) (st : ℚ) (fid sid : String) :
    split_clip (unlockTracks tl) cid st fid sid =
      ((split_clip tl cid st fid sid).1, unlockTracks (split_clip tl cid st fid sid).2) := by
  have hsc := scanTracks_map_g (splitHit cid st fid sid) (fun t => { t with locked := false })
    (splitHit_unlock cid st fid sid) tl.tracks
  have key : splitTracks cid st fid sid (unlockTracks tl).tracks =
      (splitTracks cid st fid sid tl.tracks).map
        (fun x => (x.1, x.2.map (fun t => ({ t with locked := false } : Track)))) := by
    rw [show (unlockTracks tl).tracks = tl.tracks.map (fun t => { t with locked := false })
      from rfl]
    rw [splitTracks, splitTracks]
    exact hsc
  rw [split_clip, split_clip, key]
  cases h : splitTracks cid st fid sid tl.tracks with
  | none => simp [unlockTracks]
  | some v =>
    obtain ⟨r, T'⟩ := v
    simp [unlockTracks]

/-- C10 (implicit claim): the `locked` flag gates only insertion.
`remove_clip`, `trim_clip` and `split_clip` ignore every track's lock flag:
on the fully unlocked copy of any timeline they return the same result and
the unlocked image of the same post-state, so a lock never causes them to
reject or to mutate differently.  Only `add_clip` and the destination check
of `move_clip` consult the flag, each rejecting with `InvalidOperation`. -/
theorem c10_locked_gates_only_insertion (tl : Timeline) (cid tid ntid : String)
    (ts? te? : Option ℚ) (st pos : ℚ) (fid sid : String) (clip : Clip) :
    remove_clip (unlockTracks tl) cid =
      ((remove_clip tl cid).1, unlockTracks (remove_clip tl cid).2)
    ∧ trim_clip (unlockTracks tl) cid ts? te? =
      ((trim_clip tl cid ts? te?).1, unlockTracks (trim_clip tl cid ts? te?).2)
    ∧ split_clip (unlockTracks tl) cid st fid sid =
      ((split_clip tl cid st fid sid).1, unlockTracks (split_clip tl cid st fid sid).2)
    ∧ (∀ A t B, tl.tracks = A ++ t :: B → t.id = tid → (∀ u ∈ A, u.id ≠ tid) →
        t.locked = true →
        add_clip tl tid clip =
          (Except.error (.InvalidOperation ("Track " ++ tid ++ " is locked")), tl))
    ∧ (∀ c0 T' P Q d, extractClipTracks cid tl.tracks = some (c0, T') →
        T' = P ++ d :: Q → d.id = ntid → (∀ u ∈ P, u.id ≠ ntid) → d.locked = true →
        move_clip tl cid ntid pos =
          (Except.error (.InvalidOperation ("Target track " ++ ntid ++ " is locked")),
            { tl with tracks := T' })) := by
  refine ⟨remove_clip_unlock tl cid, trim_clip_unlock tl cid ts? te?,
    split_clip_unlock tl cid st fid sid, ?_, ?_⟩
  · intro A t B hT hid hA hlock
    exact add_clip_locked clip hT hid hA hlock
  · intro c0 T' P Q d hext hP hdid hPf hlock
    exact move_clip_dst_locked pos hext hP hdid hPf hlock

/-- Witness for C10: removing the fixture clip from the locked copy of the
fixture timeline gives the unlocked image of the normal result, and adding to
the locked fixture track is rejected. -/
theorem c10_witness :
    remove_clip (unlockTracks tlW1) "c1" =
      ((remove_clip tlW1 "c1").1, unlockTracks (remove_clip tlW1 "c1").2)
    ∧ add_clip tlLockedW "L" clipW =
      (Except.error (.InvalidOperation ("Track " ++ "L" ++ " is locked")), tlLockedW) := by
  refine ⟨(c10_locked_gates_only_insertion tlW1 "c1" "L" "x" none none 0 0 "f" "s" clipW).1, ?_⟩
  exact (c10_locked_gates_only_insertion tlLockedW "c1" "L" "x" none none 0 0 "f" "s" clipW).2.2.2.1
    [] trackLockedW [] rfl rfl (by simp) rfl

/-- Witness for C8: moving the fixture clip to a nonexistent track loses it. -/
theorem c8_witness :
    move_clip tlW1 "c1" "nosuch" 3 = (Except.error (.TrackNotFound "nosuch"),
      { tlW1 with tracks := [] ++ { trackVW with clips := [] ++ [] } :: [trackAW] })
    ∧ NoClipWithId (move_clip tlW1 "c1" "nosuch" 3).2 "c1" := by
  exact (c8_move_clip_failure_loses_clip tlW1 "c1" "nosuch" 3 [] [trackAW] trackVW
    [] [] clipW rfl (by simp) rfl rfl (by simp) (by simp)
    (by intro u hu; simp [trackAW] at hu; subst hu; simp)).1
    (by intro u hu
        simp only [tlW1, tlW, create_timeline, List.mem_cons, List.not_mem_nil, or_false] at hu
        rcases hu with h | h <;> subst h <;> simp [trackVW, trackAW])

/-- Removing or inserting one clip in the middle of a track changes the spec
duration by a `max` with that clip's end. -/
theorem specDuration_middle (A B : List Track) (t : Track) (x y : List Clip) (c : Clip) :
    specDuration (A ++ { t with clips := x ++ c :: y } :: B) =
      max (clipEnd c) (specDuration (A ++ { t with clips := x ++ y } :: B)) := by
  have h1 : allClips (A ++ { t with clips := x ++ c :: y } :: B)
      = (allClips A ++ x) ++ c :: (y ++ allClips B) := by
    simp [allClips]
  have h2 : allClips (A ++ { t with clips := x ++ y } :: B)
      = (allClips A ++ x) ++ (y ++ allClips B) := by
    simp [allClips]
  rw [specDuration, specDuration, h1, h2, List.map_append, List.map_cons,
    foldr_max_middle, ← List.map_append]

/-- C2 (amended): after every successful `add_clip`, `remove_clip`,
`move_clip`, `trim_clip`, `split_clip` or `add_track`, starting from a
duration-consistent timeline, the stored duration again equals the maximum of
`track_position + duration` over all clips floored at `0.0` — in particular
it is `0.0` when no clips remain, it bounds every clip end, and when nonzero
it is realized by some clip.  (`remove_track` is excluded: the source does
not recompute the duration there, which is the counterexample.) -/
theorem c2_duration_consistency (tl tl' : Timeline) (op : EditorOp)
    (hop : NotRemoveTrack op) (h : applyOp tl op = some tl')
    (hcons : tl.duration = specDuration tl.tracks) :
    tl'.duration = specDuration tl'.tracks
    ∧ (allClips tl'.tracks = [] → tl'.duration = 0)
    ∧ (∀ c ∈ allClips tl'.tracks, clipEnd c ≤ tl'.duration)
    ∧ (tl'.duration = 0 ∨ ∃ c ∈ allClips tl'.tracks, tl'.duration = clipEnd c) := by
  have key : tl'.duration = specDuration tl'.tracks := by
    cases op with
    | removeTrack tid => exact hop.elim
    | addTrack tid ty =>
      rw [applyOp_addTrack] at h
      rw [add_track] at h
      simp only [Prod.mk.injEq, true_and] at h
      rw [← h]
      simp [specDuration, allClips, hcons]
    | addClip tid clip =>
      rw [applyOp_addClip] at h
      obtain ⟨A, t, B, hT, hid, hA, hl, hov, htl'⟩ := add_clip_ok_inv h
      subst htl'
      show max tl.duration (clipEnd clip) = _
      have heta : ({ t with clips := t.clips ++ [] } : Track) = t := by
        rw [List.append_nil]
      have hm := specDuration_middle A B t t.clips [] clip
      rw [heta] at hm
      show max tl.duration (clipEnd clip)
        = specDuration (A ++ { t with clips := t.clips ++ [clip] } :: B)
      rw [hm, ← hT, ← hcons, max_comm]
    | removeClip cid =>
      rw [applyOp_removeClip] at h
      cases hsc : removeClipTracks cid tl.tracks with
      | none => rw [remove_clip_dispatch_none hsc] at h; simp at h
      | some v =>
        obtain ⟨u, T'⟩ := v
        rw [remove_clip_dispatch_ok hsc] at h
        simp only [Prod.mk.injEq, true_and] at h
        rw [← h]
        exact calculate_duration_eq_spec T'
    | moveClip cid ntid pos =>
      rw [applyOp_moveClip] at h
      obtain ⟨c0, T', P, d, Q, _, _, _, _, _, _, htl'⟩ := move_clip_ok_inv h
      subst htl'
      exact calculate_duration_eq_spec _
    | trimClip cid a b =>
      rw [applyOp_trimClip] at h
      cases htt : trimTracks cid a b tl.tracks with
      | none => rw [trim_clip_dispatch_none htt] at h; simp at h
      | some v =>
        obtain ⟨r, T'⟩ := v
        cases r with
        | ok u =>
          cases u
          rw [trim_clip_dispatch_ok htt] at h
          simp only [Prod.mk.injEq, true_and] at h
          rw [← h]
          exact calculate_duration_eq_spec T'
        | error e => rw [trim_clip_dispatch_err htt] at h; simp at h
    | splitClip cid st fid sid =>
      rw [applyOp_splitClip] at h
      obtain ⟨r, h⟩ := h
      cases hsp : splitTracks cid st fid sid tl.tracks with
      | none => rw [split_clip_dispatch_none hsp] at h; simp at h
      | some v =>
        obtain ⟨r0, T'⟩ := v
        rw [split_clip_dispatch hsp] at h
        simp only [Prod.mk.injEq] at h
        obtain ⟨hr0, htl'⟩ := h
        subst hr0
        obtain ⟨A, t, B, x, c, y, hT, hA, hclips, hcid, hx, hst1, hst2, hr, hT'⟩ :=
          splitTracks_ok_inv hsp
        subst hT'
        rw [← htl']
        show tl.duration = _
        have hteta : ({ t with clips := x ++ c :: y } : Track) = t := by rw [← hclips]
        have hef : clipEnd (splitFirstClip c st fid) = st := by
          simp [clipEnd, splitFirstClip]
        have hes : clipEnd (splitSecondClip c st sid) = clipEnd c := by
          simp [clipEnd, splitSecondClip, clipStart]
          ring
        have hm1 := specDuration_middle A B t x
          (splitSecondClip c st sid :: y) (splitFirstClip c st fid)
        have hm2 := specDuration_middle A B t x y (splitSecondClip c st sid)
        have hm3 := specDuration_middle A B t x y c
        have hm3' : specDuration (A ++ t :: B) = max (clipEnd c)
            (specDuration (A ++ { t with clips := x ++ y } :: B)) := by
          conv_lhs => rw [← hteta]
          exact hm3
        have hle : st ≤ clipEnd c := le_of_lt hst2
        rw [hm1, hm2, hef, hes, ← max_assoc, max_eq_right hle, hcons, hT, hm3']
  refine ⟨key, ?_, ?_, ?_⟩
  · intro h0
    rw [key]
    exact specDuration_eq_zero h0
  · intro c hc
    rw [key]
    exact clipEnd_le_specDuration hc
  · rw [key]
    exact specDuration_cases _

/-- Witness for C2: removing the fixture clip keeps the stored duration equal
to the recomputed maximum. -/
theorem c2_witness :
    ∃ tlF, applyOp tlW1 (EditorOp.removeClip "c1") = some tlF
      ∧ (tlF.duration = specDuration tlF.tracks
        ∧ (allClips tlF.tracks = [] → tlF.duration = 0)
        ∧ (∀ c ∈ allClips tlF.tracks, clipEnd c ≤ tlF.duration)
        ∧ (tlF.duration = 0 ∨ ∃ c ∈ allClips tlF.tracks, tlF.duration = clipEnd c)) := by
  have hrc := remove_clip_dispatch_ok (removeClipTracks_intro
    (show tlW1.tracks = [] ++ trackVW :: [trackAW] from rfl) (by simp)
    (show trackVW.clips = [] ++ clipW :: [] from rfl) rfl (by simp))
  have happ : applyOp tlW1 (EditorOp.removeClip "c1") = some _ := applyOp_removeClip.mpr hrc
  refine ⟨_, happ,
    c2_duration_consistency tlW1 _ (EditorOp.removeClip "c1") trivial happ ?_⟩
  show (5 : ℚ) = specDuration [trackVW, trackAW]
  norm_num [specDuration, allClips, trackVW, trackAW, clipW, clipEnd, max_def]

/-- Counterexample for C2 as frozen: a successful `remove_track` deletes the
only clip-bearing track yet leaves the stored duration at `5.0`, where the
claim demands `0.0` for a clip-free timeline. -/
theorem c2_counterexample :
    ∃ tlF, applyOps tlW [EditorOp.addClip "v" clipW, EditorOp.removeTrack "v"] = some tlF
      ∧ allClips tlF.tracks = [] ∧ tlF.duration = 5 := by
  have h1 := add_clip_ok
    (show tlW.tracks = [] ++ trackV0 :: [trackA0] from rfl)
    (show trackV0.id = "v" from rfl) (by simp) rfl
    (show check_overlap trackV0 clipW = none from rfl)
  have ha1 := applyOp_addClip.mpr h1
  have h2 : remove_track { tlW with
      tracks := [] ++ { trackV0 with clips := trackV0.clips ++ [clipW] } :: [trackA0]
      duration := if clipEnd clipW > tlW.duration then clipEnd clipW else tlW.duration } "v"
      = (Except.ok (), { tlW with
          tracks := [] ++ [trackA0]
          duration := if clipEnd clipW > tlW.duration then clipEnd clipW else tlW.duration }) := by
    rw [remove_track, findTrackSplit_intro "v" rfl rfl (by simp)]
  have ha2 := applyOp_removeTrack.mpr h2
  refine ⟨{ tlW with
      tracks := [] ++ [trackA0]
      duration := if clipEnd clipW > tlW.duration then clipEnd clipW else tlW.duration },
    ?_, ?_, ?_⟩
  · simp only [applyOps, ha1, ha2]
  · simp [allClips, trackA0]
  · show (if clipEnd clipW > tlW.duration then clipEnd clipW else tlW.duration) = 5
    norm_num [clipEnd, clipW, tlW, create_timeline]

/-- Interval disjointness is symmetric. -/
theorem ClipsDisjoint.symm {a b : Clip} (h : ClipsDisjoint a b) : ClipsDisjoint b a :=
  h.elim Or.inr Or.inl

/-- Disjoint clips share no time point. -/
theorem ClipsDisjoint.not_both {a b : Clip} (h : ClipsDisjoint a b) (q : ℚ) :
    ¬(inClip a q ∧ inClip b q) := by
  rintro ⟨⟨ha1, ha2⟩, hb1, hb2⟩
  rcases h with h | h
  · exact absurd (lt_of_lt_of_le ha2 (h.trans hb1)) (lt_irrefl q)
  · exact absurd (lt_of_lt_of_le hb2 (h.trans ha1)) (lt_irrefl q)

/-- `idCount` distributes over a track-list decomposition. -/
theorem idCount_decomp (A B : List Track) (t : Track) (i : String) :
    idCount (A ++ t :: B) i =
      idCount A i + t.clips.countP (fun c => c.id == i) + idCount B i := by
  simp [idCount, List.sum_append]
  ring

/-- A zero id count means the id is nowhere. -/
theorem idCount_zero_inv {ts : List Track} {i : String} (h : idCount ts i = 0) :
    ∀ t ∈ ts, ∀ c ∈ t.clips, c.id ≠ i := by
  intro t ht c hc
  rw [idCount, List.sum_eq_zero_iff] at h
  have h1 : t.clips.countP (fun c => c.id == i) = 0 :=
    h _ (List.mem_map_of_mem _ ht)
  rw [List.countP_eq_zero] at h1
  exact beq_eq_false_iff_ne.mp (by simpa using h1 c hc)

/-- The presence of a clip makes its id's count positive. -/
theorem idCount_pos_of_mem {ts : List Track} {t : Track} {c : Clip}
    (ht : t ∈ ts) (hc : c ∈ t.clips) : 0 < idCount ts c.id := by
  by_contra h
  push_neg at h
  exact idCount_zero_inv (Nat.le_zero.mp h) t ht c hc rfl

/-- A clean overlap scan together with id freshness yields disjointness from
every existing clip. -/
theorem disjoint_of_checkOverlap_none {nc : Clip} {cs : List Clip}
    (hov : checkOverlapClips nc cs = none) (hfresh : ∀ e ∈ cs, e.id ≠ nc.id) :
    ∀ e ∈ cs, ClipsDisjoint e nc := by
  intro e he
  rcases (checkOverlapClips_none_iff nc cs).mp hov e he with h | h
  · exact absurd h (hfresh e he)
  · exact h

/-- Pairwise disjointness survives appending a clip disjoint from the rest. -/
theorem pairwise_append_single {cs : List Clip} {c : Clip}
    (hp : cs.Pairwise ClipsDisjoint) (hd : ∀ e ∈ cs, ClipsDisjoint e c) :
    (cs ++ [c]).Pairwise ClipsDisjoint := by
  rw [List.pairwise_append]
  exact ⟨hp, List.pairwise_singleton _ _, fun a ha b hb => by
    rw [List.mem_singleton] at hb
    subst hb
    exact hd a ha⟩

/-- Pairwise disjointness survives removing a middle clip. -/
theorem pairwise_remove_middle {x y : List Clip} {c : Clip}
    (hp : (x ++ c :: y).Pairwise ClipsDisjoint) :
    (x ++ y).Pairwise ClipsDisjoint :=
  hp.sublist (List.Sublist.append_left (List.sublist_cons_self c y) x)

/-- Pairwise disjointness survives replacing a middle clip by two clips that
sit inside its interval and are mutually disjoint. -/
theorem pairwise_replace_two {x y : List Clip} {c f s : Clip}
    (hp : (x ++ c :: y).Pairwise ClipsDisjoint)
    (hf : ∀ u, ClipsDisjoint u c → ClipsDisjoint u f)
    (hs : ∀ u, ClipsDisjoint u c → ClipsDisjoint u s)
    (hfs : ClipsDisjoint f s) :
    (x ++ f :: s :: y).Pairwise ClipsDisjoint := by
  rw [List.pairwise_append] at hp ⊢
  obtain ⟨hx, hcy, hxy⟩ := hp
  rw [List.pairwise_cons] at hcy
  obtain ⟨hcall, hy⟩ := hcy
  refine ⟨hx, ?_, ?_⟩
  · rw [List.pairwise_cons]
    refine ⟨?_, ?_⟩
    · intro b hb
      rcases List.mem_cons.mp hb with h1 | h1
      · subst h1; exact hfs
      · exact (hf b ((hcall b h1).symm)).symm
    · rw [List.pairwise_cons]
      exact ⟨fun b hb => (hs b ((hcall b hb).symm)).symm, hy⟩
  · intro a ha b hb
    rcases List.mem_cons.mp hb with h1 | h1
    · subst h1; exact hf a (hxy a ha c (by simp))
    · rcases List.mem_cons.mp h1 with h2 | h2
      · subst h2; exact hs a (hxy a ha c (by simp))
      · exact hxy a ha b (by simp [h2])

/-- The first split half sits inside the original interval. -/
theorem splitFirst_disjoint {c : Clip} {st : ℚ} (fid : String)
    (hst2 : st < clipEnd c) :
    ∀ u, ClipsDisjoint u c → ClipsDisjoint u (splitFirstClip c st fid) := by
  intro u h
  rcases h with h | h
  · exact Or.inl (by simpa [splitFirstClip, clipStart] using h)
  · refine Or.inr ?_
    have : clipEnd (splitFirstClip c st fid) = st := by simp [clipEnd, splitFirstClip]
    rw [this]
    exact (le_of_lt hst2).trans h

/-- The second split half sits inside the original interval. -/
theorem splitSecond_disjoint {c : Clip} {st : ℚ} (sid : String)
    (hst1 : clipStart c < st) :
    ∀ u, ClipsDisjoint u c → ClipsDisjoint u (splitSecondClip c st sid) := by
  intro u h
  rcases h with h | h
  · refine Or.inl ?_
    have : clipStart (splitSecondClip c st sid) = st := by simp [clipStart, splitSecondClip]
    rw [this]
    exact h.trans (le_of_lt hst1)
  · refine Or.inr ?_
    have : clipEnd (splitSecondClip c st sid) = clipEnd c := by
      simp [clipEnd, splitSecondClip, clipStart]
      ring
    rw [this]
    exact h

/-- The two split halves are disjoint. -/
theorem splitHalves_disjoint (c : Clip) (st : ℚ) (fid sid : String) :
    ClipsDisjoint (splitFirstClip c st fid) (splitSecondClip c st sid) := by
  refine Or.inl ?_
  have h1 : clipEnd (splitFirstClip c st fid) = st := by simp [clipEnd, splitFirstClip]
  have h2 : clipStart (splitSecondClip c st sid) = st := by simp [clipStart, splitSecondClip]
  rw [h1, h2]

/-- Inversion of a successful `split_clip`. -/
theorem split_clip_ok_inv {tl tl' : Timeline} {cid : String} {st : ℚ} {fid sid : String}
    {r : String × String} (h : split_clip tl cid st fid sid = (Except.ok r, tl')) :
    ∃ A t B x c y, tl.tracks = A ++ t :: B ∧ (∀ w ∈ A, ∀ cl ∈ w.clips, cl.id ≠ cid)
      ∧ t.clips = x ++ c :: y ∧ c.id = cid ∧ (∀ w ∈ x, w.id ≠ cid)
      ∧ clipStart c < st ∧ st < clipEnd c ∧ r = (fid, sid)
      ∧ tl' = { tl with tracks := A ++ { t with clips := x ++ splitFirstClip c st fid :: splitSecondClip c st sid :: y } :: B } := by
  cases hsp : splitTracks cid st fid sid tl.tracks with
  | none => rw [split_clip_dispatch_none hsp] at h; simp at h
  | some v =>
    obtain ⟨r0, T'⟩ := v
    rw [split_clip_dispatch hsp] at h
    simp only [Prod.mk.injEq] at h
    obtain ⟨hr0, htl'⟩ := h
    subst hr0
    obtain ⟨A, t, B, x, c, y, hT, hA, hclips, hcid, hx, hst1, hst2, hr, hT'⟩ :=
      splitTracks_ok_inv hsp
    subst hT'
    exact ⟨A, t, B, x, c, y, hT, hA, hclips, hcid, hx, hst1, hst2, hr, htl'.symm⟩

/-- One fresh-id clip-placing editor step preserves the no-overlap and
distinct-ids invariant. -/
theorem InvC1_step {tl tl' : Timeline} (hinv : InvC1 tl) (hstep : StepC1 tl tl') :
    InvC1 tl' := by
  obtain ⟨op, hallow, hfresh, happ⟩ := hstep
  obtain ⟨hno, hids⟩ := hinv
  cases op with
  | addTrack tid ty => exact hallow.elim
  | removeTrack tid => exact hallow.elim
  | removeClip cid => exact hallow.elim
  | trimClip cid a b => exact hallow.elim
  | addClip tid clip =>
    rw [applyOp_addClip] at happ
    obtain ⟨A, t, B, hT, hid, hA, hl, hov, htl'⟩ := add_clip_ok_inv happ
    subst htl'
    have hfr : FreshId tl clip.id := hfresh
    constructor
    · intro u hu
      simp only [List.mem_append, List.mem_cons] at hu
      rcases hu with h1 | h1 | h1
      · exact hno u (by rw [hT]; simp [h1])
      · subst h1
        show (t.clips ++ [clip]).Pairwise ClipsDisjoint
        apply pairwise_append_single
        · exact hno t (by rw [hT]; simp)
        · apply disjoint_of_checkOverlap_none hov
          intro e he
          exact idCount_zero_inv hfr t (by rw [hT]; simp) e he
      · exact hno u (by rw [hT]; simp [h1])
    · intro j
      show idCount (A ++ { t with clips := t.clips ++ [clip] } :: B) j ≤ 1
      rw [idCount_decomp]
      simp only [List.countP_append]
      have hold := hids j
      rw [hT, idCount_decomp] at hold
      by_cases hj : clip.id = j
      · subst hj
        have hz : idCount tl.tracks clip.id = 0 := hfr
        rw [hT, idCount_decomp] at hz
        have h1 : List.countP (fun c => c.id == clip.id) [clip] = 1 := by simp
        omega
      · have h1 : List.countP (fun c => c.id == j) [clip] = 0 := by
          simp [List.countP_cons, beq_eq_false_iff_ne.mpr hj]
        omega
  | moveClip cid ntid pos =>
    rw [applyOp_moveClip] at happ
    obtain ⟨c0, T', P, d, Q, hext, hP, hdid, hPf, hl, hov, htl'⟩ := move_clip_ok_inv happ
    subst htl'
    obtain ⟨A, t, B, x, y, hT, hA, hclips, hcid, hx, hT'⟩ := extractClipTracks_some_inv hext
    have hnoT' : ∀ u ∈ T', TrackNoOverlap u := by
      intro u hu
      rw [hT'] at hu
      simp only [List.mem_append, List.mem_cons] at hu
      rcases hu with h1 | h1 | h1
      · exact hno u (by rw [hT]; simp [h1])
      · subst h1
        show (x ++ y).Pairwise ClipsDisjoint
        have ht := hno t (by rw [hT]; simp)
        rw [TrackNoOverlap, hclips] at ht
        exact pairwise_remove_middle ht
      · exact hno u (by rw [hT]; simp [h1])
    have hrel : ∀ j, idCount tl.tracks j
        = idCount T' j + (if c0.id == j then 1 else 0) := by
      intro j
      rw [hT, hT', idCount_decomp, idCount_decomp, hclips]
      simp only [List.countP_append, List.countP_cons, List.countP_nil]
      ring
    have hzero : idCount T' c0.id = 0 := by
      have h1 := hids c0.id
      have h2 := hrel c0.id
      simp only [beq_self_eq_true, if_true] at h2
      omega
    constructor
    · intro u hu
      simp only [List.mem_append, List.mem_cons] at hu
      rcases hu with h1 | h1 | h1
      · exact hnoT' u (by rw [hP]; simp [h1])
      · subst h1
        show (d.clips ++ [{ c0 with track_position := pos }]).Pairwise ClipsDisjoint
        apply pairwise_append_single
        · exact hnoT' d (by rw [hP]; simp)
        · apply disjoint_of_checkOverlap_none hov
          intro e he
          exact idCount_zero_inv hzero d (by rw [hP]; simp) e he
      · exact hnoT' u (by rw [hP]; simp [h1])
    · intro j
      have hnew : idCount (P ++ { d with
            clips := d.clips ++ [{ c0 with track_position := pos }] } :: Q) j
          = idCount T' j + (if c0.id == j then 1 else 0) := by
        rw [hP, idCount_decomp, idCount_decomp]
        simp only [List.countP_append, List.countP_cons, List.countP_nil]
        ring
      have h2 := hids j
      rw [hrel j] at h2
      show idCount _ j ≤ 1
      rw [hnew]
      exact h2
  | splitClip cid st fid sid =>
    rw [applyOp_splitClip] at happ
    obtain ⟨r, happ⟩ := happ
    obtain ⟨A, t, B, x, c, y, hT, hA, hclips, hcid, hx, hst1, hst2, hr, htl'⟩ :=
      split_clip_ok_inv happ
    subst htl'
    obtain ⟨hffr, hsfr, hfs⟩ := hfresh
    have hcfid : c.id ≠ fid :=
      idCount_zero_inv hffr t (by rw [hT]; simp) c (by rw [hclips]; simp)
    have hcsid : c.id ≠ sid :=
      idCount_zero_inv hsfr t (by rw [hT]; simp) c (by rw [hclips]; simp)
    constructor
    · intro u hu
      simp only [List.mem_append, List.mem_cons] at hu
      rcases hu with h1 | h1 | h1
      · exact hno u (by rw [hT]; simp [h1])
      · subst h1
        show (x ++ splitFirstClip c st fid :: splitSecondClip c st sid :: y).Pairwise
          ClipsDisjoint
        have ht := hno t (by rw [hT]; simp)
        rw [TrackNoOverlap, hclips] at ht
        exact pairwise_replace_two ht (splitFirst_disjoint fid hst2)
          (splitSecond_disjoint sid hst1) (splitHalves_disjoint c st fid sid)
      · exact hno u (by rw [hT]; simp [h1])
    · intro j
      show idCount (A ++ { t with clips := x ++ splitFirstClip c st fid :: splitSecondClip c st sid :: y } :: B) j ≤ 1
      have hnew : idCount (A ++ { t with
            clips := x ++ splitFirstClip c st fid :: splitSecondClip c st sid :: y } :: B) j
            + (if c.id == j then 1 else 0)
          = idCount tl.tracks j + (if fid == j then 1 else 0)
            + (if sid == j then 1 else 0) := by
        rw [hT, idCount_decomp, idCount_decomp, hclips]
        simp only [List.countP_append, List.countP_cons, List.countP_nil]
        have hf : (splitFirstClip c st fid).id = fid := rfl
        have hs : (splitSecondClip c st sid).id = sid := rfl
        rw [hf, hs]
        ring
      have hold := hids j
      by_cases hjf : fid = j
      · subst hjf
        have hz : idCount tl.tracks fid = 0 := hffr
        have hc0 : (c.id == fid) = false := beq_eq_false_iff_ne.mpr hcfid
        have hs0 : (sid == fid) = false := beq_eq_false_iff_ne.mpr (Ne.symm hfs)
        simp [hz, hc0, hs0] at hnew
        omega
      · by_cases hjs : sid = j
        · subst hjs
          have hz : idCount tl.tracks sid = 0 := hsfr
          have hc0 : (c.id == sid) = false := beq_eq_false_iff_ne.mpr hcsid
          have hf0 : (fid == sid) = false := beq_eq_false_iff_ne.mpr hfs
          simp [hz, hc0, hf0] at hnew
          omega
        · have hf0 : (fid == j) = false := beq_eq_false_iff_ne.mpr hjf
          have hs0 : (sid == j) = false := beq_eq_false_iff_ne.mpr hjs
          by_cases hcj : c.id = j
          · have hc1 : (c.id == j) = true := beq_iff_eq.mpr hcj
            simp [hf0, hs0, hc1] at hnew
            omega
          · have hc0 : (c.id == j) = false := beq_eq_false_iff_ne.mpr hcj
            simp [hf0, hs0, hc0] at hnew
            omega

/-- The freshly created timeline satisfies the editor invariant. -/
theorem InvC1_create (tlid nm : String) (fr : ℚ) (res : Resolution) (vid aid : String) :
    InvC1 (create_timeline tlid nm fr res vid aid) := by
  constructor
  · intro t ht
    simp only [create_timeline, List.mem_cons, List.not_mem_nil, or_false] at ht
    rcases ht with h | h <;> subst h <;> exact List.Pairwise.nil
  · intro j
    simp [idCount, create_timeline]

/-- C1 (amended): starting from a freshly created timeline, after every
sequence of clip-placing operations (`add_clip`, `move_clip`, `split_clip`)
that each returned success and whose introduced ids are fresh (as the
service's `Uuid::new_v4` ids are), every pair of distinct clips on any track
occupies non-intersecting half-open intervals.  `trim_clip` is excluded: it
can extend a clip without any overlap re-check, which is the counterexample
to the claim as frozen. -/
theorem c1_no_overlap_invariant (tlid nm : String) (fr : ℚ) (res : Resolution)
    (vid aid : String) (tl : Timeline)
    (h : Relation.ReflTransGen StepC1 (create_timeline tlid nm fr res vid aid) tl) :
    ∀ t ∈ tl.tracks, t.clips.Pairwise (fun a b => ∀ q : ℚ, ¬(inClip a q ∧ inClip b q)) := by
  have hinv : InvC1 tl := by
    induction h with
    | refl => exact InvC1_create tlid nm fr res vid aid
    | tail hsteps hstep ih => exact InvC1_step ih hstep
  intro t ht
  exact (hinv.1 t ht).imp (fun hd => hd.not_both)

/-- Witness for C1: one successful fresh-id `add_clip` step from a freshly
created timeline, with the no-overlap conclusion on the result. -/
theorem c1_witness :
    StepC1 tlW { tlW with
      tracks := [] ++ { trackV0 with clips := trackV0.clips ++ [clipW] } :: [trackA0]
      duration := if clipEnd clipW > tlW.duration then clipEnd clipW else tlW.duration }
    ∧ ∀ t ∈ ({ tlW with
        tracks := [] ++ { trackV0 with clips := trackV0.clips ++ [clipW] } :: [trackA0]
        duration := if clipEnd clipW > tlW.duration then clipEnd clipW
          else tlW.duration } : Timeline).tracks,
      t.clips.Pairwise (fun a b => ∀ q : ℚ, ¬(inClip a q ∧ inClip b q)) := by
  have h1 := add_clip_ok
    (show tlW.tracks = [] ++ trackV0 :: [trackA0] from rfl)
    (show trackV0.id = "v" from rfl) (by simp) rfl
    (show check_overlap trackV0 clipW = none from rfl)
  have hstep : StepC1 tlW _ := ⟨EditorOp.addClip "v" clipW, trivial,
    show idCount tlW.tracks clipW.id = 0 by decide, applyOp_addClip.mpr h1⟩
  exact ⟨hstep, c1_no_overlap_invariant "tl" "w" 30 ⟨1920, 1080⟩ "v" "a" _
    (Relation.ReflTransGen.single hstep)⟩

/-- Counterexample for C1 as frozen: three accepted operations — two clip
insertions and a `trim_clip` that extends the first clip's trim window —
leave two distinct clips on the video track whose half-open intervals share
the time point `6`. -/
theorem c1_counterexample :
    ∃ tlF, applyOps tlW [EditorOp.addClip "v" clipW, EditorOp.addClip "v" clipW2,
        EditorOp.trimClip "c1" none (some 10)] = some tlF
      ∧ ∃ t ∈ tlF.tracks, ∃ a ∈ t.clips, ∃ b ∈ t.clips, a.id ≠ b.id
        ∧ ∃ q : ℚ, inClip a q ∧ inClip b q := by
  have h1 := add_clip_ok
    (show tlW.tracks = [] ++ trackV0 :: [trackA0] from rfl)
    (show trackV0.id = "v" from rfl) (by simp) rfl
    (show check_overlap trackV0 clipW = none from rfl)
  have ha1 : applyOp tlW (EditorOp.addClip "v" clipW) = some { tlW with tracks := [{ trackV0 with clips := [clipW] }, trackA0], duration := if clipEnd clipW > tlW.duration then clipEnd clipW else tlW.duration } := applyOp_addClip.mpr h1
  have hov2 : check_overlap { trackV0 with clips := [clipW] } clipW2 = none := by
    rw [check_overlap, checkOverlapClips_none_iff]
    intro e he
    simp only [List.mem_singleton] at he
    subst he
    right
    left
    show clipEnd clipW ≤ clipStart clipW2
    norm_num [clipEnd, clipStart, clipW, clipW2]
  have h2 := add_clip_ok
    (show ({ tlW with tracks := [{ trackV0 with clips := [clipW] }, trackA0], duration := if clipEnd clipW > tlW.duration then clipEnd clipW else tlW.duration } : Timeline).tracks = [] ++ { trackV0 with clips := [clipW] } :: [trackA0] from rfl)
    (show ({ trackV0 with clips := [clipW] } : Track).id = "v" from rfl)
    (by simp) rfl hov2
  have ha2 : applyOp { tlW with tracks := [{ trackV0 with clips := [clipW] }, trackA0], duration := if clipEnd clipW > tlW.duration then clipEnd clipW else tlW.duration } (EditorOp.addClip "v" clipW2) = some { tlW with tracks := [{ trackV0 with clips := [clipW, clipW2] }, trackA0], duration := if clipEnd clipW2 > (if clipEnd clipW > tlW.duration then clipEnd clipW else tlW.duration) then clipEnd clipW2 else if clipEnd clipW > tlW.duration then clipEnd clipW else tlW.duration } := applyOp_addClip.mpr h2
  have hres : trimResult clipW none (some 10) = Except.ok
      { clipW with trim_end := 10, duration := (10 - clipW.trim_start) / clipW.speed } :=
    trimResult_ok_end (by norm_num [clipW])
  have h3 := trim_clip_dispatch_ok (trimTracks_intro_ok
    (show ({ tlW with tracks := [{ trackV0 with clips := [clipW, clipW2] }, trackA0], duration := if clipEnd clipW2 > (if clipEnd clipW > tlW.duration then clipEnd clipW else tlW.duration) then clipEnd clipW2 else if clipEnd clipW > tlW.duration then clipEnd clipW else tlW.duration } : Timeline).tracks = [] ++ ({ trackV0 with clips := [clipW, clipW2] } : Track) :: [trackA0] from rfl)
    (by simp)
    (show ({ trackV0 with clips := [clipW, clipW2] } : Track).clips = [] ++ clipW :: [clipW2] from rfl)
    (show clipW.id = "c1" from rfl) (by simp) hres)
  have ha3 : applyOp { tlW with tracks := [{ trackV0 with clips := [clipW, clipW2] }, trackA0], duration := if clipEnd clipW2 > (if clipEnd clipW > tlW.duration then clipEnd clipW else tlW.duration) then clipEnd clipW2 else if clipEnd clipW > tlW.duration then clipEnd clipW else tlW.duration } (EditorOp.trimClip "c1" none (some 10)) = some { tlW with tracks := [{ trackV0 with clips := [{ clipW with trim_end := 10, duration := (10 - clipW.trim_start) / clipW.speed }, clipW2] }, trackA0], duration := calculate_duration [{ trackV0 with clips := [{ clipW with trim_end := 10, duration := (10 - clipW.trim_start) / clipW.speed }, clipW2] }, trackA0] } := applyOp_trimClip.mpr h3
  refine ⟨{ tlW with tracks := [{ trackV0 with clips := [{ clipW with trim_end := 10, duration := (10 - clipW.trim_start) / clipW.speed }, clipW2] }, trackA0], duration := calculate_duration [{ trackV0 with clips := [{ clipW with trim_end := 10, duration := (10 - clipW.trim_start) / clipW.speed }, clipW2] }, trackA0] }, ?_, ?_⟩
  · simp only [applyOps, ha1, ha2, ha3]
  · refine ⟨_, List.mem_cons_self _ _,
      { clipW with trim_end := 10, duration := (10 - clipW.trim_start) / clipW.speed },
      by simp, clipW2, by simp, by simp [clipW, clipW2], 6, ?_, ?_⟩
    · constructor
      · show clipStart _ ≤ 6
        norm_num [clipStart, clipW]
      · show (6 : ℚ) < clipEnd _
        norm_num [clipEnd, clipW]
    · constructor
      · show clipStart clipW2 ≤ 6
        norm_num [clipStart, clipW2]
      · show (6 : ℚ) < clipEnd clipW2
        norm_num [clipEnd, clipW2]

/-- `natStrAux` of zero is empty at any fuel. -/
theorem natStrAux_zero (f : Nat) : natStrAux f 0 = [] := by cases f <;> rfl

/-- Unfolding equation of `natStrAux` on positive input. -/
theorem natStrAux_succ (f n : Nat) :
    natStrAux (f + 1) (n + 1) = natStrAux f ((n + 1) / 10) ++ [Nat.digitChar ((n + 1) % 10)] := rfl

/-- The fuel does not matter once it covers the value. -/
theorem natStrAux_fuel : ∀ (f1 : Nat) {n : Nat} (f2 : Nat), n ≤ f1 → n ≤ f2 →
    natStrAux f1 n = natStrAux f2 n := by
  intro f1
  induction f1 with
  | zero =>
    intro n f2 h1 h2
    have h0 : n = 0 := Nat.le_zero.mp h1
    subst h0
    rw [natStrAux_zero, natStrAux_zero]
  | succ g ih =>
    intro n f2 h1 h2
    cases n with
    | zero => rw [natStrAux_zero, natStrAux_zero]
    | succ m =>
      cases f2 with
      | zero => exact absurd h2 (by omega)
      | succ h =>
        rw [natStrAux_succ, natStrAux_succ]
        congr 1
        exact ih h (by omega) (by omega)

/-- Sufficient fuel on a positive value yields a nonempty digit list. -/
theorem natStrAux_ne_nil {f n : Nat} (h0 : 0 < n) (hf : n ≤ f) : natStrAux f n ≠ [] := by
  cases f with
  | zero => omega
  | succ g =>
    cases n with
    | zero => omega
    | succ m => rw [natStrAux_succ]; simp

/-- Digit characters of digits below ten really are digits. -/
theorem digitChar_isDigit {d : Nat} (h : d < 10) : (Nat.digitChar d).isDigit = true := by
  interval_cases d <;> decide

/-- `Nat.digitChar` is injective below ten. -/
theorem digitChar_inj {d e : Nat} (hd : d < 10) (he : e < 10)
    (h : Nat.digitChar d = Nat.digitChar e) : d = e := by
  interval_cases d <;> interval_cases e <;> first | rfl | exact absurd h (by decide)

/-- Every character produced by `natStrAux` is a digit. -/
theorem natStrAux_digits : ∀ (f n : Nat), ∀ c ∈ natStrAux f n, c.isDigit = true := by
  intro f
  induction f with
  | zero =>
    intro n c hc
    rw [show natStrAux 0 n = [] from rfl] at hc
    simp at hc
  | succ g ih =>
    intro n c hc
    cases n with
    | zero => rw [natStrAux_zero] at hc; simp at hc
    | succ m =>
      rw [natStrAux_succ] at hc
      rcases List.mem_append.mp hc with h | h
      · exact ih _ c h
      · rw [List.mem_singleton] at h
        subst h
        exact digitChar_isDigit (Nat.mod_lt _ (by omega))

/-- `natStrAux` with adequate fuel is injective. -/
theorem natStrAux_inj : ∀ (m : Nat) {f1 f2 n : Nat}, m ≤ f1 → n ≤ f2 →
    natStrAux f1 m = natStrAux f2 n → m = n := by
  intro m
  induction m using Nat.strong_induction_on with
  | _ m ih =>
    intro f1 f2 n h1 h2 heq
    cases m with
    | zero =>
      rw [natStrAux_zero] at heq
      by_contra hne
      have h0 : 0 < n := Nat.pos_of_ne_zero (fun h => hne h.symm)
      exact natStrAux_ne_nil h0 h2 heq.symm
    | succ k =>
      cases n with
      | zero =>
        rw [natStrAux_zero] at heq
        exact absurd heq (natStrAux_ne_nil (Nat.succ_pos k) h1)
      | succ l =>
        cases f1 with
        | zero => omega
        | succ g1 =>
          cases f2 with
          | zero => omega
          | succ g2 =>
            rw [natStrAux_succ, natStrAux_succ] at heq
            obtain ⟨hpre, hdig⟩ := List.append_inj' heq rfl
            have hdig' : Nat.digitChar ((k + 1) % 10) = Nat.digitChar ((l + 1) % 10) := by
              simpa using hdig
            have hmod : (k + 1) % 10 = (l + 1) % 10 :=
              digitChar_inj (Nat.mod_lt _ (by omega)) (Nat.mod_lt _ (by omega)) hdig'
            have hdiv : (k + 1) / 10 = (l + 1) / 10 :=
              ih ((k + 1) / 10) (by omega) (by omega) (by omega) hpre
            omega

/-- `natStr` is injective: distinct input indices render distinctly. -/
theorem natStr_inj {m n : Nat} (h : natStr m = natStr n) : m = n := by
  unfold natStr at h
  by_cases hm : m = 0 <;> by_cases hn : n = 0
  · omega
  · exfalso
    subst hm
    rw [if_pos rfl, if_neg hn] at h
    have hd : ['0'] = natStrAux n n := congrArg String.data h
    cases n with
    | zero => exact hn rfl
    | succ w =>
      rw [natStrAux_succ] at hd
      have hd2 : natStrAux w ((w + 1) / 10) ++ [Nat.digitChar ((w + 1) % 10)] = [] ++ ['0'] := by
        rw [List.nil_append]; exact hd.symm
      obtain ⟨hp, hdg⟩ := List.append_inj' hd2 rfl
      have hdiv : (w + 1) / 10 = 0 := by
        by_contra hnz
        exact natStrAux_ne_nil (Nat.pos_of_ne_zero hnz) (by omega) hp
      have hdg' : Nat.digitChar ((w + 1) % 10) = Nat.digitChar 0 := by simpa using hdg
      have hmod : (w + 1) % 10 = 0 :=
        digitChar_inj (Nat.mod_lt _ (by omega)) (by omega) hdg'
      omega
  · exfalso
    subst hn
    rw [if_pos rfl, if_neg hm] at h
    have hd : ['0'] = natStrAux m m := congrArg String.data h.symm
    cases m with
    | zero => exact hm rfl
    | succ w =>
      rw [natStrAux_succ] at hd
      have hd2 : natStrAux w ((w + 1) / 10) ++ [Nat.digitChar ((w + 1) % 10)] = [] ++ ['0'] := by
        rw [List.nil_append]; exact hd.symm
      obtain ⟨hp, hdg⟩ := List.append_inj' hd2 rfl
      have hdiv : (w + 1) / 10 = 0 := by
        by_contra hnz
        exact natStrAux_ne_nil (Nat.pos_of_ne_zero hnz) (by omega) hp
      have hdg' : Nat.digitChar ((w + 1) % 10) = Nat.digitChar 0 := by simpa using hdg
      have hmod : (w + 1) % 10 = 0 :=
        digitChar_inj (Nat.mod_lt _ (by omega)) (by omega) hdg'
      omega
  · rw [if_neg hm, if_neg hn] at h
    exact natStrAux_inj m le_rfl le_rfl (congrArg String.data h)

/-- Every character of a rendered index is a digit. -/
theorem natStr_digits (n : Nat) : ∀ c ∈ (natStr n).data, c.isDigit = true := by
  unfold natStr
  by_cases h : n = 0
  · subst h
    intro c hc
    rw [if_pos rfl] at hc
    have hc' : c = '0' := by simpa using hc
    subst hc'
    decide
  · intro c hc
    rw [if_neg h] at hc
    exact natStrAux_digits n n c hc

/-- A rendered index is never the empty string. -/
theorem natStr_ne_nil (n : Nat) : (natStr n).data ≠ [] := by
  unfold natStr
  by_cases h : n = 0
  · subst h; rw [if_pos rfl]; decide
  · rw [if_neg h]; exact natStrAux_ne_nil (Nat.pos_of_ne_zero h) le_rfl

/-- A non-digit character is absent from any all-digit character list. -/
theorem not_mem_of_digits {d : List Char} (hd : ∀ x ∈ d, x.isDigit = true) {c : Char}
    (hc : c.isDigit = false) : c ∉ d := by
  intro h
  rw [hd c h] at hc
  cases hc

/-- The empty list is a prefix of anything. -/
theorem pfxB_nil (s : List Char) : pfxB [] s = true := rfl

/-- Prefix test on two conses. -/
theorem pfxB_cons {a b : Char} {as bs : List Char} :
    pfxB (a :: as) (b :: bs) = true ↔ a = b ∧ pfxB as bs = true := by
  show (a == b && pfxB as bs) = true ↔ _
  rw [Bool.and_eq_true, beq_iff_eq]

/-- A list is a prefix of itself extended. -/
theorem pfxB_self_append (p r : List Char) : pfxB p (p ++ r) = true := by
  induction p with
  | nil => rfl
  | cons a as ih => exact pfxB_cons.mpr ⟨rfl, ih⟩

/-- Reflexivity of the prefix test. -/
theorem pfxB_refl (l : List Char) : pfxB l l = true := by
  simpa using pfxB_self_append l []

/-- A common leading block cancels in the prefix test. -/
theorem pfxB_append_same (d : List Char) {x y : List Char} :
    pfxB (d ++ x) (d ++ y) = pfxB x y := by
  induction d with
  | nil => rfl
  | cons a as ih =>
    show (a == a && _) = _
    rw [beq_self_eq_true, Bool.true_and]
    exact ih

/-- Prefix comparison across a shared separator absent from both leading
blocks: the blocks must agree and the comparison continues behind the
separator. -/
theorem pfxB_sep {c : Char} : ∀ {d1 d2 r1 r2 : List Char}, c ∉ d1 → c ∉ d2 →
    (pfxB (d1 ++ c :: r1) (d2 ++ c :: r2) = true ↔ d1 = d2 ∧ pfxB r1 r2 = true) := by
  intro d1
  induction d1 with
  | nil =>
    intro d2 r1 r2 h1 h2
    cases d2 with
    | nil => simp [pfxB_cons]
    | cons b bs =>
      simp only [List.nil_append, List.cons_append, pfxB_cons]
      constructor
      · rintro ⟨hcb, _⟩
        subst hcb
        exact absurd (List.mem_cons_self c bs) h2
      · rintro ⟨hd, _⟩
        exact absurd hd (by simp)
  | cons a as ih =>
    intro d2 r1 r2 h1 h2
    cases d2 with
    | nil =>
      simp only [List.cons_append, List.nil_append, pfxB_cons]
      constructor
      · rintro ⟨hac, _⟩
        subst hac
        exact absurd (List.mem_cons_self a as) h1
      · rintro ⟨hd, _⟩
        exact absurd hd (by simp)
    | cons b bs =>
      simp only [List.cons_append, pfxB_cons]
      rw [ih (fun h => h1 (List.mem_cons_of_mem a h)) (fun h => h2 (List.mem_cons_of_mem b h))]
      constructor
      · rintro ⟨hab, hd, hr⟩
        exact ⟨by rw [hab, hd], hr⟩
      · rintro ⟨hd, hr⟩
        injection hd with ha hb
        exact ⟨ha, hb, hr⟩

/-- Equality across a shared separator absent from both leading blocks. -/
theorem append_sep_inj {c : Char} {d1 d2 r1 r2 : List Char} (h1 : c ∉ d1) (h2 : c ∉ d2) :
    d1 ++ c :: r1 = d2 ++ c :: r2 ↔ d1 = d2 ∧ r1 = r2 := by
  constructor
  · intro h
    have hp : pfxB (d1 ++ c :: r1) (d2 ++ c :: r2) = true := by rw [h]; exact pfxB_refl _
    obtain ⟨hd, _⟩ := (pfxB_sep h1 h2).mp hp
    subst hd
    have h' : c :: r1 = c :: r2 := List.append_cancel_left h
    injection h' with _ hr
    exact ⟨rfl, hr⟩
  · rintro ⟨hd, hr⟩
    rw [hd, hr]

/-- The colon never occurs in a rendered index. -/
theorem colon_not_mem_natStr (n : Nat) : ':' ∉ (natStr n).data :=
  not_mem_of_digits (natStr_digits n) (by decide)

/-- The underscore never occurs in a rendered index. -/
theorem underscore_not_mem_natStr (n : Nat) : '_' ∉ (natStr n).data :=
  not_mem_of_digits (natStr_digits n) (by decide)

/-- The closing bracket never occurs in a rendered index. -/
theorem rbracket_not_mem_natStr (n : Nat) : ']' ∉ (natStr n).data :=
  not_mem_of_digits (natStr_digits n) (by decide)

/-- A rendered index starts with a digit. -/
theorem natStr_head_digit (n : Nat) : ∃ c cs, (natStr n).data = c :: cs ∧ c.isDigit = true := by
  cases h : (natStr n).data with
  | nil => exact absurd h (natStr_ne_nil n)
  | cons c cs =>
    exact ⟨c, cs, rfl, natStr_digits n c (by rw [h]; exact List.mem_cons_self c cs)⟩

/-- The prefix test fails on distinct head characters. -/
theorem pfxB_head_false {a b : Char} (h : a ≠ b) (as bs : List Char) :
    pfxB (a :: as) (b :: bs) = false := by
  show (a == b && pfxB as bs) = false
  rw [beq_eq_false_iff_ne.mpr h, Bool.false_and]

/-- A digit-headed pattern is no prefix of a non-digit-headed string. -/
theorem pfxB_digits_head {d r1 r2 : List Char} {c : Char} (hd : ∀ x ∈ d, x.isDigit = true)
    (hne : d ≠ []) (hc : c.isDigit = false) : pfxB (d ++ r1) (c :: r2) = false := by
  cases d with
  | nil => exact absurd rfl hne
  | cons a as =>
    have ha : a.isDigit = true := hd a (List.mem_cons_self a as)
    have hac : a ≠ c := by
      intro heq
      subst heq
      rw [ha] at hc
      cases hc
    exact pfxB_head_false hac _ _

/-- Character data of a bracketed stream label. -/
theorem bracket_data (b : String) : ("[" ++ b ++ "]").data = '[' :: (b.data ++ [']']) := rfl

/-- Character data of a bracketed label followed by filter text. -/
theorem bracket_q_data (b q : String) :
    (("[" ++ b ++ "]") ++ q).data = '[' :: (b.data ++ ']' :: q.data) := by
  show ('[' :: (b.data ++ [']'])) ++ q.data = _
  rw [List.cons_append, List.append_assoc]
  rfl

/-- Bracketed labels are equal exactly when the bodies are. -/
theorem bracket_eq_iff {b1 b2 : String} (h1 : ']' ∉ b1.data) (h2 : ']' ∉ b2.data) :
    ("[" ++ b1 ++ "]" : String) = "[" ++ b2 ++ "]" ↔ b1 = b2 := by
  constructor
  · intro h
    have hd := congrArg String.data h
    rw [bracket_data, bracket_data] at hd
    injection hd with _ hd'
    exact String.ext ((append_sep_inj h1 h2).mp hd').1
  · intro h
    rw [h]

/-- A bracketed pattern is a prefix of a chain exactly when it is the chain's
source label. -/
theorem strStarts_bracket_chain {P bs : String} (hP : ∃ b, P = "[" ++ b ++ "]" ∧ ']' ∉ b.data)
    (hbs : ']' ∉ bs.data) {s : String} {t : List Char}
    (hs : s.data = '[' :: (bs.data ++ ']' :: t)) :
    strStarts P s = (P == "[" ++ bs ++ "]") := by
  obtain ⟨b, hPeq, hb⟩ := hP
  subst hPeq
  by_cases heq : b = bs
  · subst heq
    rw [beq_iff_eq.mpr rfl]
    show pfxB (("[" ++ b ++ "]").data) s.data = true
    rw [bracket_data, hs]
    refine pfxB_cons.mpr ⟨rfl, ?_⟩
    rw [pfxB_append_same]
    rfl
  · have hne : ("[" ++ b ++ "]" : String) ≠ "[" ++ bs ++ "]" :=
      fun hcon => heq ((bracket_eq_iff hb hbs).mp hcon)
    rw [beq_eq_false_iff_ne.mpr hne]
    show pfxB (("[" ++ b ++ "]").data) s.data = false
    rw [bracket_data, hs]
    cases hval : pfxB ('[' :: (b.data ++ [']'])) ('[' :: (bs.data ++ ']' :: t)) with
    | false => rfl
    | true =>
      obtain ⟨_, h2⟩ := pfxB_cons.mp hval
      obtain ⟨hbd, _⟩ := (pfxB_sep hb hbs).mp h2
      exact absurd (String.ext hbd) heq

/-- A bracketed label followed by filter text `q` is no prefix of a chain
whose continuation rejects `q`. -/
theorem strStarts_brq_chain_false {b q bs : String} (hb : ']' ∉ b.data) (hbs : ']' ∉ bs.data)
    {s : String} {t : List Char} (hs : s.data = '[' :: (bs.data ++ ']' :: t))
    (hq : pfxB q.data t = false) :
    strStarts ("[" ++ b ++ "]" ++ q) s = false := by
  show pfxB (("[" ++ b ++ "]" ++ q)).data s.data = false
  rw [bracket_q_data, hs]
  cases hval : pfxB ('[' :: (b.data ++ ']' :: q.data)) ('[' :: (bs.data ++ ']' :: t)) with
  | false => rfl
  | true =>
    obtain ⟨_, h2⟩ := pfxB_cons.mp hval
    obtain ⟨_, hq'⟩ := (pfxB_sep hb hbs).mp h2
    rw [hq] at hq'
    cases hq'

/-- Character data of the video split-output body. -/
theorem vb_data (i k : Nat) : ("vsplit" ++ natStr i ++ "_tmp" ++ natStr k : String).data
    = 'v' :: 's' :: 'p' :: 'l' :: 'i' :: 't'
        :: ((natStr i).data ++ '_' :: ('t' :: 'm' :: 'p' :: (natStr k).data)) := by
  show 'v' :: 's' :: 'p' :: 'l' :: 'i' :: 't'
      :: (((natStr i).data ++ ('_' :: 't' :: 'm' :: 'p' :: [])) ++ (natStr k).data) = _
  rw [List.append_assoc]
  rfl

/-- Character data of the audio split-output body. -/
theorem ab_data (i k : Nat) : ("asplit" ++ natStr i ++ "_tmp" ++ natStr k : String).data
    = 'a' :: 's' :: 'p' :: 'l' :: 'i' :: 't'
        :: ((natStr i).data ++ '_' :: ('t' :: 'm' :: 'p' :: (natStr k).data)) := by
  show 'a' :: 's' :: 'p' :: 'l' :: 'i' :: 't'
      :: (((natStr i).data ++ ('_' :: 't' :: 'm' :: 'p' :: [])) ++ (natStr k).data) = _
  rw [List.append_assoc]
  rfl

/-- Splitting a rendered-index pair at a colon separator. -/
theorem natStr_colon_inj {i i' : Nat} {r r' : List Char}
    (h : (natStr i).data ++ ':' :: r = (natStr i').data ++ ':' :: r') : i = i' ∧ r = r' := by
  obtain ⟨h1, h2⟩ := (append_sep_inj (colon_not_mem_natStr i) (colon_not_mem_natStr i')).mp h
  exact ⟨natStr_inj (String.ext h1), h2⟩

/-- The video split-output body determines its input index and output number. -/
theorem vb_inj {i k i' k' : Nat}
    (h : ("vsplit" ++ natStr i ++ "_tmp" ++ natStr k : String)
      = "vsplit" ++ natStr i' ++ "_tmp" ++ natStr k') : i = i' ∧ k = k' := by
  have hd := congrArg String.data h
  rw [vb_data, vb_data] at hd
  injection hd with _ hd
  injection hd with _ hd
  injection hd with _ hd
  injection hd with _ hd
  injection hd with _ hd
  injection hd with _ hd
  obtain ⟨h1, h2⟩ :=
    (append_sep_inj (underscore_not_mem_natStr i) (underscore_not_mem_natStr i')).mp hd
  injection h2 with _ h2
  injection h2 with _ h2
  injection h2 with _ h2
  exact ⟨natStr_inj (String.ext h1), natStr_inj (String.ext h2)⟩

/-- The audio split-output body determines its input index and output number. -/
theorem ab_inj {i k i' k' : Nat}
    (h : ("asplit" ++ natStr i ++ "_tmp" ++ natStr k : String)
      = "asplit" ++ natStr i' ++ "_tmp" ++ natStr k') : i = i' ∧ k = k' := by
  have hd := congrArg String.data h
  rw [ab_data, ab_data] at hd
  injection hd with _ hd
  injection hd with _ hd
  injection hd with _ hd
  injection hd with _ hd
  injection hd with _ hd
  injection hd with _ hd
  obtain ⟨h1, h2⟩ :=
    (append_sep_inj (underscore_not_mem_natStr i) (underscore_not_mem_natStr i')).mp hd
  injection h2 with _ h2
  injection h2 with _ h2
  injection h2 with _ h2
  exact ⟨natStr_inj (String.ext h1), natStr_inj (String.ext h2)⟩

/-- The raw-video body determines its input index. -/
theorem rv_inj {i i' : Nat} (h : (natStr i ++ ":v" : String) = natStr i' ++ ":v") : i = i' := by
  have hd := congrArg String.data h
  exact (natStr_colon_inj hd).1

/-- The raw-audio body determines its input index. -/
theorem ra_inj {i i' : Nat} (h : (natStr i ++ ":a" : String) = natStr i' ++ ":a") : i = i' := by
  have hd := congrArg String.data h
  exact (natStr_colon_inj hd).1

/-- A video split-output body is never a raw-video body. -/
theorem vb_ne_rv {i k i' : Nat} :
    ("vsplit" ++ natStr i ++ "_tmp" ++ natStr k : String) ≠ natStr i' ++ ":v" := by
  intro h
  have hd := congrArg String.data h
  rw [vb_data] at hd
  obtain ⟨c, cs, hc, hdig⟩ := natStr_head_digit i'
  rw [show (natStr i' ++ ":v" : String).data = (natStr i').data ++ ':' :: 'v' :: [] from rfl,
    hc] at hd
  injection hd with h1 _
  rw [← h1] at hdig
  exact absurd hdig (by decide)

/-- A video split-output body is never a raw-audio body. -/
theorem vb_ne_ra {i k i' : Nat} :
    ("vsplit" ++ natStr i ++ "_tmp" ++ natStr k : String) ≠ natStr i' ++ ":a" := by
  intro h
  have hd := congrArg String.data h
  rw [vb_data] at hd
  obtain ⟨c, cs, hc, hdig⟩ := natStr_head_digit i'
  rw [show (natStr i' ++ ":a" : String).data = (natStr i').data ++ ':' :: 'a' :: [] from rfl,
    hc] at hd
  injection hd with h1 _
  rw [← h1] at hdig
  exact absurd hdig (by decide)

/-- An audio split-output body is never a raw-video body. -/
theorem ab_ne_rv {i k i' : Nat} :
    ("asplit" ++ natStr i ++ "_tmp" ++ natStr k : String) ≠ natStr i' ++ ":v" := by
  intro h
  have hd := congrArg String.data h
  rw [ab_data] at hd
  obtain ⟨c, cs, hc, hdig⟩ := natStr_head_digit i'
  rw [show (natStr i' ++ ":v" : String).data = (natStr i').data ++ ':' :: 'v' :: [] from rfl,
    hc] at hd
  injection hd with h1 _
  rw [← h1] at hdig
  exact absurd hdig (by decide)

/-- An audio split-output body is never a raw-audio body. -/
theorem ab_ne_ra {i k i' : Nat} :
    ("asplit" ++ natStr i ++ "_tmp" ++ natStr k : String) ≠ natStr i' ++ ":a" := by
  intro h
  have hd := congrArg String.data h
  rw [ab_data] at hd
  obtain ⟨c, cs, hc, hdig⟩ := natStr_head_digit i'
  rw [show (natStr i' ++ ":a" : String).data = (natStr i').data ++ ':' :: 'a' :: [] from rfl,
    hc] at hd
  injection hd with h1 _
  rw [← h1] at hdig
  exact absurd hdig (by decide)

/-- Video and audio split-output bodies differ. -/
theorem vb_ne_ab {i k i' k' : Nat} :
    ("vsplit" ++ natStr i ++ "_tmp" ++ natStr k : String)
      ≠ "asplit" ++ natStr i' ++ "_tmp" ++ natStr k' := by
  intro h
  have hd := congrArg String.data h
  rw [vb_data, ab_data] at hd
  injection hd with h1 _
  cases h1

/-- Raw video and raw audio bodies differ. -/
theorem rv_ne_ra {i i' : Nat} : (natStr i ++ ":v" : String) ≠ natStr i' ++ ":a" := by
  intro h
  have hd := congrArg String.data h
  obtain ⟨_, h2⟩ := natStr_colon_inj hd
  cases h2

/-- A video split-output body is nonempty. -/
theorem vb_ne_empty {i k : Nat} :
    ("vsplit" ++ natStr i ++ "_tmp" ++ natStr k : String) ≠ "" := by
  intro h
  have hd := congrArg String.data h
  rw [vb_data] at hd
  cases hd

/-- An audio split-output body is nonempty. -/
theorem ab_ne_empty {i k : Nat} :
    ("asplit" ++ natStr i ++ "_tmp" ++ natStr k : String) ≠ "" := by
  intro h
  have hd := congrArg String.data h
  rw [ab_data] at hd
  cases hd

/-- A raw-video body is nonempty. -/
theorem rv_ne_empty {i : Nat} : (natStr i ++ ":v" : String) ≠ "" := by
  intro h
  have hd := congrArg String.data h
  obtain ⟨c, cs, hc, _⟩ := natStr_head_digit i
  rw [show (natStr i ++ ":v" : String).data = (natStr i).data ++ ':' :: 'v' :: [] from rfl,
    hc] at hd
  cases hd

/-- A raw-audio body is nonempty. -/
theorem ra_ne_empty {i : Nat} : (natStr i ++ ":a" : String) ≠ "" := by
  intro h
  have hd := congrArg String.data h
  obtain ⟨c, cs, hc, _⟩ := natStr_head_digit i
  rw [show (natStr i ++ ":a" : String).data = (natStr i).data ++ ':' :: 'a' :: [] from rfl,
    hc] at hd
  cases hd

/-- No closing bracket inside a video split-output body. -/
theorem rbracket_not_mem_vb (i k : Nat) :
    ']' ∉ ("vsplit" ++ natStr i ++ "_tmp" ++ natStr k : String).data := by
  rw [vb_data]
  intro h
  simp only [List.mem_cons] at h
  rcases h with h | h | h | h | h | h | h
  · cases h
  · cases h
  · cases h
  · cases h
  · cases h
  · cases h
  · rcases List.mem_append.mp h with h | h
    · exact rbracket_not_mem_natStr i h
    · simp only [List.mem_cons] at h
      rcases h with h | h | h | h | h
      · cases h
      · cases h
      · cases h
      · cases h
      · exact rbracket_not_mem_natStr k h

/-- No closing bracket inside an audio split-output body. -/
theorem rbracket_not_mem_ab (i k : Nat) :
    ']' ∉ ("asplit" ++ natStr i ++ "_tmp" ++ natStr k : String).data := by
  rw [ab_data]
  intro h
  simp only [List.mem_cons] at h
  rcases h with h | h | h | h | h | h | h
  · cases h
  · cases h
  · cases h
  · cases h
  · cases h
  · cases h
  · rcases List.mem_append.mp h with h | h
    · exact rbracket_not_mem_natStr i h
    · simp only [List.mem_cons] at h
      rcases h with h | h | h | h | h
      · cases h
      · cases h
      · cases h
      · cases h
      · exact rbracket_not_mem_natStr k h

/-- No closing bracket inside a raw-video body. -/
theorem rbracket_not_mem_rv (i : Nat) : ']' ∉ (natStr i ++ ":v" : String).data := by
  rw [show (natStr i ++ ":v" : String).data = (natStr i).data ++ ':' :: 'v' :: [] from rfl]
  intro h
  rcases List.mem_append.mp h with h | h
  · exact rbracket_not_mem_natStr i h
  · simp only [List.mem_cons] at h
    rcases h with h | h | h
    · cases h
    · cases h
    · cases h

/-- No closing bracket inside a raw-audio body. -/
theorem rbracket_not_mem_ra (i : Nat) : ']' ∉ (natStr i ++ ":a" : String).data := by
  rw [show (natStr i ++ ":a" : String).data = (natStr i).data ++ ':' :: 'a' :: [] from rfl]
  intro h
  rcases List.mem_append.mp h with h | h
  · exact rbracket_not_mem_natStr i h
  · simp only [List.mem_cons] at h
    rcases h with h | h | h
    · cases h
    · cases h
    · cases h

/-- Scanning for a key that is present finds that key. -/
theorem find?_beq_of_mem {l : List Nat} {idx : Nat} (h : idx ∈ l) :
    List.find? (fun i => i == idx) l = some idx := by
  induction l with
  | nil => cases h
  | cons a l ih =>
    by_cases ha : a = idx
    · subst ha
      exact List.find?_cons_of_pos _ (beq_self_eq_true a)
    · rw [List.find?_cons_of_neg _ (by simp [ha])]
      exact ih ((List.mem_cons.mp h).resolve_left (fun hc => ha hc.symm))

/-- The split map binds an input index referenced more than once to its
split-output names. -/
theorem lookupN_splitMap_pos {pre : String} {refs : List Nat} {idx : Nat}
    (h : 1 < refs.count idx) :
    lookupN (splitMap pre refs) idx = some (splitOutputs pre idx (refs.count idx)) := by
  rw [splitMap, lookupN, List.find?_map]
  have hmem : idx ∈ refs.dedup.filter (fun i => decide (1 < refs.count i)) := by
    rw [List.mem_filter, List.mem_dedup]
    exact ⟨List.count_pos_iff.mp (by omega), by simpa using h⟩
  rw [show ((fun p => p.1 == idx) ∘ fun i => (i, splitOutputs pre i (refs.count i)))
      = fun i => i == idx from rfl]
  rw [find?_beq_of_mem hmem]
  rfl

/-- The split map has no entry for an input index referenced at most once. -/
theorem lookupN_splitMap_le {pre : String} {refs : List Nat} {idx : Nat}
    (h : refs.count idx ≤ 1) : lookupN (splitMap pre refs) idx = none := by
  rw [splitMap, lookupN, List.find?_map]
  rw [show ((fun p => p.1 == idx) ∘ fun i => (i, splitOutputs pre i (refs.count i)))
      = fun i => i == idx from rfl]
  rw [List.find?_eq_none.mpr]
  · rfl
  · intro x hx hbeq
    rw [List.mem_filter] at hx
    have hx2 : 1 < refs.count x := by simpa using hx.2
    rw [show x = idx from by simpa using hbeq] at hx2
    omega

/-- Inversion of a successful split-map lookup. -/
theorem lookupN_splitMap_some {pre : String} {refs : List Nat} {i : Nat} {outs : List String}
    (h : lookupN (splitMap pre refs) i = some outs) :
    outs = splitOutputs pre i (refs.count i) ∧ 1 < refs.count i := by
  by_cases hc : 1 < refs.count i
  · rw [lookupN_splitMap_pos hc] at h
    exact ⟨(Option.some.injEq _ _ ▸ h).symm, hc⟩
  · rw [lookupN_splitMap_le (by omega)] at h
    cases h

/-- In-range split-output name. -/
theorem splitOutputs_getD {pre : String} {idx n k : Nat} (h : k < n) :
    (splitOutputs pre idx n).getD k "" = pre ++ natStr idx ++ "_tmp" ++ natStr k := by
  rw [splitOutputs]
  simp [List.getD, List.getElem?_map, List.getElem?_range, h]

/-- Out-of-range split-output access defaults to the empty string. -/
theorem splitOutputs_getD_oob {pre : String} {idx n k : Nat} (h : n ≤ k) :
    (splitOutputs pre idx n).getD k "" = "" := by
  rw [splitOutputs]
  exact List.getD_eq_default _ _ (by simpa using h)

/-- `vOut` as a bracketed body. -/
theorem vOut_bracket (i j : Nat) :
    vOut i j = "[" ++ ("vsplit" ++ natStr i ++ "_tmp" ++ natStr j) ++ "]" := rfl

/-- `aOut` as a bracketed body. -/
theorem aOut_bracket (i j : Nat) :
    aOut i j = "[" ++ ("asplit" ++ natStr i ++ "_tmp" ++ natStr j) ++ "]" := rfl

/-- `rawV` as a bracketed body. -/
theorem rawV_bracket (i : Nat) : rawV i = "[" ++ (natStr i ++ ":v") ++ "]" := by
  apply String.ext
  show '[' :: ((natStr i).data ++ (':' :: 'v' :: ']' :: []))
      = '[' :: (((natStr i).data ++ (':' :: 'v' :: [])) ++ (']' :: []))
  rw [List.append_assoc]
  rfl

/-- `rawA` as a bracketed body. -/
theorem rawA_bracket (i : Nat) : rawA i = "[" ++ (natStr i ++ ":a") ++ "]" := by
  apply String.ext
  show '[' :: ((natStr i).data ++ (':' :: 'a' :: ']' :: []))
      = '[' :: (((natStr i).data ++ (':' :: 'a' :: [])) ++ (']' :: []))
  rw [List.append_assoc]
  rfl

/-- A video split-output label determines its input index and output number. -/
theorem vOut_inj {i a i' b : Nat} (h : vOut i a = vOut i' b) : i = i' ∧ a = b :=
  vb_inj ((@bracket_eq_iff ("vsplit" ++ natStr i ++ "_tmp" ++ natStr a)
    ("vsplit" ++ natStr i' ++ "_tmp" ++ natStr b)
    (rbracket_not_mem_vb i a) (rbracket_not_mem_vb i' b)).mp h)

/-- An audio split-output label determines its input index and output number. -/
theorem aOut_inj {i a i' b : Nat} (h : aOut i a = aOut i' b) : i = i' ∧ a = b :=
  ab_inj ((@bracket_eq_iff ("asplit" ++ natStr i ++ "_tmp" ++ natStr a)
    ("asplit" ++ natStr i' ++ "_tmp" ++ natStr b)
    (rbracket_not_mem_ab i a) (rbracket_not_mem_ab i' b)).mp h)

/-- Shape of the source stream chosen for a video clip: a bracketed body that
is an in-range split output, the empty fallback of an out-of-range access, or
(only when the input is not split) the raw input stream. -/
theorem vSource_shape (refs : List Nat) (ctr : Nat → Nat) (i : Nat) :
    ∃ bs : String, vSource (splitMap "vsplit" refs) ctr i = "[" ++ bs ++ "]" ∧ ']' ∉ bs.data ∧
      (bs = "" ∨ bs = "vsplit" ++ natStr i ++ "_tmp" ++ natStr (ctr i)
        ∨ (lookupN (splitMap "vsplit" refs) i = none ∧ bs = natStr i ++ ":v")) := by
  cases hl : lookupN (splitMap "vsplit" refs) i with
  | none =>
    refine ⟨natStr i ++ ":v", ?_, rbracket_not_mem_rv i, Or.inr (Or.inr ⟨rfl, rfl⟩)⟩
    rw [vSource, hl, ← rawV_bracket]
    rfl
  | some outs =>
    obtain ⟨houts, hcnt⟩ := lookupN_splitMap_some hl
    subst houts
    by_cases hk : ctr i < refs.count i
    · refine ⟨"vsplit" ++ natStr i ++ "_tmp" ++ natStr (ctr i), ?_,
        rbracket_not_mem_vb i (ctr i), Or.inr (Or.inl rfl)⟩
      rw [vSource, hl]
      show "[" ++ (splitOutputs "vsplit" i (refs.count i)).getD (ctr i) "" ++ "]" = _
      rw [splitOutputs_getD hk]
    · refine ⟨"", ?_, by simp, Or.inl rfl⟩
      rw [vSource, hl]
      show "[" ++ (splitOutputs "vsplit" i (refs.count i)).getD (ctr i) "" ++ "]" = _
      rw [splitOutputs_getD_oob (by omega)]

/-- Shape of the source stream chosen for an audio clip. -/
theorem aSource_shape (refs : List Nat) (ctr : Nat → Nat) (i : Nat) :
    ∃ bs : String, aSource (splitMap "asplit" refs) ctr i = "[" ++ bs ++ "]" ∧ ']' ∉ bs.data ∧
      (bs = "" ∨ bs = "asplit" ++ natStr i ++ "_tmp" ++ natStr (ctr i)
        ∨ (lookupN (splitMap "asplit" refs) i = none ∧ bs = natStr i ++ ":a")) := by
  cases hl : lookupN (splitMap "asplit" refs) i with
  | none =>
    refine ⟨natStr i ++ ":a", ?_, rbracket_not_mem_ra i, Or.inr (Or.inr ⟨rfl, rfl⟩)⟩
    rw [aSource, hl, ← rawA_bracket]
    rfl
  | some outs =>
    obtain ⟨houts, hcnt⟩ := lookupN_splitMap_some hl
    subst houts
    by_cases hk : ctr i < refs.count i
    · refine ⟨"asplit" ++ natStr i ++ "_tmp" ++ natStr (ctr i), ?_,
        rbracket_not_mem_ab i (ctr i), Or.inr (Or.inl rfl)⟩
      rw [aSource, hl]
      show "[" ++ (splitOutputs "asplit" i (refs.count i)).getD (ctr i) "" ++ "]" = _
      rw [splitOutputs_getD hk]
    · refine ⟨"", ?_, by simp, Or.inl rfl⟩
      rw [aSource, hl]
      show "[" ++ (splitOutputs "asplit" i (refs.count i)).getD (ctr i) "" ++ "]" = _
      rw [splitOutputs_getD_oob (by omega)]

/-- The consumption trace over a concatenation. -/
theorem consumeTrace_append (smap : List (Nat × List String))
    (srcOf : (Nat → Nat) → Nat → String) : ∀ (r1 r2 : List Nat) (ctr : Nat → Nat),
    consumeTrace smap srcOf (r1 ++ r2) ctr
      = consumeTrace smap srcOf r1 ctr ++ consumeTrace smap srcOf r2 (ctrAfter smap r1 ctr) := by
  intro r1
  induction r1 with
  | nil => intro r2 ctr; rfl
  | cons i r ih =>
    intro r2 ctr
    rw [show consumeTrace smap srcOf ((i :: r) ++ r2) ctr = srcOf ctr i ::
      consumeTrace smap srcOf (r ++ r2)
        (if (lookupN smap i).isSome then bump ctr i else ctr) from rfl]
    rw [ih]
    rfl

/-- The counter fold over a concatenation. -/
theorem ctrAfter_append (smap : List (Nat × List String)) :
    ∀ (r1 r2 : List Nat) (ctr : Nat → Nat),
    ctrAfter smap (r1 ++ r2) ctr = ctrAfter smap r2 (ctrAfter smap r1 ctr) := by
  intro r1
  induction r1 with
  | nil => intro r2 ctr; rfl
  | cons i r ih => intro r2 ctr; exact ih r2 _

/-- Unfolding of the consumption trace on a cons. -/
theorem consumeTrace_cons (smap : List (Nat × List String))
    (srcOf : (Nat → Nat) → Nat → String) (i : Nat) (r : List Nat) (ctr : Nat → Nat) :
    consumeTrace smap srcOf (i :: r) ctr = srcOf ctr i ::
      consumeTrace smap srcOf r (if (lookupN smap i).isSome then bump ctr i else ctr) := rfl

/-- Bumping a counter at its own index. -/
theorem bump_self (f : Nat → Nat) (i : Nat) : bump f i i = f i + 1 := by
  rw [bump]
  simp

/-- Bumping a counter elsewhere. -/
theorem bump_other (f : Nat → Nat) {i j : Nat} (h : j ≠ i) : bump f i j = f j := by
  rw [bump]
  simp [h]

/-- Each video split output with index below the reference count is consumed
exactly once by the remaining references, given that the consumed-so-far
counter accounts for the rest. -/
theorem trace_count_vOut {refs : List Nat} {idx : Nat} (hN : 1 < refs.count idx) {j : Nat}
    (hj : j < refs.count idx) :
    ∀ (r : List Nat) (ctr : Nat → Nat), r.count idx + ctr idx = refs.count idx →
      (consumeTrace (splitMap "vsplit" refs) (vSource (splitMap "vsplit" refs)) r ctr).count
          (vOut idx j)
        = if ctr idx ≤ j then 1 else 0 := by
  intro r
  induction r with
  | nil =>
    intro ctr hinv
    have hc : ctr idx = refs.count idx := by simpa using hinv
    rw [show consumeTrace (splitMap "vsplit" refs) (vSource (splitMap "vsplit" refs)) [] ctr
      = [] from rfl]
    rw [List.count_nil, if_neg (by omega)]
  | cons i r ih =>
    intro ctr hinv
    rw [consumeTrace_cons, List.count_cons]
    by_cases hi : i = idx
    · subst hi
      have hcnt : r.count i + 1 + ctr i = refs.count i := by
        rw [List.count_cons] at hinv
        simpa using hinv
      have hct_lt : ctr i < refs.count i := by omega
      have hsrc : vSource (splitMap "vsplit" refs) ctr i = vOut i (ctr i) := by
        rw [vSource, lookupN_splitMap_pos hN]
        show "[" ++ (splitOutputs "vsplit" i (refs.count i)).getD (ctr i) "" ++ "]" = _
        rw [splitOutputs_getD hct_lt]
        rfl
      have htr : (if (lookupN (splitMap "vsplit" refs) i).isSome = true then bump ctr i
          else ctr) = bump ctr i := by
        rw [lookupN_splitMap_pos hN]
        rfl
      rw [hsrc, htr]
      have hbump : bump ctr i i = ctr i + 1 := bump_self ctr i
      have hih := ih (bump ctr i) (by rw [hbump]; omega)
      rw [hbump] at hih
      rw [hih]
      by_cases hcj : ctr i = j
      · have hbeq : (vOut i (ctr i) == vOut i j) = true := by
          rw [hcj]
          exact beq_self_eq_true _
        rw [hbeq, if_pos rfl, if_neg (by omega), if_pos (by omega)]
      · have hbeq : (vOut i (ctr i) == vOut i j) = false :=
          beq_eq_false_iff_ne.mpr (fun hcon => hcj (vOut_inj hcon).2)
        rw [hbeq]
        simp only [Bool.false_eq_true, if_false, Nat.add_zero]
        by_cases hle : ctr i + 1 ≤ j
        · rw [if_pos hle, if_pos (by omega)]
        · rw [if_neg hle, if_neg (by omega)]
    · have hctr' : (if (lookupN (splitMap "vsplit" refs) i).isSome = true then bump ctr i
          else ctr) idx = ctr idx := by
        by_cases hlk : (lookupN (splitMap "vsplit" refs) i).isSome = true
        · rw [if_pos hlk]
          exact bump_other ctr (fun h => hi h.symm)
        · rw [if_neg hlk]
      have hinv' : r.count idx + ctr idx = refs.count idx := by
        rw [List.count_cons, beq_eq_false_iff_ne.mpr hi] at hinv
        simpa using hinv
      have hih := ih (if (lookupN (splitMap "vsplit" refs) i).isSome = true then bump ctr i
        else ctr) (by rw [hctr']; exact hinv')
      rw [hctr'] at hih
      rw [hih]
      have hsrc_ne : vSource (splitMap "vsplit" refs) ctr i ≠ vOut idx j := by
        obtain ⟨bs, hbr, hnb, hcases⟩ := vSource_shape refs ctr i
        rw [hbr, vOut_bracket]
        intro hcon
        have hbody := (bracket_eq_iff hnb (rbracket_not_mem_vb idx j)).mp hcon
        rcases hcases with hbs | hbs | ⟨_, hbs⟩
        · rw [hbs] at hbody
          exact vb_ne_empty hbody.symm
        · rw [hbs] at hbody
          exact hi (vb_inj hbody).1
        · rw [hbs] at hbody
          exact vb_ne_rv hbody.symm
      rw [beq_eq_false_iff_ne.mpr hsrc_ne]
      simp only [Bool.false_eq_true, if_false, Nat.add_zero]

/-- A split video input is never consumed raw. -/
theorem trace_count_rawV_pos {refs : List Nat} {idx : Nat} (hN : 1 < refs.count idx) :
    ∀ (r : List Nat) (ctr : Nat → Nat),
      (consumeTrace (splitMap "vsplit" refs) (vSource (splitMap "vsplit" refs)) r ctr).count
        (rawV idx) = 0 := by
  intro r
  induction r with
  | nil => intro ctr; rfl
  | cons i r ih =>
    intro ctr
    rw [consumeTrace_cons, List.count_cons, ih]
    have hne : vSource (splitMap "vsplit" refs) ctr i ≠ rawV idx := by
      obtain ⟨bs, hbr, hnb, hcases⟩ := vSource_shape refs ctr i
      rw [hbr, rawV_bracket]
      intro hcon
      have hbody := (bracket_eq_iff hnb (rbracket_not_mem_rv idx)).mp hcon
      rcases hcases with hbs | hbs | ⟨hlk, hbs⟩
      · rw [hbs] at hbody
        exact rv_ne_empty hbody.symm
      · rw [hbs] at hbody
        exact vb_ne_rv hbody
      · rw [hbs] at hbody
        have hii := rv_inj hbody
        rw [hii] at hlk
        rw [lookupN_splitMap_pos hN] at hlk
        cases hlk
    rw [beq_eq_false_iff_ne.mpr hne, if_neg (by simp)]

/-- An unsplit video input is consumed raw once per reference. -/
theorem trace_count_rawV_none {refs : List Nat} {idx : Nat}
    (hn : lookupN (splitMap "vsplit" refs) idx = none) :
    ∀ (r : List Nat) (ctr : Nat → Nat),
      (consumeTrace (splitMap "vsplit" refs) (vSource (splitMap "vsplit" refs)) r ctr).count
        (rawV idx) = r.count idx := by
  intro r
  induction r with
  | nil => intro ctr; rfl
  | cons i r ih =>
    intro ctr
    rw [consumeTrace_cons, List.count_cons, List.count_cons, ih]
    congr 1
    by_cases hi : i = idx
    · subst hi
      have hsrc : vSource (splitMap "vsplit" refs) ctr i = rawV i := by
        rw [vSource, hn]
        rfl
      rw [hsrc]
      simp
    · have hne : vSource (splitMap "vsplit" refs) ctr i ≠ rawV idx := by
        obtain ⟨bs, hbr, hnb, hcases⟩ := vSource_shape refs ctr i
        rw [hbr, rawV_bracket]
        intro hcon
        have hbody := (bracket_eq_iff hnb (rbracket_not_mem_rv idx)).mp hcon
        rcases hcases with hbs | hbs | ⟨_, hbs⟩
        · rw [hbs] at hbody
          exact rv_ne_empty hbody.symm
        · rw [hbs] at hbody
          exact vb_ne_rv hbody
        · rw [hbs] at hbody
          exact hi (rv_inj hbody)
      rw [beq_eq_false_iff_ne.mpr hne,
        beq_eq_false_iff_ne.mpr (fun h : i = idx => hi h)]

/-- Each audio split output with index below the reference count is consumed
exactly once by the remaining references. -/
theorem trace_count_aOut {refs : List Nat} {idx : Nat} (hN : 1 < refs.count idx) {j : Nat}
    (hj : j < refs.count idx) :
    ∀ (r : List Nat) (ctr : Nat → Nat), r.count idx + ctr idx = refs.count idx →
      (consumeTrace (splitMap "asplit" refs) (aSource (splitMap "asplit" refs)) r ctr).count
          (aOut idx j)
        = if ctr idx ≤ j then 1 else 0 := by
  intro r
  induction r with
  | nil =>
    intro ctr hinv
    have hc : ctr idx = refs.count idx := by simpa using hinv
    rw [show consumeTrace (splitMap "asplit" refs) (aSource (splitMap "asplit" refs)) [] ctr
      = [] from rfl]
    rw [List.count_nil, if_neg (by omega)]
  | cons i r ih =>
    intro ctr hinv
    rw [consumeTrace_cons, List.count_cons]
    by_cases hi : i = idx
    · subst hi
      have hcnt : r.count i + 1 + ctr i = refs.count i := by
        rw [List.count_cons] at hinv
        simpa using hinv
      have hct_lt : ctr i < refs.count i := by omega
      have hsrc : aSource (splitMap "asplit" refs) ctr i = aOut i (ctr i) := by
        rw [aSource, lookupN_splitMap_pos hN]
        show "[" ++ (splitOutputs "asplit" i (refs.count i)).getD (ctr i) "" ++ "]" = _
        rw [splitOutputs_getD hct_lt]
        rfl
      have htr : (if (lookupN (splitMap "asplit" refs) i).isSome = true then bump ctr i
          else ctr) = bump ctr i := by
        rw [lookupN_splitMap_pos hN]
        rfl
      rw [hsrc, htr]
      have hbump : bump ctr i i = ctr i + 1 := bump_self ctr i
      have hih := ih (bump ctr i) (by rw [hbump]; omega)
      rw [hbump] at hih
      rw [hih]
      by_cases hcj : ctr i = j
      · have hbeq : (aOut i (ctr i) == aOut i j) = true := by
          rw [hcj]
          exact beq_self_eq_true _
        rw [hbeq, if_pos rfl, if_neg (by omega), if_pos (by omega)]
      · have hbeq : (aOut i (ctr i) == aOut i j) = false :=
          beq_eq_false_iff_ne.mpr (fun hcon => hcj (aOut_inj hcon).2)
        rw [hbeq]
        simp only [Bool.false_eq_true, if_false, Nat.add_zero]
        by_cases hle : ctr i + 1 ≤ j
        · rw [if_pos hle, if_pos (by omega)]
        · rw [if_neg hle, if_neg (by omega)]
    · have hctr' : (if (lookupN (splitMap "asplit" refs) i).isSome = true then bump ctr i
          else ctr) idx = ctr idx := by
        by_cases hlk : (lookupN (splitMap "asplit" refs) i).isSome = true
        · rw [if_pos hlk]
          exact bump_other ctr (fun h => hi h.symm)
        · rw [if_neg hlk]
      have hinv' : r.count idx + ctr idx = refs.count idx := by
        rw [List.count_cons, beq_eq_false_iff_ne.mpr hi] at hinv
        simpa using hinv
      have hih := ih (if (lookupN (splitMap "asplit" refs) i).isSome = true then bump ctr i
        else ctr) (by rw [hctr']; exact hinv')
      rw [hctr'] at hih
      rw [hih]
      have hsrc_ne : aSource (splitMap "asplit" refs) ctr i ≠ aOut idx j := by
        obtain ⟨bs, hbr, hnb, hcases⟩ := aSource_shape refs ctr i
        rw [hbr, aOut_bracket]
        intro hcon
        have hbody := (bracket_eq_iff hnb (rbracket_not_mem_ab idx j)).mp hcon
        rcases hcases with hbs | hbs | ⟨_, hbs⟩
        · rw [hbs] at hbody
          exact ab_ne_empty hbody.symm
        · rw [hbs] at hbody
          exact hi (ab_inj hbody).1
        · rw [hbs] at hbody
          exact ab_ne_ra hbody.symm
      rw [beq_eq_false_iff_ne.mpr hsrc_ne]
      simp only [Bool.false_eq_true, if_false, Nat.add_zero]

/-- A split audio input is never consumed raw. -/
theorem trace_count_rawA_pos {refs : List Nat} {idx : Nat} (hN : 1 < refs.count idx) :
    ∀ (r : List Nat) (ctr : Nat → Nat),
      (consumeTrace (splitMap "asplit" refs) (aSource (splitMap "asplit" refs)) r ctr).count
        (rawA idx) = 0 := by
  intro r
  induction r with
  | nil => intro ctr; rfl
  | cons i r ih =>
    intro ctr
    rw [consumeTrace_cons, List.count_cons, ih]
    have hne : aSource (splitMap "asplit" refs) ctr i ≠ rawA idx := by
      obtain ⟨bs, hbr, hnb, hcases⟩ := aSource_shape refs ctr i
      rw [hbr, rawA_bracket]
      intro hcon
      have hbody := (bracket_eq_iff hnb (rbracket_not_mem_ra idx)).mp hcon
      rcases hcases with hbs | hbs | ⟨hlk, hbs⟩
      · rw [hbs] at hbody
        exact ra_ne_empty hbody.symm
      · rw [hbs] at hbody
        exact ab_ne_ra hbody
      · rw [hbs] at hbody
        have hii := ra_inj hbody
        rw [hii] at hlk
        rw [lookupN_splitMap_pos hN] at hlk
        cases hlk
    rw [beq_eq_false_iff_ne.mpr hne, if_neg (by simp)]

/-- An unsplit audio input is consumed raw once per reference. -/
theorem trace_count_rawA_none {refs : List Nat} {idx : Nat}
    (hn : lookupN (splitMap "asplit" refs) idx = none) :
    ∀ (r : List Nat) (ctr : Nat → Nat),
      (consumeTrace (splitMap "asplit" refs) (aSource (splitMap "asplit" refs)) r ctr).count
        (rawA idx) = r.count idx := by
  intro r
  induction r with
  | nil => intro ctr; rfl
  | cons i r ih =>
    intro ctr
    rw [consumeTrace_cons, List.count_cons, List.count_cons, ih]
    congr 1
    by_cases hi : i = idx
    · subst hi
      have hsrc : aSource (splitMap "asplit" refs) ctr i = rawA i := by
        rw [aSource, hn]
        rfl
      rw [hsrc]
      simp
    · have hne : aSource (splitMap "asplit" refs) ctr i ≠ rawA idx := by
        obtain ⟨bs, hbr, hnb, hcases⟩ := aSource_shape refs ctr i
        rw [hbr, rawA_bracket]
        intro hcon
        have hbody := (bracket_eq_iff hnb (rbracket_not_mem_ra idx)).mp hcon
        rcases hcases with hbs | hbs | ⟨_, hbs⟩
        · rw [hbs] at hbody
          exact ra_ne_empty hbody.symm
        · rw [hbs] at hbody
          exact ab_ne_ra hbody
        · rw [hbs] at hbody
          exact hi (ra_inj hbody)
      rw [beq_eq_false_iff_ne.mpr hne,
        beq_eq_false_iff_ne.mpr (fun h : i = idx => hi h)]

/-- Extending a string keeps any data-level leading block. -/
theorem data_extend {x s : String} (h : ∃ u, s.data = x.data ++ u) (f : String) :
    ∃ u, (s ++ f).data = x.data ++ u := by
  obtain ⟨u, hu⟩ := h
  refine ⟨u ++ f.data, ?_⟩
  show s.data ++ f.data = _
  rw [hu, List.append_assoc]

/-- A video chain is its source followed by text that starts with the trim
filter. -/
theorem videoChainStr_shape (bs : String) (c : Clip) (label : String) :
    ∃ u, (videoChainStr ("[" ++ bs ++ "]") c label).data
      = '[' :: (bs.data ++ ']' :: ("trim=start=".data ++ u)) := by
  have hsfx : ∃ u, (videoChainStr ("[" ++ bs ++ "]") c label).data
      = (("[" ++ bs ++ "]") ++ "trim=start=").data ++ u := by
    rw [videoChainStr]
    exact data_extend (data_extend (data_extend (data_extend (data_extend (data_extend
      (data_extend (data_extend (data_extend ⟨[], (List.append_nil _).symm⟩ _) _) _) _) _)
        _) _) _) _
  obtain ⟨u, hu⟩ := hsfx
  refine ⟨u, ?_⟩
  rw [hu, bracket_q_data, List.cons_append, List.append_assoc]
  rfl

/-- An audio chain is its source followed by text that starts with the atrim
filter. -/
theorem audioChainStr_shape (bs : String) (c : Clip) (label : String) :
    ∃ u, (audioChainStr ("[" ++ bs ++ "]") c label).data
      = '[' :: (bs.data ++ ']' :: ("atrim=start=".data ++ u)) := by
  have hsfx : ∃ u, (audioChainStr ("[" ++ bs ++ "]") c label).data
      = (("[" ++ bs ++ "]") ++ "atrim=start=").data ++ u := by
    rw [audioChainStr]
    exact data_extend (data_extend (data_extend (data_extend (data_extend (data_extend
      (data_extend (data_extend ⟨[], (List.append_nil _).symm⟩ _) _) _) _) _) _) _) _
  obtain ⟨u, hu⟩ := hsfx
  refine ⟨u, ?_⟩
  rw [hu, bracket_q_data, List.cons_append, List.append_assoc]
  rfl

/-- The split-filter name never follows a chain's source label on the video
side. -/
theorem pfx_split_vtail (u : List Char) :
    pfxB "split=".data ("trim=start=".data ++ u) = false := rfl

/-- Nor on the audio side. -/
theorem pfx_split_atail (u : List Char) :
    pfxB "split=".data ("atrim=start=".data ++ u) = false := rfl

/-- The asplit-filter name never follows a chain's source label on the video
side. -/
theorem pfx_asplit_vtail (u : List Char) :
    pfxB "asplit=".data ("trim=start=".data ++ u) = false := rfl

/-- Nor on the audio side. -/
theorem pfx_asplit_atail (u : List Char) :
    pfxB "asplit=".data ("atrim=start=".data ++ u) = false := rfl

/-- Prefix-counting chains by a bracketed label counts the consumed
sources. -/
theorem countP_chains_eq {P : String} (hP : ∃ b, P = "[" ++ b ++ "]" ∧ ']' ∉ b.data)
    {srcs chains : List String}
    (h : List.Forall₂ (fun src chain => ∃ bs, src = "[" ++ bs ++ "]" ∧ ']' ∉ bs.data ∧
      ∃ t, chain.data = '[' :: (bs.data ++ ']' :: t) ∧ pfxB "split=".data t = false
        ∧ pfxB "asplit=".data t = false) srcs chains) :
    chains.countP (fun s => strStarts P s) = srcs.count P := by
  induction h with
  | nil => rfl
  | @cons src chain srcs' chains' hrel hrest ih =>
    obtain ⟨bs, hsrc, hnb, t, hchain, _, _⟩ := hrel
    rw [List.countP_cons, List.count_cons, ih]
    congr 1
    rw [strStarts_bracket_chain hP hnb hchain, hsrc]
    by_cases hPb : P = "[" ++ bs ++ "]"
    · rw [hPb]
    · rw [beq_eq_false_iff_ne.mpr hPb, beq_eq_false_iff_ne.mpr (fun h => hPb h.symm)]

/-- No chain starts with a video split node header. -/
theorem countP_chains_zero_split {b : String} (hb : ']' ∉ b.data)
    {srcs chains : List String}
    (h : List.Forall₂ (fun src chain => ∃ bs, src = "[" ++ bs ++ "]" ∧ ']' ∉ bs.data ∧
      ∃ t, chain.data = '[' :: (bs.data ++ ']' :: t) ∧ pfxB "split=".data t = false
        ∧ pfxB "asplit=".data t = false) srcs chains) :
    chains.countP (fun s => strStarts ("[" ++ b ++ "]" ++ "split=") s) = 0 := by
  induction h with
  | nil => rfl
  | @cons src chain srcs' chains' hrel hrest ih =>
    obtain ⟨bs, hsrc, hnb, t, hchain, hq, _⟩ := hrel
    rw [List.countP_cons, ih, strStarts_brq_chain_false hb hnb hchain hq]
    rfl

/-- No chain starts with an audio split node header. -/
theorem countP_chains_zero_asplit {b : String} (hb : ']' ∉ b.data)
    {srcs chains : List String}
    (h : List.Forall₂ (fun src chain => ∃ bs, src = "[" ++ bs ++ "]" ∧ ']' ∉ bs.data ∧
      ∃ t, chain.data = '[' :: (bs.data ++ ']' :: t) ∧ pfxB "split=".data t = false
        ∧ pfxB "asplit=".data t = false) srcs chains) :
    chains.countP (fun s => strStarts ("[" ++ b ++ "]" ++ "asplit=") s) = 0 := by
  induction h with
  | nil => rfl
  | @cons src chain srcs' chains' hrel hrest ih =>
    obtain ⟨bs, hsrc, hnb, t, hchain, _, hq⟩ := hrel
    rw [List.countP_cons, ih, strStarts_brq_chain_false hb hnb hchain hq]
    rfl

/-- Filtering clip references through an enumeration drops the indices. -/
theorem filterMap_enumFrom {α β : Type} (f : α → Option β) :
    ∀ (l : List α) (n : Nat),
      (List.enumFrom n l).filterMap (fun p => f p.2) = l.filterMap f := by
  intro l
  induction l with
  | nil => intro n; rfl
  | cons a l ih =>
    intro n
    rw [show List.enumFrom n (a :: l) = (n, a) :: List.enumFrom (n + 1) l from rfl]
    rw [List.filterMap_cons, List.filterMap_cons]
    cases f a with
    | none => exact ih (n + 1)
    | some b => rw [ih (n + 1)]

/-- Filtering clip references through `List.enum` drops the indices. -/
theorem filterMap_enum {α β : Type} (f : α → Option β) (l : List α) :
    l.enum.filterMap (fun p => f p.2) = l.filterMap f :=
  filterMap_enumFrom f l 0

/-- A successful video-chain pass consumes sources along the consumption
trace of its clip references, updates the counters accordingly, and labels
every chain with a `v`-label. -/
theorem processVClips_corr {im : List (String × Nat)} {refs : List Nat} {tIdx : Nat} :
    ∀ {cs : List (Nat × Clip)} {vctr vctr' : Nat → Nat} {fs ls : List String},
      processVClips im (splitMap "vsplit" refs) tIdx cs vctr = Except.ok (vctr', fs, ls) →
      vctr' = ctrAfter (splitMap "vsplit" refs)
          (cs.filterMap (fun p => lookupA im p.2.media_file_id)) vctr
      ∧ List.Forall₂ (fun src chain => ∃ bs, src = "[" ++ bs ++ "]" ∧ ']' ∉ bs.data ∧
          ∃ t, chain.data = '[' :: (bs.data ++ ']' :: t) ∧ pfxB "split=".data t = false
            ∧ pfxB "asplit=".data t = false)
        (consumeTrace (splitMap "vsplit" refs) (vSource (splitMap "vsplit" refs))
          (cs.filterMap (fun p => lookupA im p.2.media_file_id)) vctr) fs
      ∧ ∀ l ∈ ls, ∃ rest, l.data = 'v' :: rest := by
  intro cs
  induction cs with
  | nil =>
    intro vctr vctr' fs ls h
    rw [show processVClips im (splitMap "vsplit" refs) tIdx [] vctr
      = Except.ok (vctr, [], []) from rfl] at h
    obtain ⟨h1, h2, h3⟩ : vctr = vctr' ∧ [] = fs ∧ [] = ls := by simpa using h
    subst h1
    subst h2
    subst h3
    exact ⟨rfl, List.Forall₂.nil, by simp⟩
  | cons p cs ih =>
    intro vctr vctr' fs ls h
    obtain ⟨cIdx, c⟩ := p
    rw [processVClips] at h
    cases hlk : lookupA im c.media_file_id with
    | none => simp [hlk] at h
    | some idx =>
      cases hrec : processVClips im (splitMap "vsplit" refs) tIdx cs
          (if (lookupN (splitMap "vsplit" refs) idx).isSome then bump vctr idx else vctr) with
      | error e => simp [hlk, hrec] at h
      | ok res =>
        obtain ⟨vc, fsr, lsr⟩ := res
        simp only [hlk, hrec, Except.ok.injEq, Prod.mk.injEq] at h
        obtain ⟨h1, h2, h3⟩ := h
        subst h1
        subst h2
        subst h3
        have hfm : ((cIdx, c) :: cs).filterMap (fun p => lookupA im p.2.media_file_id)
            = idx :: cs.filterMap (fun p => lookupA im p.2.media_file_id) := by
          simp [List.filterMap_cons, hlk]
        obtain ⟨ih1, ih2, ih3⟩ := ih hrec
        refine ⟨?_, ?_, ?_⟩
        · rw [hfm]
          exact ih1
        · rw [hfm, consumeTrace_cons]
          refine List.Forall₂.cons ?_ ih2
          obtain ⟨bs, hbr, hnb, _⟩ := vSource_shape refs vctr idx
          refine ⟨bs, hbr, hnb, ?_⟩
          obtain ⟨u, hu⟩ := videoChainStr_shape bs c ("v" ++ natStr tIdx ++ "_" ++ natStr cIdx)
          refine ⟨"trim=start=".data ++ u, ?_, pfx_split_vtail u, pfx_asplit_vtail u⟩
          rw [hbr]
          exact hu
        · intro l hl
          rcases List.mem_cons.mp hl with h | h
          · subst h
            exact ⟨_, rfl⟩
          · exact ih3 l h

/-- A successful audio-chain pass consumes sources along the consumption
trace of its clip references, updates the counters accordingly, and labels
every chain with an `a`-label. -/
theorem processAClips_corr {im : List (String × Nat)} {refs : List Nat} {tIdx : Nat} :
    ∀ {cs : List (Nat × Clip)} {actr actr' : Nat → Nat} {fs ls : List String},
      processAClips im (splitMap "asplit" refs) tIdx cs actr = Except.ok (actr', fs, ls) →
      actr' = ctrAfter (splitMap "asplit" refs)
          (cs.filterMap (fun p => lookupA im p.2.media_file_id)) actr
      ∧ List.Forall₂ (fun src chain => ∃ bs, src = "[" ++ bs ++ "]" ∧ ']' ∉ bs.data ∧
          ∃ t, chain.data = '[' :: (bs.data ++ ']' :: t) ∧ pfxB "split=".data t = false
            ∧ pfxB "asplit=".data t = false)
        (consumeTrace (splitMap "asplit" refs) (aSource (splitMap "asplit" refs))
          (cs.filterMap (fun p => lookupA im p.2.media_file_id)) actr) fs
      ∧ ∀ l ∈ ls, ∃ rest, l.data = 'a' :: rest := by
  intro cs
  induction cs with
  | nil =>
    intro actr actr' fs ls h
    rw [show processAClips im (splitMap "asplit" refs) tIdx [] actr
      = Except.ok (actr, [], []) from rfl] at h
    obtain ⟨h1, h2, h3⟩ : actr = actr' ∧ [] = fs ∧ [] = ls := by simpa using h
    subst h1
    subst h2
    subst h3
    exact ⟨rfl, List.Forall₂.nil, by simp⟩
  | cons p cs ih =>
    intro actr actr' fs ls h
    obtain ⟨cIdx, c⟩ := p
    rw [processAClips] at h
    cases hlk : lookupA im c.media_file_id with
    | none => simp [hlk] at h
    | some idx =>
      cases hrec : processAClips im (splitMap "asplit" refs) tIdx cs
          (if (lookupN (splitMap "asplit" refs) idx).isSome then bump actr idx else actr) with
      | error e => simp [hlk, hrec] at h
      | ok res =>
        obtain ⟨ac, fsr, lsr⟩ := res
        simp only [hlk, hrec, Except.ok.injEq, Prod.mk.injEq] at h
        obtain ⟨h1, h2, h3⟩ := h
        subst h1
        subst h2
        subst h3
        have hfm : ((cIdx, c) :: cs).filterMap (fun p => lookupA im p.2.media_file_id)
            = idx :: cs.filterMap (fun p => lookupA im p.2.media_file_id) := by
          simp [List.filterMap_cons, hlk]
        obtain ⟨ih1, ih2, ih3⟩ := ih hrec
        refine ⟨?_, ?_, ?_⟩
        · rw [hfm]
          exact ih1
        · rw [hfm, consumeTrace_cons]
          refine List.Forall₂.cons ?_ ih2
          obtain ⟨bs, hbr, hnb, _⟩ := aSource_shape refs actr idx
          refine ⟨bs, hbr, hnb, ?_⟩
          obtain ⟨u, hu⟩ := audioChainStr_shape bs c ("a" ++ natStr tIdx ++ "_" ++ natStr cIdx)
          refine ⟨"atrim=start=".data ++ u, ?_, pfx_split_atail u, pfx_asplit_atail u⟩
          rw [hbr]
          exact hu
        · intro l hl
          rcases List.mem_cons.mp hl with h | h
          · subst h
            exact ⟨_, rfl⟩
          · exact ih3 l h

/-- Video split outputs are never consumed on the audio side. -/
theorem trace_vOut_in_atrace {arefs : List Nat} (idx j : Nat) :
    ∀ (r : List Nat) (ctr : Nat → Nat),
      (consumeTrace (splitMap "asplit" arefs) (aSource (splitMap "asplit" arefs)) r ctr).count
        (vOut idx j) = 0 := by
  intro r
  induction r with
  | nil => intro ctr; rfl
  | cons i r ih =>
    intro ctr
    rw [consumeTrace_cons, List.count_cons, ih]
    have hne : aSource (splitMap "asplit" arefs) ctr i ≠ vOut idx j := by
      obtain ⟨bs, hbr, hnb, hcases⟩ := aSource_shape arefs ctr i
      rw [hbr, vOut_bracket]
      intro hcon
      have hbody := (bracket_eq_iff hnb (rbracket_not_mem_vb idx j)).mp hcon
      rcases hcases with hbs | hbs | ⟨_, hbs⟩
      · rw [hbs] at hbody
        exact vb_ne_empty hbody.symm
      · rw [hbs] at hbody
        exact vb_ne_ab hbody.symm
      · rw [hbs] at hbody
        exact vb_ne_ra hbody.symm
    rw [beq_eq_false_iff_ne.mpr hne, if_neg (by simp)]

/-- The raw video stream is never consumed on the audio side. -/
theorem trace_rawV_in_atrace {arefs : List Nat} (idx : Nat) :
    ∀ (r : List Nat) (ctr : Nat → Nat),
      (consumeTrace (splitMap "asplit" arefs) (aSource (splitMap "asplit" arefs)) r ctr).count
        (rawV idx) = 0 := by
  intro r
  induction r with
  | nil => intro ctr; rfl
  | cons i r ih =>
    intro ctr
    rw [consumeTrace_cons, List.count_cons, ih]
    have hne : aSource (splitMap "asplit" arefs) ctr i ≠ rawV idx := by
      obtain ⟨bs, hbr, hnb, hcases⟩ := aSource_shape arefs ctr i
      rw [hbr, rawV_bracket]
      intro hcon
      have hbody := (bracket_eq_iff hnb (rbracket_not_mem_rv idx)).mp hcon
      rcases hcases with hbs | hbs | ⟨_, hbs⟩
      · rw [hbs] at hbody
        exact rv_ne_empty hbody.symm
      · rw [hbs] at hbody
        exact ab_ne_rv hbody
      · rw [hbs] at hbody
        exact rv_ne_ra hbody.symm
    rw [beq_eq_false_iff_ne.mpr hne, if_neg (by simp)]

/-- Audio split outputs are never consumed on the video side. -/
theorem trace_aOut_in_vtrace {vrefs : List Nat} (idx j : Nat) :
    ∀ (r : List Nat) (ctr : Nat → Nat),
      (consumeTrace (splitMap "vsplit" vrefs) (vSource (splitMap "vsplit" vrefs)) r ctr).count
        (aOut idx j) = 0 := by
  intro r
  induction r with
  | nil => intro ctr; rfl
  | cons i r ih =>
    intro ctr
    rw [consumeTrace_cons, List.count_cons, ih]
    have hne : vSource (splitMap "vsplit" vrefs) ctr i ≠ aOut idx j := by
      obtain ⟨bs, hbr, hnb, hcases⟩ := vSource_shape vrefs ctr i
      rw [hbr, aOut_bracket]
      intro hcon
      have hbody := (bracket_eq_iff hnb (rbracket_not_mem_ab idx j)).mp hcon
      rcases hcases with hbs | hbs | ⟨_, hbs⟩
      · rw [hbs] at hbody
        exact ab_ne_empty hbody.symm
      · rw [hbs] at hbody
        exact vb_ne_ab hbody
      · rw [hbs] at hbody
        exact ab_ne_rv hbody.symm
    rw [beq_eq_false_iff_ne.mpr hne, if_neg (by simp)]

/-- The raw audio stream is never consumed on the video side. -/
theorem trace_rawA_in_vtrace {vrefs : List Nat} (idx : Nat) :
    ∀ (r : List Nat) (ctr : Nat → Nat),
      (consumeTrace (splitMap "vsplit" vrefs) (vSource (splitMap "vsplit" vrefs)) r ctr).count
        (rawA idx) = 0 := by
  intro r
  induction r with
  | nil => intro ctr; rfl
  | cons i r ih =>
    intro ctr
    rw [consumeTrace_cons, List.count_cons, ih]
    have hne : vSource (splitMap "vsplit" vrefs) ctr i ≠ rawA idx := by
      obtain ⟨bs, hbr, hnb, hcases⟩ := vSource_shape vrefs ctr i
      rw [hbr, rawA_bracket]
      intro hcon
      have hbody := (bracket_eq_iff hnb (rbracket_not_mem_ra idx)).mp hcon
      rcases hcases with hbs | hbs | ⟨_, hbs⟩
      · rw [hbs] at hbody
        exact ra_ne_empty hbody.symm
      · rw [hbs] at hbody
        exact vb_ne_ra hbody
      · rw [hbs] at hbody
        exact rv_ne_ra hbody
    rw [beq_eq_false_iff_ne.mpr hne, if_neg (by simp)]

/-- A track that is not on the video side of the filter graph is an audio
track. -/
theorem isAudio_of_not_video {t : Track} (h : ¬isVideoTrack t = true) :
    isAudioTrack t = true := by
  cases ht : t.track_type with
  | Video => exact absurd (by simp [isVideoTrack, ht]) h
  | Overlay => exact absurd (by simp [isVideoTrack, ht]) h
  | Audio => simp [isAudioTrack, ht]

/-- A video-side track is not an audio track. -/
theorem not_audio_of_video {t : Track} (h : isVideoTrack t = true) :
    isAudioTrack t = false := by
  cases ht : t.track_type with
  | Video => simp [isAudioTrack, ht]
  | Overlay => simp [isAudioTrack, ht]
  | Audio => simp [isVideoTrack, ht] at h

/-- The chain pass over a track list: filter nodes count bracketed prefixes
along the two global consumption traces, reject split headers, and carry
`v`/`a` labels. -/
theorem processTracks_corr {im : List (String × Nat)} {vrefsF arefsF : List Nat} :
    ∀ {ts : List (Nat × Track)} {vctr actr vctr' actr' : Nat → Nat} {fs vls als : List String},
      processTracks im (splitMap "vsplit" vrefsF) (splitMap "asplit" arefsF) ts vctr actr
        = Except.ok (vctr', actr', fs, vls, als) →
      (∀ P : String, (∃ b, P = "[" ++ b ++ "]" ∧ ']' ∉ b.data) →
        fs.countP (fun s => strStarts P s)
          = (consumeTrace (splitMap "vsplit" vrefsF) (vSource (splitMap "vsplit" vrefsF))
              (((ts.map Prod.snd).filter (fun t => !t.muted && isVideoTrack t)).flatMap
                (fun t => t.clips.filterMap (fun c => lookupA im c.media_file_id))) vctr).count P
            + (consumeTrace (splitMap "asplit" arefsF) (aSource (splitMap "asplit" arefsF))
              (((ts.map Prod.snd).filter (fun t => !t.muted && isAudioTrack t)).flatMap
                (fun t => t.clips.filterMap (fun c => lookupA im c.media_file_id))) actr).count P)
      ∧ (∀ b : String, ']' ∉ b.data →
          fs.countP (fun s => strStarts ("[" ++ b ++ "]" ++ "split=") s) = 0)
      ∧ (∀ b : String, ']' ∉ b.data →
          fs.countP (fun s => strStarts ("[" ++ b ++ "]" ++ "asplit=") s) = 0)
      ∧ (∀ l ∈ vls, ∃ rest, l.data = 'v' :: rest)
      ∧ (∀ l ∈ als, ∃ rest, l.data = 'a' :: rest) := by
  intro ts
  induction ts with
  | nil =>
    intro vctr actr vctr' actr' fs vls als h
    rw [show processTracks im (splitMap "vsplit" vrefsF) (splitMap "asplit" arefsF) [] vctr actr
      = Except.ok (vctr, actr, [], [], []) from rfl] at h
    obtain ⟨h1, h2, h3, h4, h5⟩ : vctr = vctr' ∧ actr = actr' ∧ [] = fs ∧ [] = vls ∧ [] = als := by
      simpa using h
    subst h1
    subst h2
    subst h3
    subst h4
    subst h5
    refine ⟨fun P hP => rfl, fun b hb => rfl, fun b hb => rfl, by simp, by simp⟩
  | cons p ts ih =>
    intro vctr actr vctr' actr' fs vls als h
    obtain ⟨tIdx, t⟩ := p
    rw [processTracks] at h
    by_cases hm : t.muted
    · rw [if_pos hm] at h
      obtain ⟨A, B, C, D, E⟩ := ih h
      have hfv : (t :: ts.map Prod.snd).filter (fun u => !u.muted && isVideoTrack u)
          = (ts.map Prod.snd).filter (fun u => !u.muted && isVideoTrack u) :=
        List.filter_cons_of_neg (by simp [hm])
      have hfa : (t :: ts.map Prod.snd).filter (fun u => !u.muted && isAudioTrack u)
          = (ts.map Prod.snd).filter (fun u => !u.muted && isAudioTrack u) :=
        List.filter_cons_of_neg (by simp [hm])
      refine ⟨?_, B, C, D, E⟩
      intro P hP
      simp only [List.map_cons]
      rw [hfv, hfa]
      exact A P hP
    · rw [if_neg hm] at h
      by_cases hv : isVideoTrack t = true
      · rw [if_pos hv] at h
        cases hpv : processVClips im (splitMap "vsplit" vrefsF) tIdx t.clips.enum vctr with
        | error e => simp [hpv] at h
        | ok res =>
          obtain ⟨vctr₂, fsv, lsv⟩ := res
          cases hpt : processTracks im (splitMap "vsplit" vrefsF) (splitMap "asplit" arefsF)
              ts vctr₂ actr with
          | error e => simp [hpv, hpt] at h
          | ok res₂ =>
            obtain ⟨vc, ac, fs', vls', als'⟩ := res₂
            simp only [hpv, hpt, Except.ok.injEq, Prod.mk.injEq] at h
            obtain ⟨h1, h2, h3, h4, h5⟩ := h
            subst h1
            subst h2
            subst h3
            subst h4
            subst h5
            obtain ⟨hc1, hc2, hc3⟩ := processVClips_corr hpv
            have hre : t.clips.enum.filterMap (fun p => lookupA im p.2.media_file_id)
                = t.clips.filterMap (fun c => lookupA im c.media_file_id) :=
              filterMap_enum (fun c => lookupA im c.media_file_id) t.clips
            rw [hre] at hc1 hc2
            obtain ⟨A, B, C, D, E⟩ := ih hpt
            have hfv : (t :: ts.map Prod.snd).filter (fun u => !u.muted && isVideoTrack u)
                = t :: (ts.map Prod.snd).filter (fun u => !u.muted && isVideoTrack u) :=
              List.filter_cons_of_pos (by simp [hm, hv])
            have hfa : (t :: ts.map Prod.snd).filter (fun u => !u.muted && isAudioTrack u)
                = (ts.map Prod.snd).filter (fun u => !u.muted && isAudioTrack u) :=
              List.filter_cons_of_neg (by simp [not_audio_of_video hv])
            refine ⟨?_, ?_, ?_, ?_, ?_⟩
            · intro P hP
              rw [List.countP_append, countP_chains_eq hP hc2, A P hP]
              simp only [List.map_cons]
              rw [hfv, hfa, List.flatMap_cons, consumeTrace_append, List.count_append, ← hc1]
              omega
            · intro b hb
              rw [List.countP_append, countP_chains_zero_split hb hc2, B b hb]
            · intro b hb
              rw [List.countP_append, countP_chains_zero_asplit hb hc2, C b hb]
            · intro l hl
              rcases List.mem_append.mp hl with h | h
              · exact hc3 l h
              · exact D l h
            · exact E
      · rw [if_neg hv] at h
        cases hpa : processAClips im (splitMap "asplit" arefsF) tIdx t.clips.enum actr with
        | error e => simp [hpa] at h
        | ok res =>
          obtain ⟨actr₂, fsa, lsa⟩ := res
          cases hpt : processTracks im (splitMap "vsplit" vrefsF) (splitMap "asplit" arefsF)
              ts vctr actr₂ with
          | error e => simp [hpa, hpt] at h
          | ok res₂ =>
            obtain ⟨vc, ac, fs', vls', als'⟩ := res₂
            simp only [hpa, hpt, Except.ok.injEq, Prod.mk.injEq] at h
            obtain ⟨h1, h2, h3, h4, h5⟩ := h
            subst h1
            subst h2
            subst h3
            subst h4
            subst h5
            obtain ⟨hc1, hc2, hc3⟩ := processAClips_corr hpa
            have hre : t.clips.enum.filterMap (fun p => lookupA im p.2.media_file_id)
                = t.clips.filterMap (fun c => lookupA im c.media_file_id) :=
              filterMap_enum (fun c => lookupA im c.media_file_id) t.clips
            rw [hre] at hc1 hc2
            obtain ⟨A, B, C, D, E⟩ := ih hpt
            have hfv : (t :: ts.map Prod.snd).filter (fun u => !u.muted && isVideoTrack u)
                = (ts.map Prod.snd).filter (fun u => !u.muted && isVideoTrack u) :=
              List.filter_cons_of_neg (by simp [hv])
            have hfa : (t :: ts.map Prod.snd).filter (fun u => !u.muted && isAudioTrack u)
                = t :: (ts.map Prod.snd).filter (fun u => !u.muted && isAudioTrack u) :=
              List.filter_cons_of_pos (by simp [hm, isAudio_of_not_video hv])
            refine ⟨?_, ?_, ?_, ?_, ?_⟩
            · intro P hP
              rw [List.countP_append, countP_chains_eq hP hc2, A P hP]
              simp only [List.map_cons]
              rw [hfv, hfa, List.flatMap_cons, consumeTrace_append, List.count_append, ← hc1]
              omega
            · intro b hb
              rw [List.countP_append, countP_chains_zero_split hb hc2, B b hb]
            · intro b hb
              rw [List.countP_append, countP_chains_zero_asplit hb hc2, C b hb]
            · exact D
            · intro l hl
              rcases List.mem_append.mp hl with h | h
              · exact hc3 l h
              · exact E l h

/-- Character data of the video split-node header pattern. -/
theorem pv_data (idx : Nat) : ("[" ++ (natStr idx ++ ":v") ++ "]" ++ "split=").data
    = '[' :: ((natStr idx).data
        ++ ':' :: 'v' :: ']' :: 's' :: 'p' :: 'l' :: 'i' :: 't' :: '=' :: []) := by
  rw [bracket_q_data]
  show '[' :: (((natStr idx).data ++ (':' :: 'v' :: [])) ++ ']' :: "split=".data) = _
  rw [List.append_assoc]
  rfl

/-- Character data of the audio split-node header pattern. -/
theorem pa_data (idx : Nat) : ("[" ++ (natStr idx ++ ":a") ++ "]" ++ "asplit=").data
    = '[' :: ((natStr idx).data
        ++ ':' :: 'a' :: ']' :: 'a' :: 's' :: 'p' :: 'l' :: 'i' :: 't' :: '=' :: []) := by
  rw [bracket_q_data]
  show '[' :: (((natStr idx).data ++ (':' :: 'a' :: [])) ++ ']' :: "asplit=".data) = _
  rw [List.append_assoc]
  rfl

/-- Character data of an emitted video split node. -/
theorem vsplit_node_data (refs : List Nat) (i : Nat) :
    ∃ U, (splitFilterStr ":v" "split" "vsplit" refs i).data
      = '[' :: ((natStr i).data
          ++ ':' :: 'v' :: ']' :: 's' :: 'p' :: 'l' :: 'i' :: 't' :: '=' :: U) := by
  have hsfx : ∃ u, (splitFilterStr ":v" "split" "vsplit" refs i).data
      = ("[" ++ natStr i ++ ":v" ++ "]" ++ "split" ++ "=").data ++ u := by
    rw [splitFilterStr]
    exact data_extend (data_extend ⟨[], (List.append_nil _).symm⟩ _) _
  obtain ⟨u, hu⟩ := hsfx
  refine ⟨u, ?_⟩
  rw [hu]
  show ('[' :: (((((natStr i).data ++ (':' :: 'v' :: [])) ++ (']' :: []))
      ++ ('s' :: 'p' :: 'l' :: 'i' :: 't' :: [])) ++ ('=' :: []))) ++ u = _
  simp only [List.cons_append, List.append_assoc, List.nil_append]

/-- Character data of an emitted audio split node. -/
theorem asplit_node_data (refs : List Nat) (i : Nat) :
    ∃ U, (splitFilterStr ":a" "asplit" "asplit" refs i).data
      = '[' :: ((natStr i).data
          ++ ':' :: 'a' :: ']' :: 'a' :: 's' :: 'p' :: 'l' :: 'i' :: 't' :: '=' :: U) := by
  have hsfx : ∃ u, (splitFilterStr ":a" "asplit" "asplit" refs i).data
      = ("[" ++ natStr i ++ ":a" ++ "]" ++ "asplit" ++ "=").data ++ u := by
    rw [splitFilterStr]
    exact data_extend (data_extend ⟨[], (List.append_nil _).symm⟩ _) _
  obtain ⟨u, hu⟩ := hsfx
  refine ⟨u, ?_⟩
  rw [hu]
  show ('[' :: (((((natStr i).data ++ (':' :: 'a' :: [])) ++ (']' :: []))
      ++ ('a' :: 's' :: 'p' :: 'l' :: 'i' :: 't' :: [])) ++ ('=' :: []))) ++ u = _
  simp only [List.cons_append, List.append_assoc, List.nil_append]

/-- The video split-node header matches exactly the split node of its own
input index. -/
theorem strStarts_pv_vnode (idx : Nat) (refs : List Nat) (i : Nat) :
    strStarts ("[" ++ (natStr idx ++ ":v") ++ "]" ++ "split=")
      (splitFilterStr ":v" "split" "vsplit" refs i) = (i == idx) := by
  obtain ⟨U, hU⟩ := vsplit_node_data refs i
  show pfxB _ _ = _
  rw [pv_data, hU]
  by_cases hii : i = idx
  · subst hii
    rw [beq_self_eq_true]
    refine pfxB_cons.mpr ⟨rfl, ?_⟩
    refine (pfxB_sep (colon_not_mem_natStr i) (colon_not_mem_natStr i)).mpr ⟨rfl, ?_⟩
    show pfxB ("v]split=".data ++ []) ("v]split=".data ++ U) = true
    rw [pfxB_append_same]
    rfl
  · rw [beq_eq_false_iff_ne.mpr hii]
    cases hval : pfxB ('[' :: ((natStr idx).data
        ++ ':' :: 'v' :: ']' :: 's' :: 'p' :: 'l' :: 'i' :: 't' :: '=' :: []))
        ('[' :: ((natStr i).data
          ++ ':' :: 'v' :: ']' :: 's' :: 'p' :: 'l' :: 'i' :: 't' :: '=' :: U)) with
    | false => rfl
    | true =>
      obtain ⟨_, h2⟩ := pfxB_cons.mp hval
      obtain ⟨hd, _⟩ :=
        (pfxB_sep (colon_not_mem_natStr idx) (colon_not_mem_natStr i)).mp h2
      exact absurd (natStr_inj (String.ext hd)).symm hii

/-- The audio split-node header matches exactly the asplit node of its own
input index. -/
theorem strStarts_pa_anode (idx : Nat) (refs : List Nat) (i : Nat) :
    strStarts ("[" ++ (natStr idx ++ ":a") ++ "]" ++ "asplit=")
      (splitFilterStr ":a" "asplit" "asplit" refs i) = (i == idx) := by
  obtain ⟨U, hU⟩ := asplit_node_data refs i
  show pfxB _ _ = _
  rw [pa_data, hU]
  by_cases hii : i = idx
  · subst hii
    rw [beq_self_eq_true]
    refine pfxB_cons.mpr ⟨rfl, ?_⟩
    refine (pfxB_sep (colon_not_mem_natStr i) (colon_not_mem_natStr i)).mpr ⟨rfl, ?_⟩
    show pfxB ("a]asplit=".data ++ []) ("a]asplit=".data ++ U) = true
    rw [pfxB_append_same]
    rfl
  · rw [beq_eq_false_iff_ne.mpr hii]
    cases hval : pfxB ('[' :: ((natStr idx).data
        ++ ':' :: 'a' :: ']' :: 'a' :: 's' :: 'p' :: 'l' :: 'i' :: 't' :: '=' :: []))
        ('[' :: ((natStr i).data
          ++ ':' :: 'a' :: ']' :: 'a' :: 's' :: 'p' :: 'l' :: 'i' :: 't' :: '=' :: U)) with
    | false => rfl
    | true =>
      obtain ⟨_, h2⟩ := pfxB_cons.mp hval
      obtain ⟨hd, _⟩ :=
        (pfxB_sep (colon_not_mem_natStr idx) (colon_not_mem_natStr i)).mp h2
      exact absurd (natStr_inj (String.ext hd)).symm hii

/-- The video split-node header never matches an asplit node. -/
theorem strStarts_pv_anode (idx : Nat) (refs : List Nat) (i : Nat) :
    strStarts ("[" ++ (natStr idx ++ ":v") ++ "]" ++ "split=")
      (splitFilterStr ":a" "asplit" "asplit" refs i) = false := by
  obtain ⟨U, hU⟩ := asplit_node_data refs i
  show pfxB _ _ = _
  rw [pv_data, hU]
  cases hval : pfxB ('[' :: ((natStr idx).data
      ++ ':' :: 'v' :: ']' :: 's' :: 'p' :: 'l' :: 'i' :: 't' :: '=' :: []))
      ('[' :: ((natStr i).data
        ++ ':' :: 'a' :: ']' :: 'a' :: 's' :: 'p' :: 'l' :: 'i' :: 't' :: '=' :: U)) with
  | false => rfl
  | true =>
    obtain ⟨_, h2⟩ := pfxB_cons.mp hval
    obtain ⟨_, h3⟩ :=
      (pfxB_sep (colon_not_mem_natStr idx) (colon_not_mem_natStr i)).mp h2
    cases (pfxB_cons.mp h3).1

/-- The audio split-node header never matches a video split node. -/
theorem strStarts_pa_vnode (idx : Nat) (refs : List Nat) (i : Nat) :
    strStarts ("[" ++ (natStr idx ++ ":a") ++ "]" ++ "asplit=")
      (splitFilterStr ":v" "split" "vsplit" refs i) = false := by
  obtain ⟨U, hU⟩ := vsplit_node_data refs i
  show pfxB _ _ = _
  rw [pa_data, hU]
  cases hval : pfxB ('[' :: ((natStr idx).data
      ++ ':' :: 'a' :: ']' :: 'a' :: 's' :: 'p' :: 'l' :: 'i' :: 't' :: '=' :: []))
      ('[' :: ((natStr i).data
        ++ ':' :: 'v' :: ']' :: 's' :: 'p' :: 'l' :: 'i' :: 't' :: '=' :: U)) with
  | false => rfl
  | true =>
    obtain ⟨_, h2⟩ := pfxB_cons.mp hval
    obtain ⟨_, h3⟩ :=
      (pfxB_sep (colon_not_mem_natStr idx) (colon_not_mem_natStr i)).mp h2
    cases (pfxB_cons.mp h3).1

/-- A bracketed header with a digit-headed body never matches a node that
starts with a bracketed alphabetic label. -/
theorem strStarts_brq_alpha_false {b q : String} {c0 : Char} {w : List Char} {s : String}
    (hd : ∃ cc cs, b.data = cc :: cs ∧ cc.isDigit = true) (hc0 : c0.isDigit = false)
    (hs : s.data = '[' :: c0 :: w) :
    strStarts ("[" ++ b ++ "]" ++ q) s = false := by
  show pfxB _ _ = false
  rw [bracket_q_data, hs]
  obtain ⟨cc, cs, hb, hdig⟩ := hd
  rw [hb]
  cases hval : pfxB ('[' :: ((cc :: cs) ++ ']' :: q.data)) ('[' :: c0 :: w) with
  | false => rfl
  | true =>
    obtain ⟨_, h2⟩ := pfxB_cons.mp hval
    have hcc := (pfxB_cons.mp h2).1
    rw [hcc] at hdig
    rw [hdig] at hc0
    cases hc0

/-- A predicate false everywhere counts zero. -/
theorem countP_zero_of_all {p : String → Bool} {l : List String}
    (h : ∀ s ∈ l, p s = false) : l.countP p = 0 :=
  List.countP_eq_zero.mpr (fun a ha => by rw [h a ha]; simp)

/-- Folding string concatenation only extends the accumulator. -/
theorem foldl_append_data : ∀ (l : List String) (a : String),
    ∃ u, (l.foldl (fun acc s => acc ++ s) a).data = a.data ++ u := by
  intro l
  induction l with
  | nil => intro a; exact ⟨[], (List.append_nil _).symm⟩
  | cons s l ih =>
    intro a
    obtain ⟨u, hu⟩ := ih (a ++ s)
    refine ⟨s.data ++ u, ?_⟩
    rw [show (s :: l).foldl (fun acc s => acc ++ s) a = l.foldl (fun acc s => acc ++ s) (a ++ s)
      from rfl, hu]
    show (a.data ++ s.data) ++ u = _
    rw [List.append_assoc]

/-- A join of bracketed labels starts with the first label's bracket and head
character. -/
theorem join_head {l0 : String} {ls : List String} {c0 : Char} {r0 : List Char}
    (h0 : l0.data = c0 :: r0) :
    ∃ w, (String.join ((l0 :: ls).map (fun l => "[" ++ l ++ "]"))).data = '[' :: c0 :: w := by
  obtain ⟨u, hu⟩ := foldl_append_data (ls.map (fun l => "[" ++ l ++ "]")) ("" ++ ("[" ++ l0 ++ "]"))
  refine ⟨(r0 ++ [']']) ++ u, ?_⟩
  rw [show String.join ((l0 :: ls).map (fun l => "[" ++ l ++ "]"))
    = (ls.map (fun l => "[" ++ l ++ "]")).foldl (fun acc s => acc ++ s)
        ("" ++ ("[" ++ l0 ++ "]")) from rfl, hu]
  show ('[' :: (l0.data ++ [']'])) ++ u = _
  rw [h0]
  show '[' :: c0 :: ((r0 ++ [']']) ++ u) = _
  rfl

/-- Appending text preserves the first two characters. -/
theorem head_extend {s : String} {c0 c1 : Char} {w : List Char}
    (h : s.data = c0 :: c1 :: w) (f : String) :
    ∃ w2, (s ++ f).data = c0 :: c1 :: w2 := by
  refine ⟨w ++ f.data, ?_⟩
  show s.data ++ f.data = _
  rw [h]
  rfl

/-- The emitted video split nodes contain the header of input `idx` exactly
once when `idx` is split, never otherwise. -/
theorem countP_vsplits (idx : Nat) {vrefs vorder : List Nat} (hv : ValidOrder vorder vrefs) :
    ((vorder.filter (fun i => decide (1 < vrefs.count i))).map
        (splitFilterStr ":v" "split" "vsplit" vrefs)).countP
      (fun s => strStarts ("[" ++ (natStr idx ++ ":v") ++ "]" ++ "split=") s)
      = if 1 < vrefs.count idx then 1 else 0 := by
  rw [List.countP_map]
  have hcg : ∀ i ∈ vorder.filter (fun i => decide (1 < vrefs.count i)),
      ((fun s => strStarts ("[" ++ (natStr idx ++ ":v") ++ "]" ++ "split=") s)
        ∘ splitFilterStr ":v" "split" "vsplit" vrefs) i = true ↔ (i == idx) = true := by
    intro i hi
    show strStarts _ _ = true ↔ _
    rw [strStarts_pv_vnode]
  rw [List.countP_congr hcg, ← List.count_eq_countP]
  by_cases hN : 1 < vrefs.count idx
  · rw [if_pos hN]
    refine List.count_eq_one_of_mem (hv.1.filter _) ?_
    rw [List.mem_filter]
    exact ⟨(hv.2 idx).mpr (List.count_pos_iff.mp (by omega)), by simpa using hN⟩
  · rw [if_neg hN]
    refine List.count_eq_zero_of_not_mem ?_
    intro hmem
    rw [List.mem_filter] at hmem
    exact hN (by simpa using hmem.2)

/-- The emitted audio split nodes contain the header of input `idx` exactly
once when `idx` is split, never otherwise. -/
theorem countP_asplits (idx : Nat) {arefs aorder : List Nat} (ha : ValidOrder aorder arefs) :
    ((aorder.filter (fun i => decide (1 < arefs.count i))).map
        (splitFilterStr ":a" "asplit" "asplit" arefs)).countP
      (fun s => strStarts ("[" ++ (natStr idx ++ ":a") ++ "]" ++ "asplit=") s)
      = if 1 < arefs.count idx then 1 else 0 := by
  rw [List.countP_map]
  have hcg : ∀ i ∈ aorder.filter (fun i => decide (1 < arefs.count i)),
      ((fun s => strStarts ("[" ++ (natStr idx ++ ":a") ++ "]" ++ "asplit=") s)
        ∘ splitFilterStr ":a" "asplit" "asplit" arefs) i = true ↔ (i == idx) = true := by
    intro i hi
    show strStarts _ _ = true ↔ _
    rw [strStarts_pa_anode]
  rw [List.countP_congr hcg, ← List.count_eq_countP]
  by_cases hN : 1 < arefs.count idx
  · rw [if_pos hN]
    refine List.count_eq_one_of_mem (ha.1.filter _) ?_
    rw [List.mem_filter]
    exact ⟨(ha.2 idx).mpr (List.count_pos_iff.mp (by omega)), by simpa using hN⟩
  · rw [if_neg hN]
    refine List.count_eq_zero_of_not_mem ?_
    intro hmem
    rw [List.mem_filter] at hmem
    exact hN (by simpa using hmem.2)

/-- Video split nodes never carry an audio split header. -/
theorem countP_vsplits_pa (idx : Nat) (vrefs vorder : List Nat) :
    ((vorder.filter (fun i => decide (1 < vrefs.count i))).map
        (splitFilterStr ":v" "split" "vsplit" vrefs)).countP
      (fun s => strStarts ("[" ++ (natStr idx ++ ":a") ++ "]" ++ "asplit=") s) = 0 := by
  refine countP_zero_of_all ?_
  intro s hs
  rw [List.mem_map] at hs
  obtain ⟨i, _, rfl⟩ := hs
  exact strStarts_pa_vnode idx vrefs i

/-- Audio split nodes never carry a video split header. -/
theorem countP_asplits_pv (idx : Nat) (arefs aorder : List Nat) :
    ((aorder.filter (fun i => decide (1 < arefs.count i))).map
        (splitFilterStr ":a" "asplit" "asplit" arefs)).countP
      (fun s => strStarts ("[" ++ (natStr idx ++ ":v") ++ "]" ++ "split=") s) = 0 := by
  refine countP_zero_of_all ?_
  intro s hs
  rw [List.mem_map] at hs
  obtain ⟨i, _, rfl⟩ := hs
  exact strStarts_pv_anode idx arefs i

/-- The body of a split-node header starts with a digit. -/
theorem header_body_digit_v (idx : Nat) :
    ∃ cc cs, (natStr idx ++ ":v" : String).data = cc :: cs ∧ cc.isDigit = true := by
  obtain ⟨c, cs, hc, hdg⟩ := natStr_head_digit idx
  refine ⟨c, cs ++ (':' :: 'v' :: []), ?_, hdg⟩
  show (natStr idx).data ++ (':' :: 'v' :: []) = _
  rw [hc]
  rfl

/-- The body of an audio split-node header starts with a digit. -/
theorem header_body_digit_a (idx : Nat) :
    ∃ cc cs, (natStr idx ++ ":a" : String).data = cc :: cs ∧ cc.isDigit = true := by
  obtain ⟨c, cs, hc, hdg⟩ := natStr_head_digit idx
  refine ⟨c, cs ++ (':' :: 'a' :: []), ?_, hdg⟩
  show (natStr idx).data ++ (':' :: 'a' :: []) = _
  rw [hc]
  rfl

/-- Concat and subtitle nodes on the video side never carry a split-node
header. -/
theorem countP_vconcat_zero {b q : String}
    (hd : ∃ cc cs, b.data = cc :: cs ∧ cc.isDigit = true)
    (vlabels : List String) (hvl : ∀ l ∈ vlabels, ∃ rest, l.data = 'v' :: rest)
    (sube : Bool) (subt : Option SubtitleTrack) (tempDir : String) (epochSecs : Nat) :
    (if vlabels.isEmpty then ([] : List String)
      else (String.join (vlabels.map (fun l => "[" ++ l ++ "]")) ++ "concat=n="
          ++ natStr vlabels.length ++ ":v=1:a=0"
          ++ (if sube && subt.isSome then "[vconcat]" else "[outv]"))
        :: (if sube then
              match subt with
              | some _ => ["[vconcat]subtitles="
                  ++ escapePath (tempDir ++ "/clipforge_subtitles_" ++ natStr epochSecs
                    ++ ".srt")
                  ++ subtitleStyle ++ "[outv]"]
              | none => []
            else [])).countP (fun s => strStarts ("[" ++ b ++ "]" ++ q) s) = 0 := by
  refine countP_zero_of_all ?_
  intro s hs
  cases hvlab : vlabels with
  | nil =>
    rw [hvlab] at hs
    simp at hs
  | cons l0 ls =>
    rw [hvlab] at hs
    rw [if_neg (by simp)] at hs
    rcases List.mem_cons.mp hs with hmain | hsub
    · subst hmain
      obtain ⟨r0, h0⟩ := hvl l0 (by rw [hvlab]; exact List.mem_cons_self _ _)
      obtain ⟨w, hw⟩ := join_head h0
      obtain ⟨w1, hw1⟩ := head_extend hw "concat=n="
      obtain ⟨w2, hw2⟩ := head_extend hw1 (natStr (l0 :: ls).length)
      obtain ⟨w3, hw3⟩ := head_extend hw2 ":v=1:a=0"
      obtain ⟨w4, hw4⟩ := head_extend hw3
        (if sube && subt.isSome then "[vconcat]" else "[outv]")
      exact strStarts_brq_alpha_false hd (by decide) hw4
    · cases hse : sube with
      | false =>
        rw [hse] at hsub
        simp at hsub
      | true =>
        rw [hse] at hsub
        rw [if_pos rfl] at hsub
        cases hst : subt with
        | none =>
          rw [hst] at hsub
          simp at hsub
        | some stt =>
          rw [hst] at hsub
          have hs' : s = "[vconcat]subtitles="
              ++ escapePath (tempDir ++ "/clipforge_subtitles_" ++ natStr epochSecs ++ ".srt")
              ++ subtitleStyle ++ "[outv]" := by simpa using hsub
          subst hs'
          exact strStarts_brq_alpha_false hd (by decide)
            (show _ = '[' :: 'v' :: _ from rfl)

/-- The concat node on the audio side never carries a split-node header. -/
theorem countP_aconcat_zero {b q : String}
    (hd : ∃ cc cs, b.data = cc :: cs ∧ cc.isDigit = true)
    (alabels : List String) (hal : ∀ l ∈ alabels, ∃ rest, l.data = 'a' :: rest) :
    (if alabels.isEmpty then ([] : List String)
      else [String.join (alabels.map (fun l => "[" ++ l ++ "]")) ++ "concat=n="
        ++ natStr alabels.length ++ ":v=0:a=1[outa]"]).countP
      (fun s => strStarts ("[" ++ b ++ "]" ++ q) s) = 0 := by
  refine countP_zero_of_all ?_
  intro s hs
  cases halab : alabels with
  | nil =>
    rw [halab] at hs
    simp at hs
  | cons l0 ls =>
    rw [halab] at hs
    rw [if_neg (by simp)] at hs
    have hs' : s = String.join ((l0 :: ls).map (fun l => "[" ++ l ++ "]")) ++ "concat=n="
        ++ natStr (l0 :: ls).length ++ ":v=0:a=1[outa]" := by simpa using hs
    subst hs'
    obtain ⟨r0, h0⟩ := hal l0 (by rw [halab]; exact List.mem_cons_self _ _)
    obtain ⟨w, hw⟩ := join_head h0
    obtain ⟨w1, hw1⟩ := head_extend hw "concat=n="
    obtain ⟨w2, hw2⟩ := head_extend hw1 (natStr (l0 :: ls).length)
    obtain ⟨w3, hw3⟩ := head_extend hw2 ":v=0:a=1[outa]"
    exact strStarts_brq_alpha_false hd (by decide) hw3

/-- C6: fan-out deduplication.  For a successfully compiled filter graph and
every registered input index: on the video side, an index referenced more than
once gets exactly one `split` node (one graph node starts with
`[idx:v]split=`), that node is the emitted split filter with one labeled
output per reference, each split output `[vsplitIDX_tmpJ]` is consumed by
exactly one per-clip chain, and no chain reads the raw `[idx:v]` stream; an
index referenced exactly once gets no split node and exactly one chain reads
`[idx:v]` directly.  The same holds independently on the audio side with
`asplit`, `[asplitIDX_tmpJ]` and `[idx:a]`.  `vorder`/`aorder` are the
iteration orders of the usage-count maps, `vctr`/`actr`/`chains` and the
labels are the outcome of the chain pass. -/
theorem c6_fanout_dedup
    {tl : Timeline} {im : List (String × Nat)} {vorder aorder : List Nat}
    {tempDir : String} {epochSecs : Nat} {fs : List String}
    {vctr actr : Nat → Nat} {chains vlabels alabels : List String}
    (hv : ValidOrder vorder (refsOf isVideoTrack tl im))
    (ha : ValidOrder aorder (refsOf isAudioTrack tl im))
    (hpt : processTracks im (splitMap "vsplit" (refsOf isVideoTrack tl im))
        (splitMap "asplit" (refsOf isAudioTrack tl im)) tl.tracks.enum
        (fun _ => 0) (fun _ => 0) = Except.ok (vctr, actr, chains, vlabels, alabels))
    (hfs : buildFilters tl im vorder aorder tempDir epochSecs = Except.ok fs)
    (idx : Nat) :
    (1 < (refsOf isVideoTrack tl im).count idx →
      fs.countP (fun s => strStarts ("[" ++ (natStr idx ++ ":v") ++ "]" ++ "split=") s) = 1
      ∧ splitFilterStr ":v" "split" "vsplit" (refsOf isVideoTrack tl im) idx ∈ fs
      ∧ (splitOutputs "vsplit" idx ((refsOf isVideoTrack tl im).count idx)).length
          = (refsOf isVideoTrack tl im).count idx
      ∧ (∀ j < (refsOf isVideoTrack tl im).count idx,
          chains.countP (fun s => strStarts (vOut idx j) s) = 1)
      ∧ chains.countP (fun s => strStarts (rawV idx) s) = 0)
    ∧ ((refsOf isVideoTrack tl im).count idx = 1 →
      fs.countP (fun s => strStarts ("[" ++ (natStr idx ++ ":v") ++ "]" ++ "split=") s) = 0
      ∧ chains.countP (fun s => strStarts (rawV idx) s) = 1)
    ∧ (1 < (refsOf isAudioTrack tl im).count idx →
      fs.countP (fun s => strStarts ("[" ++ (natStr idx ++ ":a") ++ "]" ++ "asplit=") s) = 1
      ∧ splitFilterStr ":a" "asplit" "asplit" (refsOf isAudioTrack tl im) idx ∈ fs
      ∧ (splitOutputs "asplit" idx ((refsOf isAudioTrack tl im).count idx)).length
          = (refsOf isAudioTrack tl im).count idx
      ∧ (∀ j < (refsOf isAudioTrack tl im).count idx,
          chains.countP (fun s => strStarts (aOut idx j) s) = 1)
      ∧ chains.countP (fun s => strStarts (rawA idx) s) = 0)
    ∧ ((refsOf isAudioTrack tl im).count idx = 1 →
      fs.countP (fun s => strStarts ("[" ++ (natStr idx ++ ":a") ++ "]" ++ "asplit=") s) = 0
      ∧ chains.countP (fun s => strStarts (rawA idx) s) = 1) := by
  simp only [buildFilters, hpt, Except.ok.injEq] at hfs
  have hVR : ((tl.tracks.enum.map Prod.snd).filter (fun t => !t.muted && isVideoTrack t)).flatMap
      (fun t => t.clips.filterMap (fun c => lookupA im c.media_file_id))
      = refsOf isVideoTrack tl im := by
    rw [List.enum_map_snd]
    rfl
  have hAR : ((tl.tracks.enum.map Prod.snd).filter (fun t => !t.muted && isAudioTrack t)).flatMap
      (fun t => t.clips.filterMap (fun c => lookupA im c.media_file_id))
      = refsOf isAudioTrack tl im := by
    rw [List.enum_map_snd]
    rfl
  obtain ⟨hcntP, hz_split, hz_asplit, hvl, hal⟩ := processTracks_corr hpt
  rw [hVR, hAR] at hcntP
  have hvczero : ∀ b q : String, (∃ cc cs, b.data = cc :: cs ∧ cc.isDigit = true) →
      ∀ s ∈ (if vlabels.isEmpty then ([] : List String)
        else (String.join (vlabels.map (fun l => "[" ++ l ++ "]")) ++ "concat=n="
            ++ natStr vlabels.length ++ ":v=1:a=0"
            ++ (if tl.subtitle_enabled && tl.subtitle_track.isSome then "[vconcat]"
              else "[outv]"))
          :: (if tl.subtitle_enabled then
                match tl.subtitle_track with
                | some _ => ["[vconcat]subtitles="
                    ++ escapePath (tempDir ++ "/clipforge_subtitles_" ++ natStr epochSecs
                      ++ ".srt")
                    ++ subtitleStyle ++ "[outv]"]
                | none => []
              else [])),
        strStarts ("[" ++ b ++ "]" ++ q) s = false := by
    intro b q hd s hs
    cases hvlab : vlabels with
    | nil =>
      rw [hvlab] at hs
      simp at hs
    | cons l0 ls =>
      rw [hvlab] at hs
      rw [if_neg (by simp)] at hs
      rcases List.mem_cons.mp hs with hmain | hsub
      · subst hmain
        obtain ⟨r0, h0⟩ := hvl l0 (by rw [hvlab]; exact List.mem_cons_self _ _)
        obtain ⟨w, hw⟩ := join_head h0
        obtain ⟨w1, hw1⟩ := head_extend hw "concat=n="
        obtain ⟨w2, hw2⟩ := head_extend hw1 (natStr (l0 :: ls).length)
        obtain ⟨w3, hw3⟩ := head_extend hw2 ":v=1:a=0"
        obtain ⟨w4, hw4⟩ := head_extend hw3
          (if tl.subtitle_enabled && tl.subtitle_track.isSome then "[vconcat]" else "[outv]")
        exact strStarts_brq_alpha_false hd (by decide) hw4
      · cases hse : tl.subtitle_enabled with
        | false =>
          rw [hse] at hsub
          simp at hsub
        | true =>
          rw [hse] at hsub
          rw [if_pos rfl] at hsub
          cases hst : tl.subtitle_track with
          | none =>
            rw [hst] at hsub
            simp at hsub
          | some stt =>
            rw [hst] at hsub
            have hs' : s = "[vconcat]subtitles="
                ++ escapePath (tempDir ++ "/clipforge_subtitles_" ++ natStr epochSecs
                  ++ ".srt")
                ++ subtitleStyle ++ "[outv]" := by simpa using hsub
            subst hs'
            exact strStarts_brq_alpha_false hd (by decide)
              (show _ = '[' :: 'v' :: _ from rfl)
  have haczero : ∀ b q : String, (∃ cc cs, b.data = cc :: cs ∧ cc.isDigit = true) →
      ∀ s ∈ (if alabels.isEmpty then ([] : List String)
        else [String.join (alabels.map (fun l => "[" ++ l ++ "]")) ++ "concat=n="
          ++ natStr alabels.length ++ ":v=0:a=1[outa]"]),
        strStarts ("[" ++ b ++ "]" ++ q) s = false := by
    intro b q hd s hs
    cases halab : alabels with
    | nil =>
      rw [halab] at hs
      simp at hs
    | cons l0 ls =>
      rw [halab] at hs
      rw [if_neg (by simp)] at hs
      have hs' : s = String.join ((l0 :: ls).map (fun l => "[" ++ l ++ "]")) ++ "concat=n="
          ++ natStr (l0 :: ls).length ++ ":v=0:a=1[outa]" := by simpa using hs
      subst hs'
      obtain ⟨r0, h0⟩ := hal l0 (by rw [halab]; exact List.mem_cons_self _ _)
      obtain ⟨w, hw⟩ := join_head h0
      obtain ⟨w1, hw1⟩ := head_extend hw "concat=n="
      obtain ⟨w2, hw2⟩ := head_extend hw1 (natStr (l0 :: ls).length)
      obtain ⟨w3, hw3⟩ := head_extend hw2 ":v=0:a=1[outa]"
      exact strStarts_brq_alpha_false hd (by decide) hw3
  refine ⟨?_, ?_, ?_, ?_⟩
  · intro hN
    refine ⟨?_, ?_, by simp [splitOutputs], ?_, ?_⟩
    · rw [← hfs]
      rw [List.countP_append, List.countP_append, List.countP_append, List.countP_append]
      rw [countP_vsplits idx hv, countP_asplits_pv idx _ _,
        hz_split _ (rbracket_not_mem_rv idx), if_pos hN]
      rw [countP_zero_of_all (hvczero _ "split=" (header_body_digit_v idx)),
        countP_zero_of_all (haczero _ "split=" (header_body_digit_v idx))]
    · rw [← hfs]
      refine List.mem_append_left _ (List.mem_append_left _ (List.mem_append_left _
        (List.mem_append_left _ ?_)))
      refine List.mem_map.mpr ⟨idx, ?_, rfl⟩
      rw [List.mem_filter]
      exact ⟨(hv.2 idx).mpr (List.count_pos_iff.mp (by omega)), by simpa using hN⟩
    · intro j hj
      rw [hcntP (vOut idx j) ⟨"vsplit" ++ natStr idx ++ "_tmp" ++ natStr j,
        vOut_bracket idx j, rbracket_not_mem_vb idx j⟩]
      have h1 := trace_count_vOut hN hj (refsOf isVideoTrack tl im) (fun _ => 0) rfl
      simp only [Nat.zero_le, if_pos] at h1
      rw [h1, trace_vOut_in_atrace]
    · rw [hcntP (rawV idx) ⟨natStr idx ++ ":v", rawV_bracket idx, rbracket_not_mem_rv idx⟩,
        trace_count_rawV_pos hN, trace_rawV_in_atrace]
  · intro hN1
    refine ⟨?_, ?_⟩
    · rw [← hfs]
      rw [List.countP_append, List.countP_append, List.countP_append, List.countP_append]
      rw [countP_vsplits idx hv, countP_asplits_pv idx _ _,
        hz_split _ (rbracket_not_mem_rv idx), if_neg (by omega)]
      rw [countP_zero_of_all (hvczero _ "split=" (header_body_digit_v idx)),
        countP_zero_of_all (haczero _ "split=" (header_body_digit_v idx))]
    · rw [hcntP (rawV idx) ⟨natStr idx ++ ":v", rawV_bracket idx, rbracket_not_mem_rv idx⟩,
        trace_count_rawV_none (lookupN_splitMap_le (by omega)), trace_rawV_in_atrace, hN1]
  · intro hN
    refine ⟨?_, ?_, by simp [splitOutputs], ?_, ?_⟩
    · rw [← hfs]
      rw [List.countP_append, List.countP_append, List.countP_append, List.countP_append]
      rw [countP_vsplits_pa idx _ _, countP_asplits idx ha,
        hz_asplit _ (rbracket_not_mem_ra idx), if_pos hN]
      rw [countP_zero_of_all (hvczero _ "asplit=" (header_body_digit_a idx)),
        countP_zero_of_all (haczero _ "asplit=" (header_body_digit_a idx))]
    · rw [← hfs]
      refine List.mem_append_left _ (List.mem_append_left _ (List.mem_append_left _
        (List.mem_append_right _ ?_)))
      refine List.mem_map.mpr ⟨idx, ?_, rfl⟩
      rw [List.mem_filter]
      exact ⟨(ha.2 idx).mpr (List.count_pos_iff.mp (by omega)), by simpa using hN⟩
    · intro j hj
      rw [hcntP (aOut idx j) ⟨"asplit" ++ natStr idx ++ "_tmp" ++ natStr j,
        aOut_bracket idx j, rbracket_not_mem_ab idx j⟩]
      have h1 := trace_count_aOut hN hj (refsOf isAudioTrack tl im) (fun _ => 0) rfl
      simp only [Nat.zero_le, if_pos] at h1
      rw [h1, trace_aOut_in_vtrace]
    · rw [hcntP (rawA idx) ⟨natStr idx ++ ":a", rawA_bracket idx, rbracket_not_mem_ra idx⟩,
        trace_count_rawA_pos hN, trace_rawA_in_vtrace]
  · intro hN1
    refine ⟨?_, ?_⟩
    · rw [← hfs]
      rw [List.countP_append, List.countP_append, List.countP_append, List.countP_append]
      rw [countP_vsplits_pa idx _ _, countP_asplits idx ha,
        hz_asplit _ (rbracket_not_mem_ra idx), if_neg (by omega)]
      rw [countP_zero_of_all (hvczero _ "asplit=" (header_body_digit_a idx)),
        countP_zero_of_all (haczero _ "asplit=" (header_body_digit_a idx))]
    · rw [hcntP (rawA idx) ⟨natStr idx ++ ":a", rawA_bracket idx, rbracket_not_mem_ra idx⟩,
        trace_count_rawA_none (lookupN_splitMap_le (by omega)), trace_rawA_in_vtrace, hN1]

set_option maxRecDepth 10000 in
set_option maxHeartbeats 1000000 in
/-- Witness for C6: on the export fixture (two registered inputs, each
referenced by two clips of the single video track), input 0 is used twice,
the compiled graph contains exactly one node starting with `[0:v]split=`,
and that node is the emitted split filter. -/
theorem c6_witness :
    1 < (refsOf isVideoTrack tlX [("m1", 0), ("m2", 1)]).count 0
    ∧ (["[0:v]split=2[vsplit0_tmp0][vsplit0_tmp1]",
        "[1:v]split=2[vsplit1_tmp0][vsplit1_tmp1]",
        "[vsplit0_tmp0]trim=start=0:duration=5,setpts=PTS-STARTPTS[v0_0]",
        "[vsplit0_tmp1]trim=start=0:duration=5,setpts=PTS-STARTPTS[v0_1]",
        "[vsplit1_tmp0]trim=start=0:duration=5,setpts=PTS-STARTPTS[v0_2]",
        "[vsplit1_tmp1]trim=start=0:duration=5,setpts=PTS-STARTPTS[v0_3]",
        "[v0_0][v0_1][v0_2][v0_3]concat=n=4:v=1:a=0[outv]"].countP
        (fun s => strStarts ("[" ++ (natStr 0 ++ ":v") ++ "]" ++ "split=") s) = 1)
    ∧ splitFilterStr ":v" "split" "vsplit" (refsOf isVideoTrack tlX [("m1", 0), ("m2", 1)]) 0
      ∈ ["[0:v]split=2[vsplit0_tmp0][vsplit0_tmp1]",
        "[1:v]split=2[vsplit1_tmp0][vsplit1_tmp1]",
        "[vsplit0_tmp0]trim=start=0:duration=5,setpts=PTS-STARTPTS[v0_0]",
        "[vsplit0_tmp1]trim=start=0:duration=5,setpts=PTS-STARTPTS[v0_1]",
        "[vsplit1_tmp0]trim=start=0:duration=5,setpts=PTS-STARTPTS[v0_2]",
        "[vsplit1_tmp1]trim=start=0:duration=5,setpts=PTS-STARTPTS[v0_3]",
        "[v0_0][v0_1][v0_2][v0_3]concat=n=4:v=1:a=0[outv]"] := by
  have h0 : showQ 0 = "0" := by decide
  have h5 : showQ 5 = "5" := by decide
  have hsp : ¬((1 : ℚ)/100 < |(1 : ℚ) - 1|) := by norm_num
  have hfs0 : buildFilters tlX [("m1", 0), ("m2", 1)] [0, 1] [] "/tmp" 0
      = Except.ok ["[0:v]split=2[vsplit0_tmp0][vsplit0_tmp1]",
        "[1:v]split=2[vsplit1_tmp0][vsplit1_tmp1]",
        "[vsplit0_tmp0]trim=start=0:duration=5,setpts=PTS-STARTPTS[v0_0]",
        "[vsplit0_tmp1]trim=start=0:duration=5,setpts=PTS-STARTPTS[v0_1]",
        "[vsplit1_tmp0]trim=start=0:duration=5,setpts=PTS-STARTPTS[v0_2]",
        "[vsplit1_tmp1]trim=start=0:duration=5,setpts=PTS-STARTPTS[v0_3]",
        "[v0_0][v0_1][v0_2][v0_3]concat=n=4:v=1:a=0[outv]"] := by
    simp [buildFilters, lookupA, lookupN, refsOf, splitMap, splitFilterStr, splitOutputs,
      processTracks, processVClips, processAClips, vSource, aSource, bump, videoChainStr,
      audioChainStr, build_effects_filter, isVideoTrack, isAudioTrack, tlX, trackX,
      clipX1, clipX2, clipX3, clipX4, tlW, create_timeline, List.enum, List.enumFrom,
      h0, h5, hsp]
    decide
  have hr : refsOf isVideoTrack tlX [("m1", 0), ("m2", 1)] = [0, 0, 1, 1] := by decide
  have hra : refsOf isAudioTrack tlX [("m1", 0), ("m2", 1)] = ([] : List Nat) := by decide
  have hv : ValidOrder [0, 1] (refsOf isVideoTrack tlX [("m1", 0), ("m2", 1)]) := by
    refine ⟨by decide, fun i => ?_⟩
    rw [hr]
    simp
  have ha : ValidOrder [] (refsOf isAudioTrack tlX [("m1", 0), ("m2", 1)]) := by
    refine ⟨List.nodup_nil, fun i => ?_⟩
    rw [hra]
  have hN : 1 < (refsOf isVideoTrack tlX [("m1", 0), ("m2", 1)]).count 0 := by
    rw [hr]
    decide
  rcases hpt0 : processTracks [("m1", 0), ("m2", 1)]
      (splitMap "vsplit" (refsOf isVideoTrack tlX [("m1", 0), ("m2", 1)]))
      (splitMap "asplit" (refsOf isAudioTrack tlX [("m1", 0), ("m2", 1)]))
      tlX.tracks.enum (fun _ => 0) (fun _ => 0) with e | ⟨vc, ac, chains, vls, als⟩
  · simp only [buildFilters] at hfs0
    rw [hpt0] at hfs0
    simp at hfs0
  · obtain ⟨hc1, hc2, _, _, _⟩ := (c6_fanout_dedup hv ha hpt0 hfs0 0).1 hN
    exact ⟨hN, hc1, hc2⟩

set_option maxRecDepth 10000 in
set_option maxHeartbeats 1000000 in
/-- C5: the compiled ffmpeg command is not deterministic.  On a fixed timeline
(four clips referencing two registered inputs twice each), fixed settings,
fixed output path and fixed media registry, two iteration orders of the video
usage-count `HashMap` — both valid orders of its key set `{0, 1}` — produce
different `-filter_complex` strings and hence different argument lists: the
two emitted `split` filters swap places. -/
theorem c5_command_not_deterministic :
    registerTracks mediaX tlX.tracks [] [] 0
      = Except.ok (["-i", "/a.mp4", "-i", "/b.mp4"], [("m1", 0), ("m2", 1)], 2)
    ∧ ValidOrder [0, 1] (refsOf isVideoTrack tlX [("m1", 0), ("m2", 1)])
    ∧ ValidOrder [1, 0] (refsOf isVideoTrack tlX [("m1", 0), ("m2", 1)])
    ∧ build_ffmpeg_command tlX settingsX "out.mp4" mediaX [0, 1] [] "/tmp" 0
      = Except.ok ["-y", "-i", "/a.mp4", "-i", "/b.mp4", "-filter_complex",
        "[0:v]split=2[vsplit0_tmp0][vsplit0_tmp1];[1:v]split=2[vsplit1_tmp0][vsplit1_tmp1];[vsplit0_tmp0]trim=start=0:duration=5,setpts=PTS-STARTPTS[v0_0];[vsplit0_tmp1]trim=start=0:duration=5,setpts=PTS-STARTPTS[v0_1];[vsplit1_tmp0]trim=start=0:duration=5,setpts=PTS-STARTPTS[v0_2];[vsplit1_tmp1]trim=start=0:duration=5,setpts=PTS-STARTPTS[v0_3];[v0_0][v0_1][v0_2][v0_3]concat=n=4:v=1:a=0[outv]",
        "-map", "[outv]", "-map", "[outa]", "-threads", "0", "-max_muxing_queue_size", "1024",
        "-max_interleave_delta", "500M", "-c:v", "libx264", "-b:v", "8000k", "-c:a", "aac",
        "-b:a", "192k", "-r", "30", "-s", "1920x1080", "-progress", "pipe:1", "out.mp4"]
    ∧ build_ffmpeg_command tlX settingsX "out.mp4" mediaX [1, 0] [] "/tmp" 0
      = Except.ok ["-y", "-i", "/a.mp4", "-i", "/b.mp4", "-filter_complex",
        "[1:v]split=2[vsplit1_tmp0][vsplit1_tmp1];[0:v]split=2[vsplit0_tmp0][vsplit0_tmp1];[vsplit0_tmp0]trim=start=0:duration=5,setpts=PTS-STARTPTS[v0_0];[vsplit0_tmp1]trim=start=0:duration=5,setpts=PTS-STARTPTS[v0_1];[vsplit1_tmp0]trim=start=0:duration=5,setpts=PTS-STARTPTS[v0_2];[vsplit1_tmp1]trim=start=0:duration=5,setpts=PTS-STARTPTS[v0_3];[v0_0][v0_1][v0_2][v0_3]concat=n=4:v=1:a=0[outv]",
        "-map", "[outv]", "-map", "[outa]", "-threads", "0", "-max_muxing_queue_size", "1024",
        "-max_interleave_delta", "500M", "-c:v", "libx264", "-b:v", "8000k", "-c:a", "aac",
        "-b:a", "192k", "-r", "30", "-s", "1920x1080", "-progress", "pipe:1", "out.mp4"]
    ∧ build_ffmpeg_command tlX settingsX "out.mp4" mediaX [0, 1] [] "/tmp" 0
      ≠ build_ffmpeg_command tlX settingsX "out.mp4" mediaX [1, 0] [] "/tmp" 0 := by
  have h0 : showQ 0 = "0" := by decide
  have h5 : showQ 5 = "5" := by decide
  have h30 : showQ 30 = "30" := by decide
  have hsp : ¬((1 : ℚ)/100 < |(1 : ℚ) - 1|) := by norm_num
  have h1 : build_ffmpeg_command tlX settingsX "out.mp4" mediaX [0, 1] [] "/tmp" 0
      = Except.ok ["-y", "-i", "/a.mp4", "-i", "/b.mp4", "-filter_complex",
        "[0:v]split=2[vsplit0_tmp0][vsplit0_tmp1];[1:v]split=2[vsplit1_tmp0][vsplit1_tmp1];[vsplit0_tmp0]trim=start=0:duration=5,setpts=PTS-STARTPTS[v0_0];[vsplit0_tmp1]trim=start=0:duration=5,setpts=PTS-STARTPTS[v0_1];[vsplit1_tmp0]trim=start=0:duration=5,setpts=PTS-STARTPTS[v0_2];[vsplit1_tmp1]trim=start=0:duration=5,setpts=PTS-STARTPTS[v0_3];[v0_0][v0_1][v0_2][v0_3]concat=n=4:v=1:a=0[outv]",
        "-map", "[outv]", "-map", "[outa]", "-threads", "0", "-max_muxing_queue_size", "1024",
        "-max_interleave_delta", "500M", "-c:v", "libx264", "-b:v", "8000k", "-c:a", "aac",
        "-b:a", "192k", "-r", "30", "-s", "1920x1080", "-progress", "pipe:1", "out.mp4"] := by
    simp [build_ffmpeg_command, registerTracks, registerClips, lookupA, lookupN,
      build_filter_complex, buildFilters, refsOf, splitMap, splitFilterStr, splitOutputs,
      processTracks, processVClips, processAClips, vSource, aSource, bump, videoChainStr,
      audioChainStr, build_effects_filter, isVideoTrack, isAudioTrack, tlX, trackX,
      clipX1, clipX2, clipX3, clipX4, mediaX, settingsX, tlW, create_timeline,
      List.enum, List.enumFrom, h0, h5, h30, hsp]
    decide
  have h2 : build_ffmpeg_command tlX settingsX "out.mp4" mediaX [1, 0] [] "/tmp" 0
      = Except.ok ["-y", "-i", "/a.mp4", "-i", "/b.mp4", "-filter_complex",
        "[1:v]split=2[vsplit1_tmp0][vsplit1_tmp1];[0:v]split=2[vsplit0_tmp0][vsplit0_tmp1];[vsplit0_tmp0]trim=start=0:duration=5,setpts=PTS-STARTPTS[v0_0];[vsplit0_tmp1]trim=start=0:duration=5,setpts=PTS-STARTPTS[v0_1];[vsplit1_tmp0]trim=start=0:duration=5,setpts=PTS-STARTPTS[v0_2];[vsplit1_tmp1]trim=start=0:duration=5,setpts=PTS-STARTPTS[v0_3];[v0_0][v0_1][v0_2][v0_3]concat=n=4:v=1:a=0[outv]",
        "-map", "[outv]", "-map", "[outa]", "-threads", "0", "-max_muxing_queue_size", "1024",
        "-max_interleave_delta", "500M", "-c:v", "libx264", "-b:v", "8000k", "-c:a", "aac",
        "-b:a", "192k", "-r", "30", "-s", "1920x1080", "-progress", "pipe:1", "out.mp4"] := by
    simp [build_ffmpeg_command, registerTracks, registerClips, lookupA, lookupN,
      build_filter_complex, buildFilters, refsOf, splitMap, splitFilterStr, splitOutputs,
      processTracks, processVClips, processAClips, vSource, aSource, bump, videoChainStr,
      audioChainStr, build_effects_filter, isVideoTrack, isAudioTrack, tlX, trackX,
      clipX1, clipX2, clipX3, clipX4, mediaX, settingsX, tlW, create_timeline,
      List.enum, List.enumFrom, h0, h5, h30, hsp]
    decide
  have hr : refsOf isVideoTrack tlX [("m1", 0), ("m2", 1)] = [0, 0, 1, 1] := by decide
  refine ⟨rfl, ⟨by decide, fun i => ?_⟩, ⟨by decide, fun i => ?_⟩, h1, h2, ?_⟩
  · rw [hr]; simp
  · rw [hr]; simp; tauto
  · rw [h1, h2]
    simp

end Clipforge
